import Mathlib

/-!
# Letter numbering: reference-number codec, sequence allocator, access scope

Shallow embedding of `src/context/LetterContext.js`.

Modelling conventions.
* A JavaScript string is a `List Char` (`Str`).  The empty list is the empty
  string, the only falsy string.
* A JavaScript number that the program uses as a sequence number, a starting
  number or a year is an `Int`; `0` is the only falsy integer.  Fractional
  values, `NaN`, `Infinity`, the rounding of sums beyond `2^53` and the exponent
  form of `String(n)` for `|n| ≥ 10^21` are outside the model.
* `Number(digits)` reads a digit string as the nearest IEEE 754 double
  (`numberOfDigits`): the exact value below `2^53`, a rounded one beyond.
* `String.prototype.toLowerCase` is a built-in of the engine, not code of the
  repository.  It is a parameter of the model (`JsEngine`), fixed on ASCII
  strings only; the theorems hold for every engine, and the evaluations on the
  example inputs, which are ASCII strings, run in `asciiEngine`.
* An argument that may be `undefined`/`null` is an `Option`; `none` is falsy.
* `new Date().getFullYear()` is the explicit argument `currentYear`.
-/

namespace LetterNumbering

/-- A JavaScript string. -/
abbrev Str := List Char

/-! ## JavaScript primitives used by the codec -/

/-- The character of a decimal digit `d < 10`. -/
def digitChar : Nat → Char
  | 0 => '0'
  | 1 => '1'
  | 2 => '2'
  | 3 => '3'
  | 4 => '4'
  | 5 => '5'
  | 6 => '6'
  | 7 => '7'
  | 8 => '8'
  | _ => '9'

/-- Decimal numeral of a natural number, most significant digit first; `fuel`
bounds the number of digits produced. -/
def natDigitsAux : Nat → Nat → Str → Str
  | 0, _, acc => acc
  | fuel + 1, n, acc =>
    if n < 10 then digitChar n :: acc
    else natDigitsAux fuel (n / 10) (digitChar (n % 10) :: acc)

/-- The numeral `String(n)` of a non-negative integer `n`. -/
def natToString (n : Nat) : Str := natDigitsAux (n + 1) n []

/-- The numeral `String(n)` of an integer `n`. -/
def numberToString (n : Int) : Str :=
  if n < 0 then '-' :: natToString n.natAbs else natToString n.natAbs

/-- The call `s.padStart(width, fill)` with a one-character filler string. -/
def padStart (width : Nat) (fill : Char) (s : Str) : Str :=
  List.replicate (width - s.length) fill ++ s

/-- The call `s.slice(-k)`: the last `k` characters, all of `s` when it is shorter. -/
def sliceLast (k : Nat) (s : Str) : Str := s.drop (s.length - k)

/-- Value of a digit character for `Number(...)`. -/
def digitValue (c : Char) : Nat := c.toNat - 48

/-- The mathematical value of a string of decimal digits. -/
def decimalValue (ds : Str) : Nat := ds.foldl (fun acc c => 10 * acc + digitValue c) 0

/-- Number of binary digits of `n`, by repeated halving; `fuel` bounds the number
of halvings. -/
def bitLengthAux : Nat → Nat → Nat
  | 0, _ => 0
  | fuel + 1, n => if n = 0 then 0 else bitLengthAux fuel (n / 2) + 1

/-- Number of binary digits of `n`. -/
def bitLength (n : Nat) : Nat := bitLengthAux n n

/-- The IEEE 754 double nearest to the natural number `n`, as `Number(...)` yields
it: `n` itself below `2^53`; beyond, `n` rounded to 53 significant binary digits,
a tie going to the even significand.  From `2^1024 - 2^970` on the source yields
`Infinity`, which the model does not hold. -/
def roundToDouble (n : Nat) : Nat :=
  if n < 9007199254740992 then n
  else
    let shift := bitLength n - 53
    let q := n / 2 ^ shift
    let r := n % 2 ^ shift
    if 2 ^ shift < 2 * r ∨ (2 * r = 2 ^ shift ∧ q % 2 = 1) then (q + 1) * 2 ^ shift
    else q * 2 ^ shift

/-- The call `Number(ds)` on a non-empty string of decimal digits. -/
def numberOfDigits (ds : Str) : Nat := roundToDouble (decimalValue ds)

/-- JavaScript truthiness of a possibly missing string. -/
def truthyStr : Option Str → Bool
  | some (_ :: _) => true
  | _ => false

/-- JavaScript truthiness of a possibly missing integer. -/
def truthyNum : Option Int → Bool
  | some n => n != 0
  | none => false

/-! ## Reference-number codec -/

/-- Source: `const twoDigitYear = (year) => String(year).slice(-2);` -/
def twoDigitYear (year : Int) : Str := sliceLast 2 (numberToString year)

/-- Source: `buildReferenceNumber(abbr, sequenceNumber, year)`: the empty string
when an input is falsy, else the abbreviation, the sequence padded to four
characters and the two-digit year, joined by slashes. -/
def buildReferenceNumber (abbr : Option Str) (sequenceNumber year : Option Int) : Str :=
  match abbr, sequenceNumber, year with
  | some a, some s, some y =>
    if a = [] ∨ s = 0 ∨ y = 0 then []
    else a ++ '/' :: (padStart 4 '0' (numberToString s) ++ '/' :: twoDigitYear y)
  | _, _, _ => []

/-- The match of `/^[^/]+\/(\d+)\/\d{2}$/` against `reference`: the captured
digit run, or `none` when the pattern does not match.  Every piece of the
pattern is followed by a character it cannot itself consume, so the greedy left to
right scan never backtracks. -/
def matchSequencePattern (reference : Str) : Option Str :=
  let abbr := reference.takeWhile (fun c => c != '/')
  if abbr = [] then none
  else
    match reference.dropWhile (fun c => c != '/') with
    | '/' :: rest =>
      let ds := rest.takeWhile Char.isDigit
      if ds = [] then none
      else
        match rest.dropWhile Char.isDigit with
        | ['/', y1, y2] => if y1.isDigit && y2.isDigit then some ds else none
        | _ => none
    | _ => none

/-- Source: `extractSequenceFromRef(reference)`. -/
def extractSequenceFromRef (reference : Str) : Int :=
  if reference = [] then 0
  else
    match matchSequencePattern reference with
    | some ds => (numberOfDigits ds : Int)
    | none => 0

/-- The match of `/\/(\d{2})$/` against `reference`: the two captured digits,
or `none`.  The pattern is anchored at the end only, so it looks at the last
three characters. -/
def matchYearPattern (reference : Str) : Option Str :=
  match reference.drop (reference.length - 3) with
  | ['/', y1, y2] => if y1.isDigit && y2.isDigit then some [y1, y2] else none
  | _ => none

/-- Source: `extractYearFromRef(reference)`, with the current year explicit. -/
def extractYearFromRef (currentYear : Int) (reference : Str) : Int :=
  if reference = [] then 0
  else
    match matchYearPattern reference with
    | none => 0
    | some dd =>
      let century := currentYear / 100 * 100
      let year := century + (numberOfDigits dd : Int)
      if year > currentYear + 10 then year - 100 else year

/-! ## Data model -/

/-- A cached company, as built by `mapCompany`. -/
structure Company where
  id : Str := []
  name : Str := []
  abbreviation : Str := []
  startingNumber : Int := 1
  color : Str := []
  deriving DecidableEq, Repr

/-- A stored attachment of a letter. -/
structure Attachment where
  id : Str := []
  name : Str := []
  path : Str := []
  size : Nat := 0
  webUrl : Str := []
  deriving DecidableEq, Repr

/-- A cached letter, as built by `mapLetter`. -/
structure Letter where
  id : Str := []
  referenceNumber : Str := []
  companyId : Str := []
  companyName : Str := []
  companyAbbreviation : Str := []
  sequenceNumber : Int := 0
  year : Int := 0
  letterDate : Str := []
  recipientCompany : Str := []
  subject : Str := []
  preparedBy : Str := []
  notes : Str := []
  hasAttachments : Bool := false
  attachmentsLoaded : Bool := false
  attachments : List Attachment := []
  webUrl : Str := []
  createdDateTime : Str := []
  deriving DecidableEq, Repr

/-- A cached access entry, as built by `loadUserAccess`. -/
structure UserAccessEntry where
  id : Str := []
  title : Str := []
  userPrincipalName : Str := []
  role : Str := []
  companyIds : List Str := []
  companyNames : List Str := []
  deriving DecidableEq, Repr

/-- The `loading` flags of the provider state. -/
structure Loading where
  companies : Bool := false
  letters : Bool := false
  creating : Bool := false
  creatingCompany : Bool := false
  updatingCompany : Bool := false
  deletingCompany : Bool := false
  userAccess : Bool := false
  creatingUserAccess : Bool := false
  updatingUserAccess : Bool := false
  deriving DecidableEq, Repr

/-- The reducer state; `initialState` in the source. -/
structure State where
  loading : Loading := {}
  error : Option String := none
  companies : List Company := []
  letters : List Letter := []
  userAccess : List UserAccessEntry := []
  userAccessLoaded : Bool := false
  initialized : Bool := false
  deriving DecidableEq, Repr

/-- Source: `initialState`. -/
def initialState : State := {}

/-- The keys that `SET_LOADING` is dispatched with. -/
inductive LoadingKey where
  | companies | letters | creating | creatingCompany | updatingCompany | deletingCompany
  | userAccess | creatingUserAccess | updatingUserAccess
  deriving DecidableEq, Repr

/-- The assignment `{...state.loading, [key]: value}`. -/
def Loading.set (l : Loading) : LoadingKey → Bool → Loading
  | .companies, v => { l with companies := v }
  | .letters, v => { l with letters := v }
  | .creating, v => { l with creating := v }
  | .creatingCompany, v => { l with creatingCompany := v }
  | .updatingCompany, v => { l with updatingCompany := v }
  | .deletingCompany, v => { l with deletingCompany := v }
  | .userAccess, v => { l with userAccess := v }
  | .creatingUserAccess, v => { l with creatingUserAccess := v }
  | .updatingUserAccess, v => { l with updatingUserAccess := v }

/-- The actions of `letterReducer`. -/
inductive Action where
  | setLoading (key : LoadingKey) (value : Bool)
  | setError (message : Option String)
  | setCompanies (companies : List Company)
  | addCompany (company : Company)
  | updateCompany (id : Str) (company : Company)
  | removeCompany (id : Str)
  | setLetters (letters : List Letter)
  | addLetter (letter : Letter)
  | updateLetter (id : Str) (letter : Letter)
  | setUserAccess (entries : List UserAccessEntry)
  | addUserAccess (entry : UserAccessEntry)
  | removeUserAccess (id : Str)
  | updateUserAccess (id : Str) (entry : UserAccessEntry)
  | setInitialized (value : Bool)
  | setUserAccessReady
  | setLetterAttachments (id : Str) (attachments : List Attachment)

/-- Source: `letterReducer(state, action)`. -/
def letterReducer (state : State) : Action → State
  | .setLoading key value => { state with loading := state.loading.set key value }
  | .setError message => { state with error := message }
  | .setCompanies companies => { state with companies := companies }
  | .addCompany company => { state with companies := state.companies ++ [company] }
  | .updateCompany id company =>
    { state with companies := state.companies.map (fun c => if c.id = id then company else c) }
  | .removeCompany id =>
    { state with companies := state.companies.filter (fun c => c.id != id) }
  | .setLetters letters => { state with letters := letters }
  | .addLetter letter => { state with letters := letter :: state.letters }
  | .updateLetter id letter =>
    { state with letters := state.letters.map (fun l => if l.id = id then letter else l) }
  | .setUserAccess entries => { state with userAccess := entries, userAccessLoaded := true }
  | .addUserAccess entry => { state with userAccess := entry :: state.userAccess }
  | .removeUserAccess id =>
    { state with userAccess := state.userAccess.filter (fun e => e.id != id) }
  | .updateUserAccess id entry =>
    { state with userAccess := state.userAccess.map (fun e => if e.id = id then entry else e) }
  | .setInitialized value => { state with initialized := value }
  | .setUserAccessReady => { state with userAccessLoaded := true }
  | .setLetterAttachments id attachments =>
    { state with
      letters := state.letters.map (fun l =>
        if l.id = id then
          { l with
            attachmentsLoaded := true
            attachments := attachments
            hasAttachments := decide (attachments.length > 0) }
        else l) }

/-! ## Access scope -/

/-- The built-in `String.prototype.toLowerCase` of the JavaScript engine, which
is not code of the repository: the model takes it as a parameter.  It fixes the
function on ASCII strings only, where the letters `A` to `Z` become `a` to `z`
and every other character stays; the Unicode case conversion of the other
characters is left open, so that what is proved holds for each of them. -/
class JsEngine where
  toLowerCase : Str → Str
  toLowerCase_ascii :
    ∀ s : Str, (∀ c ∈ s, c.toNat < 128) → toLowerCase s = s.map Char.toLower

/-- The engine that changes the ASCII letters only.  The example inputs are
ASCII strings, on which every engine agrees with it; the evaluations on the
example inputs run in it. -/
instance asciiEngine : JsEngine where
  toLowerCase s := s.map Char.toLower
  toLowerCase_ascii _ _ := rfl

section
variable [JsEngine]

/-- The call `s.toLowerCase()`. -/
def toLowerCase (s : Str) : Str := JsEngine.toLowerCase s

/-- White space and line terminators that `String.prototype.trim` removes. -/
def isTrimChar (c : Char) : Bool :=
  c.toNat ∈ [9, 10, 11, 12, 13, 32, 160, 5760, 8232, 8233, 8239, 8287, 12288, 65279]
    || (8192 ≤ c.toNat && c.toNat ≤ 8202)

/-- The call `s.trim()`. -/
def trim (s : Str) : Str := ((s.dropWhile isTrimChar).reverse.dropWhile isTrimChar).reverse

/-- Source: `currentUserAccess`: the first entry whose principal name (or, when
that is empty, title) equals the principal `upn` ignoring case; `none` for an
empty principal.  `upn` is `currentUserPrincipalName`, already in lower case. -/
def currentUserAccess (state : State) (upn : Str) : Option UserAccessEntry :=
  if upn = [] then none
  else
    state.userAccess.find? (fun entry =>
      toLowerCase (if entry.userPrincipalName ≠ [] then entry.userPrincipalName else entry.title)
        == upn)

/-- Source: `hasAssignments`. -/
def hasAssignments (state : State) : Bool := decide (state.userAccess.length > 0)

/-- Source: `baseRole`. -/
def baseRole (state : State) (upn : Str) : Str :=
  if !state.userAccessLoaded then "Viewer".toList
  else
    match currentUserAccess state upn with
    | some entry => entry.role
    | none => if hasAssignments state then "Viewer".toList else "Admin".toList

/-- Source: `currentRole = (baseRole || "Viewer").toLowerCase()`. -/
def currentRole (state : State) (upn : Str) : Str :=
  toLowerCase (if baseRole state upn ≠ [] then baseRole state upn else "Viewer".toList)

/-- Source: `isAdmin`. -/
def isAdmin (state : State) (upn : Str) : Bool := currentRole state upn == "admin".toList

/-- Source: `canEditLetters`. -/
def canEditLetters (state : State) (upn : Str) : Bool :=
  currentRole state upn == "admin".toList || currentRole state upn == "editor".toList

/-- Source: `canManageCompanies`. -/
def canManageCompanies (state : State) (upn : Str) : Bool := isAdmin state upn

/-- Source: `allowedCompanySet`: `none` is the source's `null` (unrestricted);
`some ids` is `new Set(ids)`, whose `has` is membership in `ids`. -/
def allowedCompanySet (state : State) (upn : Str) : Option (List Str) :=
  if !state.userAccessLoaded then none
  else
    match currentUserAccess state upn with
    | none => none
    | some entry =>
      if isAdmin state upn then none
      else
        let ids := (entry.companyIds.map trim).filter (fun id => id != [])
        if ids.length = 0 then none else some ids

/-- The test `allowedCompanySet && !allowedCompanySet.has(String(id))`. -/
def outOfScope (state : State) (upn : Str) (id : Str) : Bool :=
  match allowedCompanySet state upn with
  | some ids => !ids.contains id
  | none => false

/-- Source: `scopedCompanies`, exposed as `companies`. -/
def scopedCompanies (state : State) (upn : Str) : List Company :=
  match allowedCompanySet state upn with
  | none => state.companies
  | some ids => state.companies.filter (fun company => ids.contains company.id)

/-- Source: `scopedLetters`, exposed as `letters`. -/
def scopedLetters (state : State) (upn : Str) : List Letter :=
  match allowedCompanySet state upn with
  | none => state.letters
  | some ids => state.letters.filter (fun letter => ids.contains letter.companyId)

/-! ## Sequence allocator -/

/-- Source: `getCompany(companyId)`. -/
def getCompany (state : State) (upn : Str) (companyId : Option Str) : Option Company :=
  match state.companies.find? (fun item => some item.id == companyId) with
  | none => none
  | some company => if outOfScope state upn company.id then none else some company

/-- The call `Math.max(...xs, 0)`. -/
def mathMaxZero (xs : List Int) : Int := xs.foldr max 0

/-- The letters that `getNextSequence` keeps: same company id, same numeric year. -/
def relevantLetters (state : State) (companyId : Str) (year : Int) : List Letter :=
  state.letters.filter (fun letter => letter.companyId == companyId && letter.year == year)

/-- Source: `getNextSequence(companyId, year)`; `none` is the source's `null`. -/
def getNextSequence (state : State) (upn : Str) (companyId : Option Str)
    (year : Option Int) : Option Int :=
  if !truthyStr companyId || !truthyNum year then none
  else
    match companyId, year with
    | some cid, some y =>
      if outOfScope state upn cid then none
      else
        let relevant := relevantLetters state cid y
        if relevant.length = 0 then
          match getCompany state upn (some cid) with
          | some company => some (if company.startingNumber ≠ 0 then company.startingNumber else 1)
          | none => some 1
        else
          let maxExisting :=
            mathMaxZero (relevant.map (fun letter =>
              if letter.sequenceNumber ≠ 0 then letter.sequenceNumber else 0))
          some (maxExisting + 1)
    | _, _ => none

/-- Source: `getReferencePreview(companyId, year)`. -/
def getReferencePreview (state : State) (upn : Str) (companyId : Option Str)
    (year : Option Int) : Str :=
  match getCompany state upn companyId with
  | none => []
  | some company =>
    if !truthyNum year then []
    else
      match getNextSequence state upn companyId year with
      | none => []
      | some nextSequence =>
        if nextSequence = 0 then []
        else buildReferenceNumber (some company.abbreviation) (some nextSequence) year

/-! ## Letter records and letter creation -/

/-- The `fields` of a letter record in the record store; a missing field is `none`. -/
structure LetterFields where
  Title : Option Str := none
  ReferenceNumber : Option Str := none
  CompanyItemId : Option Str := none
  CompanyName : Option Str := none
  CompanyAbbreviation : Option Str := none
  SequenceNumber : Option Int := none
  Year : Option Int := none
  LetterDate : Option Str := none
  RecipientCompany : Option Str := none
  Subject : Option Str := none
  PreparedBy : Option Str := none
  Notes : Option Str := none
  deriving DecidableEq, Repr

/-- A list item returned by the record store. -/
structure LetterItem where
  id : Str := []
  fields : LetterFields := {}
  webUrl : Str := []
  createdDateTime : Str := []
  deriving DecidableEq, Repr

/-- The expression `a || b` on possibly missing strings. -/
def orStr (a b : Option Str) : Option Str := if truthyStr a then a else b

/-- The expression `a || b` on possibly missing integers. -/
def orNum (a b : Option Int) : Option Int := if truthyNum a then a else b

/-- Source: `mapLetter(item)`, with the current year explicit.  A reference that
is `undefined` is stored as the empty string. -/
def mapLetter (currentYear : Int) (item : LetterItem) : Letter :=
  let fields := item.fields
  let reference : Option Str :=
    orStr fields.ReferenceNumber
      (orStr (some (buildReferenceNumber fields.CompanyAbbreviation fields.SequenceNumber
        fields.Year)) fields.Title)
  let sequence : Int :=
    (orNum fields.SequenceNumber (some (extractSequenceFromRef (reference.getD [])))).getD 0
  let year : Int :=
    (orNum fields.Year (some (extractYearFromRef currentYear (reference.getD [])))).getD 0
  { id := item.id
    referenceNumber := reference.getD []
    companyId := (orStr fields.CompanyItemId (some [])).getD []
    companyName := (orStr fields.CompanyName (some [])).getD []
    companyAbbreviation := (orStr fields.CompanyAbbreviation (some [])).getD []
    sequenceNumber := if sequence ≠ 0 then sequence else 0
    year := if year ≠ 0 then year else currentYear
    letterDate := (orStr fields.LetterDate (some item.createdDateTime)).getD []
    recipientCompany := (orStr fields.RecipientCompany (some [])).getD []
    subject := (orStr fields.Subject reference).getD []
    preparedBy := (orStr fields.PreparedBy (some [])).getD []
    notes := (orStr fields.Notes (some [])).getD []
    hasAttachments := false
    attachmentsLoaded := false
    attachments := []
    webUrl := item.webUrl
    createdDateTime := item.createdDateTime }

/-- A file handed to `createLetter` for upload. -/
structure UploadFile where
  name : Str := []
  size : Nat := 0
  type : Str := []
  deriving DecidableEq, Repr

/-- The argument object of `createLetter`. -/
structure CreateLetterInput where
  companyId : Option Str := none
  letterDate : Option Str := none
  recipientCompany : Option Str := none
  subject : Option Str := none
  preparedBy : Option Str := none
  notes : Option Str := none
  year : Option Int := none
  attachments : List UploadFile := []

/-- The value `createLetter` resolves to. -/
structure CreateLetterResult where
  referenceNumber : Str
  sequenceNumber : Int
  year : Int
  deriving DecidableEq, Repr

/-- The `fields` of a company record in the record store. -/
structure CompanyFields where
  Title : Option Str := none
  CompanyName : Option Str := none
  Abbreviation : Option Str := none
  CompanyAbbreviation : Option Str := none
  Code : Option Str := none
  StartingNumber : Option Int := none
  SequenceSeed : Option Int := none
  Color : Option Str := none
  deriving DecidableEq, Repr

/-- A company list item returned by the record store. -/
structure CompanyItem where
  id : Str := []
  fields : CompanyFields := {}
  deriving DecidableEq, Repr

/-- The `fields` of an access-entry record in the record store. -/
structure UserAccessFields where
  Title : Option Str := none
  UserPrincipalName : Option Str := none
  Role : Option Str := none
  CompanyIds : Option Str := none
  CompanyNames : Option Str := none
  deriving DecidableEq, Repr

/-- An access-entry list item returned by the record store. -/
structure UserAccessItem where
  id : Str := []
  fields : UserAccessFields := {}
  deriving DecidableEq, Repr

/-- A call made to a collaborator (record store or blob store). -/
inductive StoreCall where
  | ensureLetterColumns
  | createLetterItem (fields : LetterFields)
  | uploadLetterFiles (company : Company) (referenceNumber : Str) (files : List UploadFile)
  | updateLetterItem (id : Str) (fields : LetterFields)
  | deleteDriveFile (path : Str)
  | ensureCompanyColumns
  | createCompanyItem (fields : CompanyFields)
  | updateCompanyItem (id : Str) (fields : CompanyFields)
  | deleteCompanyItem (id : Str)
  | ensureUserAccessColumns
  | createUserAccessItem (fields : UserAccessFields)
  | updateUserAccessItem (id : Str) (fields : UserAccessFields)
  | deleteUserAccessItem (id : Str)
  | listUserAccessItems
  | provisionUserAccessList
  deriving DecidableEq, Repr

/-- What lies outside the provider: the clock, `Date` parsing, and the outcome of
each remote call (`Except.error message` when the call throws), and whether
`SHAREPOINT_SITE_URL` is set and the access list is named by a GUID.  The helpers
`ensureCompanyColumns`, `ensureLetterColumns` and `ensureUserAccessColumns` catch
their own errors in the source, so they have no outcome here; `deleteLetterFiles`
catches the error of each blob deletion. -/
structure Collaborators where
  currentYear : Int
  nowIso : Str
  dateYear : Str → Option Int
  createListItem : LetterFields → Except String LetterItem
  uploadLetterFiles : Company → Str → List UploadFile → Except String (List Attachment)
  updateLetterItem : Str → LetterFields → Except String Unit
  createCompanyItem : CompanyFields → Except String CompanyItem
  updateCompanyItem : Str → CompanyFields → Except String Unit
  deleteCompanyItem : Str → Except String Unit
  createUserAccessItem : UserAccessFields → Except String UserAccessItem
  updateUserAccessItem : Str → UserAccessFields → Except String Unit
  deleteUserAccessItem : Str → Except String Unit
  siteConfigured : Bool
  userAccessListIsGuid : Bool
  fetchUserAccess : Except String (List UserAccessItem)
  provisionUserAccessList : Except String Unit
  fetchUserAccessRetry : Except String (List UserAccessItem)

/-- The end of an asynchronous operation: the reducer state after all its
dispatches, the collaborator calls it made, and its value or thrown message. -/
structure Outcome (α : Type) where
  state : State
  calls : List StoreCall
  result : Except String α

/-- Source: `normalizeLetterDate(value)`. -/
def normalizeLetterDate (nowIso : Str) (value : Option Str) : Str :=
  match value with
  | some (c :: cs) => if (c :: cs).length ≤ 10 then (c :: cs) ++ "T00:00:00Z".toList else c :: cs
  | _ => nowIso

/-- The expression `year || new Date(letterDate || new Date().toISOString()).getFullYear()`;
`none` is `NaN`. -/
def derivedYear (ext : Collaborators) (input : CreateLetterInput) : Option Int :=
  if truthyNum input.year then input.year
  else ext.dateYear ((orStr input.letterDate (some ext.nowIso)).getD [])

/-- The `catch`/`finally` of `createLetter`: record the message, clear the flag. -/
def createLetterFailed (state : State) (calls : List StoreCall) (message : String) :
    Outcome CreateLetterResult :=
  { state :=
      letterReducer (letterReducer state (.setError (some message))) (.setLoading .creating false)
    calls := calls
    result := .error message }

/-- The `fields` object that `createLetter` sends to the record store. -/
def createLetterFields (company : Company) (input : CreateLetterInput) (referenceNumber : Str)
    (sequenceNumber : Int) (year : Option Int) (normalizedDate : Str) : LetterFields :=
  { Title := orStr input.subject (some referenceNumber)
    ReferenceNumber := some referenceNumber
    CompanyItemId := some company.id
    CompanyName := some company.name
    CompanyAbbreviation := some company.abbreviation
    SequenceNumber := some sequenceNumber
    Year := year
    LetterDate := some normalizedDate
    RecipientCompany := input.recipientCompany
    Subject := input.subject
    PreparedBy := input.preparedBy
    Notes := input.notes }

/-- Source: `createLetter({companyId, letterDate, ..., year, attachments})`. -/
def createLetter (ext : Collaborators) (state : State) (upn : Str) (input : CreateLetterInput) :
    Outcome CreateLetterResult :=
  if !truthyStr input.companyId then ⟨state, [], .error "Please choose a company."⟩
  else if !canEditLetters state upn then
    ⟨state, [], .error "You do not have permission to create letters."⟩
  else if outOfScope state upn (input.companyId.getD []) then
    ⟨state, [], .error "You do not have access to this company."⟩
  else
    match getCompany state upn input.companyId with
    | none => ⟨state, [], .error "Selected company was not found."⟩
    | some company =>
      match getNextSequence state upn input.companyId (derivedYear ext input) with
      | none => ⟨state, [], .error "Unable to determine the next sequence number."⟩
      | some sequenceNumber =>
        if sequenceNumber = 0 then
          ⟨state, [], .error "Unable to determine the next sequence number."⟩
        else
          let referenceNumber :=
            buildReferenceNumber (some company.abbreviation) (some sequenceNumber)
              (derivedYear ext input)
          let normalizedDate := normalizeLetterDate ext.nowIso input.letterDate
          let state1 := letterReducer state (.setLoading .creating true)
          let fields :=
            createLetterFields company input referenceNumber sequenceNumber
              (derivedYear ext input) normalizedDate
          match ext.createListItem fields with
          | .error message =>
            createLetterFailed state1 [.ensureLetterColumns, .createLetterItem fields] message
          | .ok created =>
            let mapped := mapLetter ext.currentYear created
            let result : CreateLetterResult :=
              { referenceNumber := referenceNumber
                sequenceNumber := sequenceNumber
                year := (derivedYear ext input).getD 0 }
            if input.attachments.length > 0 then
              match ext.uploadLetterFiles company referenceNumber input.attachments with
              | .error message =>
                createLetterFailed state1
                  [.ensureLetterColumns, .createLetterItem fields,
                    .uploadLetterFiles company referenceNumber input.attachments] message
              | .ok uploaded =>
                { state :=
                    letterReducer
                      (letterReducer state1
                        (.addLetter
                          { mapped with
                            hasAttachments := decide (uploaded.length > 0)
                            attachmentsLoaded := true
                            attachments := uploaded }))
                      (.setLoading .creating false)
                  calls :=
                    [.ensureLetterColumns, .createLetterItem fields,
                      .uploadLetterFiles company referenceNumber input.attachments]
                  result := .ok result }
            else
              { state :=
                  letterReducer
                    (letterReducer state1 (.addLetter { mapped with attachmentsLoaded := true }))
                    (.setLoading .creating false)
                calls := [.ensureLetterColumns, .createLetterItem fields]
                result := .ok result }

/-! ## The principal -/

/-- The active MSAL account, as far as the provider reads it. -/
structure Account where
  username : Option Str := none
  preferredUsername : Option Str := none
  email : Option Str := none
  deriving DecidableEq, Repr

/-- The local `preferred` of `currentUserPrincipalName`: the principal name of
the account as it is written, `username || preferred_username || email || ""`. -/
def preferredName (account : Account) : Str :=
  (orStr account.username
    (orStr account.preferredUsername (orStr account.email (some [])))).getD []

/-- Source: `currentUserPrincipalName`; the empty string without an account. -/
def currentUserPrincipalName (activeAccount : Option Account) : Str :=
  match activeAccount with
  | none => []
  | some account => toLowerCase (preferredName account)

/-- The expression `entry.userPrincipalName || entry.title || ""`: the principal
name under which `currentUserAccess` looks an entry up. -/
def entryPrincipalName (entry : UserAccessEntry) : Str :=
  if entry.userPrincipalName ≠ [] then entry.userPrincipalName else entry.title

/-! ## Company operations -/

/-- Source: `mapCompany(item)`. -/
def mapCompany (item : CompanyItem) : Company :=
  let fields := item.fields
  { id := item.id
    name := (orStr fields.Title (orStr fields.CompanyName (some "Unnamed Company".toList))).getD []
    abbreviation :=
      (orStr fields.Abbreviation
        (orStr fields.CompanyAbbreviation (orStr fields.Code (some [])))).getD []
    startingNumber := (orNum fields.StartingNumber (orNum fields.SequenceSeed (some 1))).getD 0
    color := (orStr fields.Color (some "#2563eb".toList)).getD [] }

/-- A `catch` with `handleError` followed by a `finally` that clears a loading flag. -/
def failedWith {α : Type} (state : State) (key : LoadingKey) (calls : List StoreCall)
    (message : String) : Outcome α :=
  { state := letterReducer (letterReducer state (.setError (some message))) (.setLoading key false)
    calls := calls
    result := .error message }

/-- The argument object of `addCompany`; a missing `startingNumber` defaults to 1. -/
structure AddCompanyInput where
  name : Option Str := none
  abbreviation : Option Str := none
  startingNumber : Option Int := none

/-- Source: `addCompany({name, abbreviation, startingNumber = 1})`. -/
def addCompany (ext : Collaborators) (state : State) (upn : Str) (input : AddCompanyInput) :
    Outcome Company :=
  if !truthyStr input.name || !truthyStr input.abbreviation then
    ⟨state, [], .error "Company name and abbreviation are required."⟩
  else if !canManageCompanies state upn then
    ⟨state, [], .error "You do not have permission to add companies."⟩
  else
    let state1 := letterReducer state (.setLoading .creatingCompany true)
    let fields : CompanyFields :=
      { Title := input.name
        Abbreviation := input.abbreviation
        StartingNumber := some (input.startingNumber.getD 1) }
    match ext.createCompanyItem fields with
    | .error message =>
      failedWith state1 .creatingCompany [.ensureCompanyColumns, .createCompanyItem fields] message
    | .ok item =>
      { state :=
          letterReducer (letterReducer state1 (.addCompany (mapCompany item)))
            (.setLoading .creatingCompany false)
        calls := [.ensureCompanyColumns, .createCompanyItem fields]
        result := .ok (mapCompany item) }

/-- The `updates` object of `updateCompany`; `none` is `undefined`. -/
structure CompanyUpdates where
  name : Option Str := none
  abbreviation : Option Str := none
  startingNumber : Option Int := none

/-- Source: `updateCompany(companyId, updates = {})`. -/
def updateCompany (ext : Collaborators) (state : State) (upn : Str) (companyId : Option Str)
    (updates : CompanyUpdates) : Outcome Company :=
  if !truthyStr companyId then ⟨state, [], .error "Company ID is required."⟩
  else if !canManageCompanies state upn then
    ⟨state, [], .error "You do not have permission to edit companies."⟩
  else
    match state.companies.find? (fun company => some company.id == companyId) with
    | none => ⟨state, [], .error "Company not found."⟩
    | some existing =>
      let fields : CompanyFields :=
        { Title := updates.name
          Abbreviation := updates.abbreviation
          StartingNumber := updates.startingNumber }
      if updates.name.isNone && updates.abbreviation.isNone && updates.startingNumber.isNone then
        ⟨state, [], .ok existing⟩
      else
        let state1 := letterReducer state (.setLoading .updatingCompany true)
        match ext.updateCompanyItem (companyId.getD []) fields with
        | .error message =>
          failedWith state1 .updatingCompany [.updateCompanyItem (companyId.getD []) fields]
            message
        | .ok _ =>
          let updatedCompany : Company :=
            { existing with
              name := fields.Title.getD existing.name
              abbreviation := fields.Abbreviation.getD existing.abbreviation
              startingNumber := fields.StartingNumber.getD existing.startingNumber }
          { state :=
              letterReducer
                (letterReducer state1 (.updateCompany (companyId.getD []) updatedCompany))
                (.setLoading .updatingCompany false)
            calls := [.updateCompanyItem (companyId.getD []) fields]
            result := .ok updatedCompany }

/-- Source: `deleteCompany(companyId)`; it returns without effect for a missing id. -/
def deleteCompany (ext : Collaborators) (state : State) (upn : Str) (companyId : Option Str) :
    Outcome Unit :=
  if !truthyStr companyId then ⟨state, [], .ok ()⟩
  else if !canManageCompanies state upn then
    ⟨state, [], .error "You do not have permission to delete companies."⟩
  else
    let state1 := letterReducer state (.setLoading .deletingCompany true)
    match ext.deleteCompanyItem (companyId.getD []) with
    | .error message =>
      failedWith state1 .deletingCompany [.deleteCompanyItem (companyId.getD [])] message
    | .ok _ =>
      { state :=
          letterReducer (letterReducer state1 (.removeCompany (companyId.getD [])))
            (.setLoading .deletingCompany false)
        calls := [.deleteCompanyItem (companyId.getD [])]
        result := .ok () }

/-! ## Letter update -/

/-- The `updates` object of `updateLetter`; `none` is `undefined`.  The last three
properties stand for what a caller may also put into the object; `updateLetter`
never reads them. -/
structure LetterUpdates where
  subject : Option Str := none
  recipientCompany : Option Str := none
  preparedBy : Option Str := none
  notes : Option Str := none
  letterDate : Option Str := none
  year : Option Int := none
  companyId : Option Str := none
  sequenceNumber : Option Int := none
  referenceNumber : Option Str := none

/-- The argument object of `updateLetter`. -/
structure UpdateLetterInput where
  letterId : Option Str := none
  updates : LetterUpdates := {}
  attachmentsToAdd : List UploadFile := []
  attachmentsToRemove : List Attachment := []

/-- The `fieldUpdates` object that `updateLetter` sends to the record store. -/
def updateLetterFields (nowIso : Str) (existing : Letter) (updates : LetterUpdates) :
    LetterFields :=
  { Subject := updates.subject
    RecipientCompany := updates.recipientCompany
    PreparedBy := updates.preparedBy
    Notes := updates.notes
    LetterDate :=
      match updates.letterDate with
      | some d => some (normalizeLetterDate nowIso (orStr (some d) (some existing.letterDate)))
      | none => none
    Year := updates.year }

/-- The key `item.path || item.id || item.name` of an attachment. -/
def attachmentKey (item : Attachment) : Str :=
  if item.path ≠ [] then item.path else if item.id ≠ [] then item.id else item.name

/-- Source: `deleteLetterFiles(attachments)`: one blob deletion for every
attachment that has a path; a failing deletion is logged and ignored. -/
def deleteLetterFilesCalls (attachments : List Attachment) : List StoreCall :=
  (attachments.filter (fun item => item.path != [])).map (fun item => .deleteDriveFile item.path)

/-- The attachments of the cached letter after the removals of `updateLetter`. -/
def remainingAttachments (existing : Letter) (attachmentsToRemove : List Attachment) :
    List Attachment :=
  let current := if existing.attachmentsLoaded then existing.attachments else []
  if attachmentsToRemove.length > 0 then
    current.filter (fun attachment =>
      !(attachmentsToRemove.map attachmentKey).contains (attachmentKey attachment))
  else current

/-- The `updatedLetter` object of `updateLetter`. -/
def updatedLetter (existing : Letter) (updates : LetterUpdates) (attachments : List Attachment) :
    Letter :=
  { existing with
    subject := updates.subject.getD existing.subject
    recipientCompany := updates.recipientCompany.getD existing.recipientCompany
    preparedBy := updates.preparedBy.getD existing.preparedBy
    notes := updates.notes.getD existing.notes
    letterDate := updates.letterDate.getD existing.letterDate
    year := updates.year.getD existing.year
    attachments := attachments
    attachmentsLoaded := true
    hasAttachments := decide (attachments.length > 0) }

/-- Source: `updateLetter({letterId, updates, attachmentsToAdd, attachmentsToRemove})`.
The function has no `catch`: a failing remote call leaves the state as it is. -/
def updateLetter (ext : Collaborators) (state : State) (upn : Str) (input : UpdateLetterInput) :
    Outcome Letter :=
  if !truthyStr input.letterId then
    ⟨state, [], .error "Letter ID is required to update a record."⟩
  else if !canEditLetters state upn then
    ⟨state, [], .error "You do not have permission to edit letters."⟩
  else
    match state.letters.find? (fun letter => some letter.id == input.letterId) with
    | none => ⟨state, [], .error "Letter not found."⟩
    | some existing =>
      if outOfScope state upn existing.companyId then
        ⟨state, [], .error "You do not have access to this letter."⟩
      else
        let letterId := input.letterId.getD []
        let fieldUpdates := updateLetterFields ext.nowIso existing input.updates
        let updateCalls : List StoreCall :=
          if fieldUpdates ≠ {} then [.updateLetterItem letterId fieldUpdates] else []
        match (if fieldUpdates ≠ {} then ext.updateLetterItem letterId fieldUpdates
            else .ok ()) with
        | .error message => ⟨state, updateCalls, .error message⟩
        | .ok _ =>
          let removeCalls := deleteLetterFilesCalls input.attachmentsToRemove
          let kept := remainingAttachments existing input.attachmentsToRemove
          let uploadCompany : Company :=
            { abbreviation := existing.companyAbbreviation, name := existing.companyName }
          if input.attachmentsToAdd.length > 0 then
            match ext.uploadLetterFiles uploadCompany existing.referenceNumber
                input.attachmentsToAdd with
            | .error message =>
              ⟨state,
                updateCalls ++ removeCalls ++
                  [.uploadLetterFiles uploadCompany existing.referenceNumber
                    input.attachmentsToAdd],
                .error message⟩
            | .ok uploaded =>
              { state :=
                  letterReducer state
                    (.updateLetter letterId
                      (updatedLetter existing input.updates (kept ++ uploaded)))
                calls :=
                  updateCalls ++ removeCalls ++
                    [.uploadLetterFiles uploadCompany existing.referenceNumber
                      input.attachmentsToAdd]
                result := .ok (updatedLetter existing input.updates (kept ++ uploaded)) }
          else
            { state :=
                letterReducer state
                  (.updateLetter letterId (updatedLetter existing input.updates kept))
              calls := updateCalls ++ removeCalls
              result := .ok (updatedLetter existing input.updates kept) }

/-! ## Access-entry operations -/

/-- The argument object of `addUserAccessEntry` and `updateUserAccessEntry`. -/
structure UserAccessInput where
  userPrincipalName : Option Str := none
  role : Option Str := none
  companyIds : Option (List Str) := none

/-- The expression `(companyIds || []).filter(Boolean)`. -/
def normalizedIds (companyIds : Option (List Str)) : List Str :=
  (companyIds.getD []).filter (fun id => id != [])

/-- The names of the cached companies with the given ids, empty names dropped. -/
def companyNamesOf (state : State) (ids : List Str) : List Str :=
  ids.filterMap (fun id =>
    match state.companies.find? (fun c => c.id == id) with
    | some company => if company.name ≠ [] then some company.name else none
    | none => none)

/-- The call `parts.join(separator)`. -/
def joinWith (separator : Str) (parts : List Str) : Str := separator.intercalate parts

/-- Source: `addUserAccessEntry({userPrincipalName, role, companyIds})`. -/
def addUserAccessEntry (ext : Collaborators) (state : State) (upn : Str)
    (input : UserAccessInput) : Outcome UserAccessEntry :=
  if !truthyStr input.userPrincipalName || !truthyStr input.role then
    ⟨state, [], .error "User principal name and role are required."⟩
  else if !isAdmin state upn then
    ⟨state, [], .error "Only admins can manage user access entries."⟩
  else
    let ids := normalizedIds input.companyIds
    let names := companyNamesOf state ids
    let state1 := letterReducer state (.setLoading .creatingUserAccess true)
    let fields : UserAccessFields :=
      { Title := input.userPrincipalName
        UserPrincipalName := input.userPrincipalName
        Role := input.role
        CompanyIds := some (joinWith ",".toList ids)
        CompanyNames := some (joinWith ", ".toList names) }
    match ext.createUserAccessItem fields with
    | .error message =>
      failedWith state1 .creatingUserAccess
        [.ensureUserAccessColumns, .createUserAccessItem fields] message
    | .ok created =>
      let entry : UserAccessEntry :=
        { id := created.id
          title := input.userPrincipalName.getD []
          userPrincipalName := input.userPrincipalName.getD []
          role := input.role.getD []
          companyIds := ids
          companyNames := names }
      { state :=
          letterReducer (letterReducer state1 (.addUserAccess entry))
            (.setLoading .creatingUserAccess false)
        calls := [.ensureUserAccessColumns, .createUserAccessItem fields]
        result := .ok entry }

/-- Source: `updateUserAccessEntry(itemId, {userPrincipalName, role, companyIds})`. -/
def updateUserAccessEntry (ext : Collaborators) (state : State) (upn : Str)
    (itemId : Option Str) (input : UserAccessInput) : Outcome UserAccessEntry :=
  if !truthyStr itemId then ⟨state, [], .error "User access entry ID is required."⟩
  else if !isAdmin state upn then
    ⟨state, [], .error "Only admins can manage user access entries."⟩
  else
    let ids := normalizedIds input.companyIds
    let names := companyNamesOf state ids
    let fields : UserAccessFields :=
      { Title := input.userPrincipalName
        UserPrincipalName := input.userPrincipalName
        Role := input.role
        CompanyIds := some (joinWith ",".toList ids)
        CompanyNames := some (joinWith ", ".toList names) }
    let state1 := letterReducer state (.setLoading .updatingUserAccess true)
    match ext.updateUserAccessItem (itemId.getD []) fields with
    | .error message =>
      failedWith state1 .updatingUserAccess [.updateUserAccessItem (itemId.getD []) fields]
        message
    | .ok _ =>
      let entry : UserAccessEntry :=
        { id := itemId.getD []
          title := (orStr fields.Title (orStr input.userPrincipalName (some []))).getD []
          userPrincipalName :=
            (orStr fields.UserPrincipalName (orStr input.userPrincipalName (some []))).getD []
          role := (orStr fields.Role (orStr input.role (some "Viewer".toList))).getD []
          companyIds := ids
          companyNames := names }
      { state :=
          letterReducer (letterReducer state1 (.updateUserAccess (itemId.getD []) entry))
            (.setLoading .updatingUserAccess false)
        calls := [.updateUserAccessItem (itemId.getD []) fields]
        result := .ok entry }

/-- Source: `deleteUserAccessEntry(itemId)`; it returns without effect for a
missing id, and its `catch` records the error without touching a loading flag. -/
def deleteUserAccessEntry (ext : Collaborators) (state : State) (upn : Str)
    (itemId : Option Str) : Outcome Unit :=
  if !truthyStr itemId then ⟨state, [], .ok ()⟩
  else if !isAdmin state upn then
    ⟨state, [], .error "Only admins can remove user access entries."⟩
  else
    match ext.deleteUserAccessItem (itemId.getD []) with
    | .error message =>
      { state := letterReducer state (.setError (some message))
        calls := [.deleteUserAccessItem (itemId.getD [])]
        result := .error message }
    | .ok _ =>
      { state := letterReducer state (.removeUserAccess (itemId.getD []))
        calls := [.deleteUserAccessItem (itemId.getD [])]
        result := .ok () }

/-! ## Loading the access entries -/

/-- The call `s.split(separator)` with a one-character separator. -/
def splitOnChar (separator : Char) : Str → List Str
  | [] => [[]]
  | c :: cs =>
    if c = separator then [] :: splitOnChar separator cs
    else
      match splitOnChar separator cs with
      | [] => [[c]]
      | part :: parts => (c :: part) :: parts

/-- The entry that `loadUserAccess` builds from a list item. -/
def mapUserAccessItem (item : UserAccessItem) : UserAccessEntry :=
  let fields := item.fields
  { id := item.id
    title := (orStr fields.Title (orStr fields.UserPrincipalName (some []))).getD []
    userPrincipalName := (orStr fields.UserPrincipalName (some [])).getD []
    role := (orStr fields.Role (some "Viewer".toList)).getD []
    companyIds :=
      ((splitOnChar ',' ((orStr fields.CompanyIds (some [])).getD [])).map trim).filter
        (fun id => id != [])
    companyNames :=
      ((splitOnChar ',' ((orStr fields.CompanyNames (some [])).getD [])).map trim).filter
        (fun name => name != []) }

/-- Source: `isListMissingError(error)`: the lower-cased message contains
`list not found`. -/
def isListMissingError (message : String) : Bool :=
  (toLowerCase message.toList).tails.any (fun rest => "list not found".toList.isPrefixOf rest)

/-- The `finally` of `loadUserAccess`: mark the access list as resolved and clear
the loading flag. -/
def loadUserAccessFinally (state : State) : State :=
  letterReducer (letterReducer state .setUserAccessReady) (.setLoading .userAccess false)

/-- Source: `loadUserAccess()`. -/
def loadUserAccess (ext : Collaborators) (state : State) : Outcome (List UserAccessEntry) :=
  if !ext.siteConfigured then ⟨letterReducer state .setUserAccessReady, [], .ok []⟩
  else
    let state1 := letterReducer state (.setLoading .userAccess true)
    match ext.fetchUserAccess with
    | .ok items =>
      { state :=
          loadUserAccessFinally (letterReducer state1 (.setUserAccess (items.map mapUserAccessItem)))
        calls := [.ensureUserAccessColumns, .listUserAccessItems]
        result := .ok (items.map mapUserAccessItem) }
    | .error message =>
      if isListMissingError message && !ext.userAccessListIsGuid then
        match ext.provisionUserAccessList with
        | .error inner =>
          { state := loadUserAccessFinally (letterReducer state1 (.setError (some inner)))
            calls := [.ensureUserAccessColumns, .listUserAccessItems, .provisionUserAccessList]
            result := .error inner }
        | .ok _ =>
          match ext.fetchUserAccessRetry with
          | .error inner =>
            { state := loadUserAccessFinally (letterReducer state1 (.setError (some inner)))
              calls :=
                [.ensureUserAccessColumns, .listUserAccessItems, .provisionUserAccessList,
                  .ensureUserAccessColumns, .listUserAccessItems]
              result := .error inner }
          | .ok items =>
            { state :=
                loadUserAccessFinally
                  (letterReducer state1 (.setUserAccess (items.map mapUserAccessItem)))
              calls :=
                [.ensureUserAccessColumns, .listUserAccessItems, .provisionUserAccessList,
                  .ensureUserAccessColumns, .listUserAccessItems]
              result := .ok (items.map mapUserAccessItem) }
      else
        { state := loadUserAccessFinally (letterReducer state1 (.setError (some message)))
          calls := [.ensureUserAccessColumns, .listUserAccessItems]
          result := .error message }

/-! ## Folder and file names of attachments -/

/-- The characters that `sanitizeSegment` deletes: less-than, greater-than, colon,
double quote, slash, backslash, vertical bar, question mark, asterisk, carriage
return and line feed. -/
def isForbiddenChar (c : Char) : Bool :=
  c.toNat ∈ [60, 62, 58, 34, 47, 92, 124, 63, 42, 13, 10]

/-- The call `s.replace(/\s+/g, "-")`: every maximal run of white space becomes
one hyphen; `inRun` tells that the preceding character was white space. -/
def replaceWhitespaceRunsAux : Bool → Str → Str
  | _, [] => []
  | inRun, c :: cs =>
    if isTrimChar c then
      if inRun then replaceWhitespaceRunsAux true cs
      else '-' :: replaceWhitespaceRunsAux true cs
    else c :: replaceWhitespaceRunsAux false cs

/-- The call `s.replace(/\s+/g, "-")`. -/
def replaceWhitespaceRuns (s : Str) : Str := replaceWhitespaceRunsAux false s

/-- Source: `sanitizeSegment(value, fallback)`; `none` is a value that is missing
or not a string. -/
def sanitizeSegment (value : Option Str) (fallback : Str) : Str :=
  match value with
  | some (c :: cs) =>
    let cleaned :=
      replaceWhitespaceRuns ((trim (c :: cs)).filter (fun ch => !isForbiddenChar ch))
    if cleaned ≠ [] then cleaned else fallback
  | _ => fallback

/-- The `companySegment` of `buildLetterFolderPath`. -/
def companyFolderSegment (abbreviation name : Option Str) : Str :=
  sanitizeSegment (orStr abbreviation name) "Company".toList

/-- Source: `buildLetterFolderPath(company)`, with `LETTER_LIBRARY_ROOT` explicit. -/
def buildLetterFolderPath (libraryRoot : Str) (abbreviation name : Option Str) : Str :=
  if libraryRoot ≠ [] then
    sanitizeSegment (some libraryRoot) "Letters".toList ++ '/' :: companyFolderSegment abbreviation name
  else companyFolderSegment abbreviation name

/-- The match of `/(\.[^.\s]{1,10})$/`: the last dot and what follows it, when
that is one to ten characters without white space; else the empty string. -/
def fileExtension (originalName : Str) : Str :=
  let tail := (originalName.reverse.takeWhile (fun c => c != '.')).reverse
  if originalName.contains '.' && 1 ≤ tail.length && tail.length ≤ 10
      && tail.all (fun c => !isTrimChar c) then '.' :: tail
  else []

/-- The final `replace` of `buildStoredFileName`: every run of hyphens becomes
one hyphen. -/
def collapseHyphens : Str → Str
  | [] => []
  | [c] => [c]
  | c :: d :: cs => if c = '-' ∧ d = '-' then collapseHyphens (d :: cs) else c :: collapseHyphens (d :: cs)

/-- Source: `buildStoredFileName(reference, originalName)`. -/
def buildStoredFileName (reference : Option Str) (originalName : Str) : Str :=
  let safeReference :=
    sanitizeSegment
      (some (((orStr reference (some "REF".toList)).getD []).map
        (fun c => if c = '/' ∨ c.toNat = 92 then '-' else c)))
      "REF".toList
  collapseHyphens (safeReference ++ fileExtension originalName)

/-- The target paths that `uploadLetterFiles(company, referenceNumber, files)` writes
to, in the order of the files, with `LETTER_LIBRARY_ROOT` explicit. -/
def uploadTargetPaths (libraryRoot : Str) (company : Company) (referenceNumber : Str)
    (files : List UploadFile) : List Str :=
  let folderPath :=
    buildLetterFolderPath libraryRoot (orStr (some company.abbreviation) (some []))
      (orStr (some company.name) (some "Company".toList))
  files.map (fun file =>
    folderPath ++ '/' :: buildStoredFileName (some referenceNumber) file.name)

/-! ## Error kinds -/

/-- The messages thrown by the role checks and the scope checks of the
operations (the `PermissionDenied` errors). -/
def permissionMessages : List String :=
  ["You do not have permission to add companies.",
   "You do not have permission to edit companies.",
   "You do not have permission to delete companies.",
   "You do not have permission to create letters.",
   "You do not have access to this company.",
   "You do not have permission to edit letters.",
   "You do not have access to this letter.",
   "Only admins can manage user access entries.",
   "Only admins can remove user access entries."]

/-- The messages thrown by the required-argument checks (the `ValidationError`
errors). -/
def validationMessages : List String :=
  ["Company name and abbreviation are required.",
   "Company ID is required.",
   "Please choose a company.",
   "Letter ID is required to update a record.",
   "User principal name and role are required.",
   "User access entry ID is required."]

/-- The messages thrown when a cached record is absent (the `NotFound` errors). -/
def notFoundMessages : List String :=
  ["Company not found.", "Selected company was not found.", "Letter not found."]

/-- The message thrown when no sequence number is obtained (the `AllocationError`). -/
def allocationMessages : List String := ["Unable to determine the next sequence number."]

/-- The messages of the errors that an operation raises itself, before any
remote call. -/
def localMessages : List String :=
  permissionMessages ++ validationMessages ++ notFoundMessages ++ allocationMessages

/-- Some remote call of the collaborators throws the message `m` (a `StoreError`). -/
def StoreFailed (ext : Collaborators) (m : String) : Prop :=
  (∃ fields, ext.createListItem fields = .error m) ∨
  (∃ company reference files, ext.uploadLetterFiles company reference files = .error m) ∨
  (∃ id fields, ext.updateLetterItem id fields = .error m) ∨
  (∃ fields, ext.createCompanyItem fields = .error m) ∨
  (∃ id fields, ext.updateCompanyItem id fields = .error m) ∨
  (∃ id, ext.deleteCompanyItem id = .error m) ∨
  (∃ fields, ext.createUserAccessItem fields = .error m) ∨
  (∃ id fields, ext.updateUserAccessItem id fields = .error m) ∨
  (∃ id, ext.deleteUserAccessItem id = .error m)

/-- An operation started in `state` fails fast: when it ends with an error, either
the error is one of its own checks, no collaborator was called and the state is
the one it started in, or a collaborator was called and threw the error. -/
def FailsFast {α : Type} (ext : Collaborators) (state : State) (out : Outcome α) : Prop :=
  ∀ m, out.result = .error m →
    (m ∈ localMessages ∧ out.calls = [] ∧ out.state = state) ∨
      (out.calls ≠ [] ∧ StoreFailed ext m)

/-! ## The two patterns, stated declaratively -/

/-- The string `reference` matches `^[^/]+/(\d+)/\d{2}$`, the group capturing `ds`:
a non-empty run without a slash, a slash, the non-empty digit run `ds`, a
slash, and exactly two digits up to the end. -/
def MatchesSequencePattern (reference ds : Str) : Prop :=
  ∃ abbr y1 y2, reference = abbr ++ '/' :: (ds ++ ['/', y1, y2]) ∧ abbr ≠ [] ∧
    (∀ c ∈ abbr, c ≠ '/') ∧ ds ≠ [] ∧ (∀ c ∈ ds, c.isDigit = true) ∧
    y1.isDigit = true ∧ y2.isDigit = true

/-- The string `reference` matches `/(\d{2})$`, the group capturing `[y1, y2]`:
it ends in a slash followed by two digits. -/
def MatchesYearPattern (reference : Str) (y1 y2 : Char) : Prop :=
  ∃ front, reference = front ++ ['/', y1, y2] ∧ y1.isDigit = true ∧ y2.isDigit = true

end

/-! ## Example inputs -/

/-- A record store that returns the fields it is sent, under the id `1`; the
clock reads 2024. -/
def echoStore : Collaborators :=
  { currentYear := 2024
    nowIso := "2024-05-01T00:00:00.000Z".toList
    dateYear := fun _ => some 2024
    createListItem := fun fields => .ok { id := "1".toList, fields := fields }
    uploadLetterFiles := fun _ _ _ => .ok []
    updateLetterItem := fun _ _ => .ok ()
    createCompanyItem := fun fields => .ok { id := "1".toList, fields := fields }
    updateCompanyItem := fun _ _ => .ok ()
    deleteCompanyItem := fun _ => .ok ()
    createUserAccessItem := fun fields => .ok { id := "1".toList, fields := fields }
    updateUserAccessItem := fun _ _ => .ok ()
    deleteUserAccessItem := fun _ => .ok ()
    siteConfigured := true
    userAccessListIsGuid := false
    fetchUserAccess := .ok []
    provisionUserAccessList := .ok ()
    fetchUserAccessRetry := .ok [] }

/-- A record store that creates the item but answers with its id alone, without
the `fields` of the new item. -/
def silentStore : Collaborators :=
  { echoStore with createListItem := fun _ => .ok { id := "1".toList } }

/-- The scenario of the specification: company `c1` (`EASE`, starting number 1)
and one letter `{c1, 2024, sequence 7}`; the access list is loaded and empty. -/
def scenarioState : State :=
  { userAccessLoaded := true
    companies := [{ id := "c1".toList, abbreviation := "EASE".toList, startingNumber := 1 }]
    letters := [{ companyId := "c1".toList, year := 2024, sequenceNumber := 7 }] }

/-- The scenario state with an access list that names only `b@x.com`. -/
def unlistedState : State :=
  { scenarioState with
    userAccess := [{ userPrincipalName := "b@x.com".toList, role := "Viewer".toList }] }

/-- A loaded access list in which two entries name `a@x.com`: a Viewer entry
restricted to company `c1` first, an Admin entry last. -/
def duplicateEntryState : State :=
  { scenarioState with
    userAccess :=
      [{ id := "1".toList, userPrincipalName := "a@x.com".toList, role := "Viewer".toList,
         companyIds := ["c1".toList] },
       { id := "2".toList, userPrincipalName := "a@x.com".toList, role := "Admin".toList }] }

/-- A loaded access list whose only entry gives `a@x.com` the role string `admin`,
written in lower case. -/
def lowerCaseAdminState : State :=
  { scenarioState with
    userAccess := [{ id := "1".toList, userPrincipalName := "a@x.com".toList,
                     role := "admin".toList }] }

/-- The scenario of the specification for scopes: `a@x.com` is an Editor
restricted to company `c1`; the caches hold the companies `c1` and `c2` and one
letter of each. -/
def editorState : State :=
  { userAccessLoaded := true
    userAccess :=
      [{ id := "1".toList, userPrincipalName := "A@X.com".toList, role := "Editor".toList,
         companyIds := ["c1".toList] }]
    companies :=
      [{ id := "c1".toList, abbreviation := "EASE".toList },
       { id := "c2".toList, abbreviation := "ACME".toList }]
    letters :=
      [{ id := "l1".toList, companyId := "c1".toList, year := 2024, sequenceNumber := 7 },
       { id := "l2".toList, companyId := "c2".toList, year := 2024, sequenceNumber := 3 }] }

/-- A loaded access list of three entries, in which the entry of `A@X.com`, an
Editor restricted to company `c1`, stands between two other entries. -/
def mixedCaseState : State :=
  { userAccessLoaded := true
    userAccess :=
      [{ id := "1".toList, userPrincipalName := "admin@x.com".toList, role := "Admin".toList },
       { id := "2".toList, userPrincipalName := "A@X.com".toList, role := "Editor".toList,
         companyIds := ["c1".toList] },
       { id := "3".toList, userPrincipalName := "b@x.com".toList, role := "Viewer".toList }] }

/-- A loaded, empty access list and the single company `c1` whose abbreviation
`A/B` contains a slash; no letters. -/
def slashCompanyState : State :=
  { userAccessLoaded := true
    companies := [{ id := "c1".toList, name := "Slash".toList, abbreviation := "A/B".toList }] }

/-- The scenario of the specification for previews: company `c1` (`EASE`, starting
number 1), no letters, a loaded and empty access list. -/
def previewState : State :=
  { userAccessLoaded := true
    companies := [{ id := "c1".toList, abbreviation := "EASE".toList, startingNumber := 1 }] }

/-- Collaborators whose read of the access list is refused. -/
def failingAccessStore : Collaborators :=
  { echoStore with fetchUserAccess := .error "Failed to load list items: 403 Forbidden" }

/-- A loaded access list with the admin `admin@x.com` and the Editor `a@x.com`
(entry `2`) restricted to company `c1`; the cache holds the companies `c1`, `c2`. -/
def restrictedUserState : State :=
  { userAccessLoaded := true
    userAccess :=
      [{ id := "1".toList, userPrincipalName := "admin@x.com".toList, role := "Admin".toList },
       { id := "2".toList, userPrincipalName := "a@x.com".toList, role := "Editor".toList,
         companyIds := ["c1".toList] }]
    companies :=
      [{ id := "c1".toList, abbreviation := "EASE".toList },
       { id := "c2".toList, abbreviation := "ACME".toList }] }

/-! ## Lemmas on the primitives -/

theorem digitChar_isDigit (d : Nat) : (digitChar d).isDigit = true := by
  unfold digitChar
  split <;> decide

theorem digitValue_digitChar (d : Nat) (h : d < 10) : digitValue (digitChar d) = d := by
  interval_cases d <;> rfl

theorem digitChar_ne_slash (d : Nat) : digitChar d ≠ '/' := by
  unfold digitChar
  split <;> decide

theorem natDigitsAux_acc (fuel n : Nat) (acc : Str) :
    natDigitsAux fuel n acc = natDigitsAux fuel n [] ++ acc := by
  induction fuel generalizing n acc with
  | zero => simp [natDigitsAux]
  | succ fuel ih =>
    simp only [natDigitsAux]
    split
    · simp
    · rw [ih (n / 10) (digitChar (n % 10) :: acc), ih (n / 10) [digitChar (n % 10)]]
      simp

theorem natDigitsAux_fuel (fuel fuel2 n : Nat) (acc : Str) (h : n < fuel) (h2 : n < fuel2) :
    natDigitsAux fuel n acc = natDigitsAux fuel2 n acc := by
  induction fuel generalizing fuel2 n acc with
  | zero => omega
  | succ fuel ih =>
    cases fuel2 with
    | zero => omega
    | succ fuel2 =>
      simp only [natDigitsAux]
      split
      · rfl
      · apply ih <;> omega

/-- The numeral is produced digit by digit: the recursion that `String(n)`
performs on a non-negative integer. -/
theorem natToString_eq (n : Nat) :
    natToString n =
      if n < 10 then [digitChar n] else natToString (n / 10) ++ [digitChar (n % 10)] := by
  by_cases h : n < 10
  · simp [natToString, natDigitsAux, h]
  · have e : natToString n = natDigitsAux n (n / 10) [digitChar (n % 10)] := by
      show natDigitsAux (n + 1) n [] = _
      rw [natDigitsAux, if_neg h]
    rw [if_neg h, e, natDigitsAux_acc,
      natDigitsAux_fuel n (n / 10 + 1) (n / 10) [] (by omega) (by omega)]
    rfl

theorem natToString_isDigit (n : Nat) : ∀ c ∈ natToString n, c.isDigit = true := by
  induction n using Nat.strong_induction_on with
  | _ n ih =>
    rw [natToString_eq]
    split
    · intro c hc
      simp only [List.mem_singleton] at hc
      subst hc
      exact digitChar_isDigit n
    · intro c hc
      rcases List.mem_append.mp hc with hc | hc
      · exact ih (n / 10) (by omega) c hc
      · simp only [List.mem_singleton] at hc
        subst hc
        exact digitChar_isDigit _

theorem natToString_ne_nil (n : Nat) : natToString n ≠ [] := by
  rw [natToString_eq]
  split <;> simp

theorem decimalValue_append_singleton (ds : Str) (c : Char) :
    decimalValue (ds ++ [c]) = 10 * decimalValue ds + digitValue c := by
  simp [decimalValue, List.foldl_append]

theorem decimalValue_natToString (n : Nat) : decimalValue (natToString n) = n := by
  induction n using Nat.strong_induction_on with
  | _ n ih =>
    rw [natToString_eq]
    split
    · next h => simp [decimalValue, digitValue_digitChar n h]
    · next h =>
      rw [decimalValue_append_singleton, ih (n / 10) (by omega),
        digitValue_digitChar (n % 10) (by omega)]
      omega

theorem decimalValue_replicate_zero (k : Nat) (ds : Str) :
    decimalValue (List.replicate k '0' ++ ds) = decimalValue ds := by
  induction k with
  | zero => simp
  | succ k ih =>
    have h : decimalValue ('0' :: (List.replicate k '0' ++ ds))
        = decimalValue (List.replicate k '0' ++ ds) := by
      simp [decimalValue, digitValue]
    simpa [List.replicate_succ] using h.trans ih

theorem sliceLast_two_append (xs : Str) (a b : Char) : sliceLast 2 (xs ++ [a, b]) = [a, b] := by
  simp [sliceLast]

/-- For `n ≥ 10` the numeral of `n` ends in the tens digit and the units digit. -/
theorem natToString_last_two (n : Nat) (h : 10 ≤ n) :
    ∃ xs, natToString n = xs ++ [digitChar (n / 10 % 10), digitChar (n % 10)] := by
  rw [natToString_eq, if_neg (by omega)]
  rw [natToString_eq (n / 10)]
  split
  · next h1 =>
    refine ⟨[], ?_⟩
    rw [Nat.mod_eq_of_lt h1]
    rfl
  · exact ⟨natToString (n / 10 / 10), by simp⟩

theorem takeWhile_append_stop (p : Char → Bool) (l₁ l₂ : Str) (x : Char)
    (h₁ : ∀ c ∈ l₁, p c = true) (hx : p x = false) :
    (l₁ ++ x :: l₂).takeWhile p = l₁ := by
  induction l₁ with
  | nil => simp [List.takeWhile, hx]
  | cons a l ih =>
    have ha : p a = true := h₁ a (List.mem_cons_self a l)
    simp only [List.cons_append, List.takeWhile_cons, ha, if_true]
    rw [ih (fun c hc => h₁ c (List.mem_cons_of_mem a hc))]

theorem dropWhile_append_stop (p : Char → Bool) (l₁ l₂ : Str) (x : Char)
    (h₁ : ∀ c ∈ l₁, p c = true) (hx : p x = false) :
    (l₁ ++ x :: l₂).dropWhile p = x :: l₂ := by
  induction l₁ with
  | nil => simp [List.dropWhile, hx]
  | cons a l ih =>
    have ha : p a = true := h₁ a (List.mem_cons_self a l)
    simp only [List.cons_append, List.dropWhile_cons, ha, if_true]
    exact ih (fun c hc => h₁ c (List.mem_cons_of_mem a hc))

/-! ## The scanners compute the declarative patterns -/

theorem matchSequencePattern_some (r ds : Str) (h : matchSequencePattern r = some ds) :
    MatchesSequencePattern r ds := by
  unfold matchSequencePattern at h
  simp only at h
  have hr := List.takeWhile_append_dropWhile (fun c => c != '/') r
  split at h
  · cases h
  · next hne =>
    split at h
    · next rest hd =>
      have hrest := List.takeWhile_append_dropWhile Char.isDigit rest
      split at h
      · cases h
      · next hds =>
        split at h
        · next y1 y2 hd2 =>
          split at h
          · next hy =>
            injection h with h
            subst h
            simp only [Bool.and_eq_true] at hy
            refine ⟨r.takeWhile (fun c => c != '/'), y1, y2, ?_, hne, ?_, hds, ?_, hy.1, hy.2⟩
            · rw [← hd2, hrest, ← hd, hr]
            · intro c hc
              simpa using List.mem_takeWhile_imp hc
            · intro c hc
              exact List.mem_takeWhile_imp hc
          · cases h
        · cases h
    · cases h

theorem matchSequencePattern_of_matches (r ds : Str) (h : MatchesSequencePattern r ds) :
    matchSequencePattern r = some ds := by
  obtain ⟨abbr, y1, y2, hr, hne, hslash, hds, hdig, hy1, hy2⟩ := h
  have h1 : ∀ c ∈ abbr, (fun c => c != '/') c = true := by
    intro c hc
    simpa using hslash c hc
  have t1 := takeWhile_append_stop (fun c => c != '/') abbr (ds ++ ['/', y1, y2]) '/' h1 (by simp)
  have d1 := dropWhile_append_stop (fun c => c != '/') abbr (ds ++ ['/', y1, y2]) '/' h1 (by simp)
  have t2 := takeWhile_append_stop Char.isDigit ds [y1, y2] '/' hdig (by decide)
  have d2 := dropWhile_append_stop Char.isDigit ds [y1, y2] '/' hdig (by decide)
  unfold matchSequencePattern
  simp only [hr, t1, d1, t2, d2, hne, hds, hy1, hy2, if_false, Bool.and_self, if_true]

/-- The scanner computes exactly the declarative match of the sequence pattern. -/
theorem matchSequencePattern_iff (r ds : Str) :
    matchSequencePattern r = some ds ↔ MatchesSequencePattern r ds :=
  ⟨matchSequencePattern_some r ds, matchSequencePattern_of_matches r ds⟩

theorem matchYearPattern_some (r : Str) (dd : Str) (h : matchYearPattern r = some dd) :
    ∃ y1 y2, dd = [y1, y2] ∧ MatchesYearPattern r y1 y2 := by
  unfold matchYearPattern at h
  split at h
  · next y1 y2 hd =>
    split at h
    · next hy =>
      injection h with h
      simp only [Bool.and_eq_true] at hy
      refine ⟨y1, y2, h.symm, r.take (r.length - 3), ?_, hy.1, hy.2⟩
      rw [← hd, List.take_append_drop]
    · cases h
  · cases h

theorem matchYearPattern_of_matches (r : Str) (y1 y2 : Char) (h : MatchesYearPattern r y1 y2) :
    matchYearPattern r = some [y1, y2] := by
  obtain ⟨front, hr, hy1, hy2⟩ := h
  have hd : r.drop (r.length - 3) = ['/', y1, y2] := by
    subst hr
    simp
  unfold matchYearPattern
  simp only [hd, hy1, hy2, Bool.and_self, if_true]

theorem digitValue_le_nine (c : Char) (h : c.isDigit = true) : digitValue c ≤ 9 := by
  simp only [Char.isDigit, Bool.and_eq_true, decide_eq_true_eq] at h
  have h2 : c.val.toNat ≤ 57 := by
    have := h.2
    exact this
  simp only [digitValue, Char.toNat]
  omega

theorem decimalValue_pair (y1 y2 : Char) :
    decimalValue [y1, y2] = 10 * digitValue y1 + digitValue y2 := by
  simp [decimalValue]

theorem decimalValue_pair_lt (y1 y2 : Char) (h1 : y1.isDigit = true) (h2 : y2.isDigit = true) :
    decimalValue [y1, y2] < 100 := by
  have := digitValue_le_nine y1 h1
  have := digitValue_le_nine y2 h2
  rw [decimalValue_pair]
  omega

/-- Up to `2^53` every natural number is a double: rounding leaves it as it is. -/
theorem roundToDouble_of_le (n : Nat) (h : n ≤ 9007199254740992) : roundToDouble n = n := by
  rcases Nat.lt_or_ge n 9007199254740992 with h1 | h1
  · simp [roundToDouble, h1]
  · have e : n = 9007199254740992 := by omega
    subst e
    decide

/-- Up to `2^53` `Number` reads the digits exactly. -/
theorem numberOfDigits_of_le (ds : Str) (h : decimalValue ds ≤ 9007199254740992) :
    numberOfDigits ds = decimalValue ds :=
  roundToDouble_of_le _ h

theorem numberOfDigits_pair (y1 y2 : Char) (h1 : y1.isDigit = true) (h2 : y2.isDigit = true) :
    numberOfDigits [y1, y2] = decimalValue [y1, y2] :=
  numberOfDigits_of_le _ (by have := decimalValue_pair_lt y1 y2 h1 h2; omega)

/-- The halving count is the length of the binary numeral: `2^(b-1) ≤ n < 2^b`. -/
theorem bitLengthAux_spec (fuel n : Nat) (h : n ≤ fuel) (hn : 0 < n) :
    2 ^ (bitLengthAux fuel n - 1) ≤ n ∧ n < 2 ^ bitLengthAux fuel n := by
  induction fuel generalizing n with
  | zero => omega
  | succ fuel ih =>
    have hn0 : n ≠ 0 := by omega
    simp only [bitLengthAux, hn0, if_false, Nat.add_sub_cancel]
    rcases Nat.eq_zero_or_pos (n / 2) with h0 | hpos
    · have h1 : n = 1 := by omega
      subst h1
      cases fuel <;> simp [bitLengthAux]
    · obtain ⟨ih1, ih2⟩ := ih (n / 2) (by omega) hpos
      have hb : 1 ≤ bitLengthAux fuel (n / 2) := by
        by_contra hb
        have hb0 : bitLengthAux fuel (n / 2) = 0 := by omega
        rw [hb0] at ih2
        simp at ih2
        omega
      obtain ⟨b, hbeq⟩ : ∃ b, bitLengthAux fuel (n / 2) = b + 1 := ⟨_, (Nat.sub_add_cancel hb).symm⟩
      rw [hbeq] at ih1 ih2 ⊢
      simp only [Nat.add_sub_cancel] at ih1
      rw [pow_succ] at ih2 ⊢
      rw [pow_succ]
      constructor <;> omega

/-- Rounding to the nearest double changes a natural number by at most the
fraction `2^-53` of its value. -/
theorem roundToDouble_near (n : Nat) :
    (roundToDouble n - n) * 2 ^ 53 ≤ n ∧ (n - roundToDouble n) * 2 ^ 53 ≤ n := by
  rcases Nat.lt_or_ge n 9007199254740992 with h1 | h1
  · simp [roundToDouble, h1]
  · obtain ⟨hb1, hb2⟩ := bitLengthAux_spec n n le_rfl (by omega)
    have hb : 54 ≤ bitLength n := by
      by_contra hlt
      have hle : bitLength n ≤ 53 := by omega
      have : (2 : Nat) ^ bitLength n ≤ 2 ^ 53 := Nat.pow_le_pow_right (by norm_num) hle
      have h53 : (2 : Nat) ^ 53 = 9007199254740992 := by norm_num
      unfold bitLength at this
      omega
    obtain ⟨s, hs⟩ : ∃ s, bitLength n = s + 53 := ⟨bitLength n - 53, by omega⟩
    have hlow : 2 ^ s * 2 ^ 52 ≤ n := by
      have e : bitLengthAux n n - 1 = s + 52 := by
        unfold bitLength at hs
        omega
      rw [e, pow_add] at hb1
      exact hb1
    have hdm := Nat.div_add_mod n (2 ^ s)
    have hr : n % 2 ^ s < 2 ^ s := Nat.mod_lt _ (by positivity)
    have h52 : (2 : Nat) ^ 52 = 4503599627370496 := by norm_num
    have h53 : (2 : Nat) ^ 53 = 9007199254740992 := by norm_num
    rw [h52] at hlow
    rw [h53]
    have hq : (n / 2 ^ s + 1) * 2 ^ s = 2 ^ s * (n / 2 ^ s) + 2 ^ s := by ring
    have hq2 : n / 2 ^ s * 2 ^ s = 2 ^ s * (n / 2 ^ s) := by ring
    simp only [roundToDouble, if_neg (by omega : ¬ n < 9007199254740992), hs, Nat.add_sub_cancel]
    split
    · rw [hq]
      constructor <;> omega
    · rw [hq2]
      constructor <;> omega

/-! ## Codec lemmas -/

theorem numberToString_natCast (n : Nat) : numberToString (n : Int) = natToString n := by
  have h : ¬ ((n : Int) < 0) := by omega
  simp [numberToString, h]

theorem twoDigitYear_natCast (y : Nat) (h : 10 ≤ y) :
    twoDigitYear (y : Int) = [digitChar (y / 10 % 10), digitChar (y % 10)] := by
  obtain ⟨xs, hxs⟩ := natToString_last_two y h
  rw [twoDigitYear, numberToString_natCast, hxs, sliceLast_two_append]

theorem buildReferenceNumber_truthy (a : Str) (s y : Int) (ha : a ≠ []) (hs : s ≠ 0)
    (hy : y ≠ 0) :
    buildReferenceNumber (some a) (some s) (some y)
      = a ++ '/' :: (padStart 4 '0' (numberToString s) ++ '/' :: twoDigitYear y) := by
  simp [buildReferenceNumber, ha, hs, hy]

theorem padStart_natToString_isDigit (n : Nat) :
    ∀ c ∈ padStart 4 '0' (natToString n), c.isDigit = true := by
  intro c hc
  rcases List.mem_append.mp hc with hc | hc
  · rw [List.eq_of_mem_replicate hc]
    decide
  · exact natToString_isDigit n c hc

theorem padStart_ne_nil (s : Str) (h : s ≠ []) : padStart 4 '0' s ≠ [] := by
  simp [padStart, h]

theorem decimalValue_padStart (n : Nat) : decimalValue (padStart 4 '0' (natToString n)) = n := by
  rw [padStart, decimalValue_replicate_zero, decimalValue_natToString]

theorem extractSequenceFromRef_of_matches (r ds : Str) (h : MatchesSequencePattern r ds) :
    extractSequenceFromRef r = (numberOfDigits ds : Int) := by
  have hm := matchSequencePattern_of_matches r ds h
  obtain ⟨abbr, y1, y2, hr, hne, -⟩ := h
  have hr0 : r ≠ [] := by
    subst hr
    simp
  simp [extractSequenceFromRef, hr0, hm]

theorem extractSequenceFromRef_of_not_matches (r : Str)
    (h : ¬ ∃ ds, MatchesSequencePattern r ds) : extractSequenceFromRef r = 0 := by
  cases hm : matchSequencePattern r with
  | none => simp [extractSequenceFromRef, hm]
  | some ds => exact absurd ⟨ds, matchSequencePattern_some r ds hm⟩ h

theorem extractYearFromRef_of_matches (N : Int) (r : Str) (y1 y2 : Char)
    (h : MatchesYearPattern r y1 y2) :
    extractYearFromRef N r
      = if N / 100 * 100 + (decimalValue [y1, y2] : Int) > N + 10
        then N / 100 * 100 + (decimalValue [y1, y2] : Int) - 100
        else N / 100 * 100 + (decimalValue [y1, y2] : Int) := by
  have hm := matchYearPattern_of_matches r y1 y2 h
  obtain ⟨front, hr, hy1, hy2⟩ := h
  have hr0 : r ≠ [] := by
    subst hr
    simp
  simp [extractYearFromRef, hr0, hm, numberOfDigits_pair y1 y2 hy1 hy2]

theorem extractYearFromRef_of_not_matches (N : Int) (r : Str)
    (h : ¬ ∃ y1 y2, MatchesYearPattern r y1 y2) : extractYearFromRef N r = 0 := by
  cases hm : matchYearPattern r with
  | none => simp [extractYearFromRef, hm]
  | some dd =>
    obtain ⟨y1, y2, -, hmatch⟩ := matchYearPattern_some r dd hm
    exact absurd ⟨y1, y2, hmatch⟩ h

/-- A string of the sequence shape also ends in a slash and two digits. -/
theorem matchesYear_of_matchesSequence (r ds : Str) (h : MatchesSequencePattern r ds) :
    ∃ y1 y2, MatchesYearPattern r y1 y2 := by
  obtain ⟨abbr, y1, y2, hr, -, -, -, -, hy1, hy2⟩ := h
  exact ⟨y1, y2, abbr ++ '/' :: ds, by simp [hr], hy1, hy2⟩

/-- A reference built from a slash-free abbreviation, a positive sequence and a
year of two digits or more has the sequence shape, the group being the padded
sequence; `extractSequenceFromRef` reads back a sequence that is a double. -/
theorem buildReferenceNumber_matches (A : Str) (S Y : Int) (hA : A ≠ [])
    (hslash : ∀ c ∈ A, c ≠ '/') (hS : 0 < S) (hY : 10 ≤ Y) :
    MatchesSequencePattern (buildReferenceNumber (some A) (some S) (some Y))
        (padStart 4 '0' (numberToString S)) ∧
      (roundToDouble S.toNat = S.toNat →
        extractSequenceFromRef (buildReferenceNumber (some A) (some S) (some Y)) = S) := by
  lift S to ℕ using hS.le
  lift Y to ℕ using (by omega : (0 : Int) ≤ Y)
  have hr := buildReferenceNumber_truthy A S Y hA (by omega) (by omega)
  rw [numberToString_natCast, twoDigitYear_natCast Y (by omega)] at hr
  have hm : MatchesSequencePattern (buildReferenceNumber (some A) (some (S : Int)) (some (Y : Int)))
      (padStart 4 '0' (natToString S)) :=
    ⟨A, digitChar (Y / 10 % 10), digitChar (Y % 10), hr, hA, hslash,
      padStart_ne_nil _ (natToString_ne_nil S), padStart_natToString_isDigit S,
      digitChar_isDigit _, digitChar_isDigit _⟩
  rw [numberToString_natCast]
  refine ⟨hm, fun hdouble => ?_⟩
  rw [Int.toNat_ofNat] at hdouble
  rw [extractSequenceFromRef_of_matches _ _ hm, numberOfDigits, decimalValue_padStart, hdouble]

/-! ## Lemmas on lists, options and outcomes -/

theorem find_first_match {α : Type} (p : α → Bool) (before after : List α) (e : α)
    (hbefore : ∀ x ∈ before, p x = false) (he : p e = true) :
    (before ++ e :: after).find? p = some e := by
  induction before with
  | nil => rw [List.nil_append, List.find?_cons, he]
  | cons b bs ih =>
    rw [List.cons_append, List.find?_cons, hbefore b (List.mem_cons_self b bs)]
    exact ih (fun x hx => hbefore x (List.mem_cons_of_mem b hx))

/-- A record that carries a non-zero sequence number, a non-empty company id
and a non-zero year is mapped to a letter with exactly these three values. -/
theorem mapLetter_keys (currentYear : Int) (item : LetterItem) (C : Str) (seq y : Int)
    (hC : C ≠ []) (hseq : seq ≠ 0) (hy : y ≠ 0) (h1 : item.fields.CompanyItemId = some C)
    (h2 : item.fields.SequenceNumber = some seq) (h3 : item.fields.Year = some y) :
    (mapLetter currentYear item).companyId = C ∧
      (mapLetter currentYear item).sequenceNumber = seq ∧
      (mapLetter currentYear item).year = y := by
  have tC : truthyStr (some C) = true := by
    cases C with
    | nil => exact absurd rfl hC
    | cons c cs => rfl
  refine ⟨?_, ?_, ?_⟩
  · simp [mapLetter, h1, orStr, tC]
  · simp [mapLetter, h2, orNum, truthyNum, hseq]
  · simp [mapLetter, h3, orNum, truthyNum, hy]

theorem failsFast_local {α : Type} (ext : Collaborators) (state : State) (message : String)
    (h : message ∈ localMessages) :
    FailsFast ext state (⟨state, [], .error message⟩ : Outcome α) := by
  intro m hm
  injection hm with hm
  subst hm
  exact Or.inl ⟨h, rfl, rfl⟩

theorem failsFast_ok {α : Type} (ext : Collaborators) (state st : State)
    (calls : List StoreCall) (value : α) :
    FailsFast ext state (⟨st, calls, .ok value⟩ : Outcome α) := by
  intro m hm
  cases hm

theorem failsFast_store {α : Type} (ext : Collaborators) (state st : State)
    (calls : List StoreCall) (message : String) (hcalls : calls ≠ [])
    (h : StoreFailed ext message) :
    FailsFast ext state (⟨st, calls, .error message⟩ : Outcome α) := by
  intro m hm
  injection hm with hm
  subst hm
  exact Or.inr ⟨hcalls, h⟩

theorem truthyStr_some (x : Str) (h : x ≠ []) : truthyStr (some x) = true := by
  cases x with
  | nil => exact absurd rfl h
  | cons c cs => rfl

theorem truthyStr_inv (x : Option Str) (h : truthyStr x = true) : ∃ v, x = some v ∧ v ≠ [] := by
  rcases x with _ | v
  · simp [truthyStr] at h
  · cases v with
    | nil => simp [truthyStr] at h
    | cons c cs => exact ⟨c :: cs, rfl, by simp⟩

/-- The only record-store call of `updateLetter` is the update of the letter
item with the `fieldUpdates` object. -/
theorem updateLetter_calls_inv (ext : Collaborators) (existing : Letter) (id : Str)
    (input : UpdateLetterInput) (call : StoreCall)
    (hcall : call ∈
      (if updateLetterFields ext.nowIso existing input.updates ≠ {}
        then [StoreCall.updateLetterItem id (updateLetterFields ext.nowIso existing input.updates)]
        else []) ++ deleteLetterFilesCalls input.attachmentsToRemove ++
      (if input.attachmentsToAdd.length > 0
        then [StoreCall.uploadLetterFiles
          { abbreviation := existing.companyAbbreviation, name := existing.companyName }
          existing.referenceNumber input.attachmentsToAdd]
        else [])) :
    (∀ cid fields, call = .updateLetterItem cid fields →
      fields = updateLetterFields ext.nowIso existing input.updates) ∧
    (∀ fields, call ≠ .createLetterItem fields) := by
  rcases List.mem_append.1 hcall with h | h
  · rcases List.mem_append.1 h with h | h
    · split at h
      · rw [List.mem_singleton] at h
        subst h
        constructor
        · intro cid fields heq
          injection heq with h1 h2
          exact h2.symm
        · intro fields heq
          cases heq
      · cases h
    · obtain ⟨item, -, rfl⟩ := List.mem_map.1 h
      constructor
      · intro cid fields heq
        cases heq
      · intro fields heq
        cases heq
  · split at h
    · rw [List.mem_singleton] at h
      subst h
      constructor
      · intro cid fields heq
        cases heq
      · intro fields heq
        cases heq
    · cases h

/-! ## Lemmas on lower-casing -/

section
variable [JsEngine]

theorem toLowerCase_ascii (s : Str) (h : ∀ c ∈ s, c.toNat < 128) :
    toLowerCase s = s.map Char.toLower :=
  JsEngine.toLowerCase_ascii s h

theorem toLowerCase_nil : toLowerCase [] = [] :=
  toLowerCase_ascii [] (by simp)

theorem toLowerCase_viewer : toLowerCase "Viewer".toList = "viewer".toList :=
  toLowerCase_ascii "Viewer".toList (by decide)

theorem toLowerCase_admin : toLowerCase "Admin".toList = "admin".toList :=
  toLowerCase_ascii "Admin".toList (by decide)

/-- The role string in lower case, for a non-empty `baseRole`. -/
theorem currentRole_of_baseRole (state : State) (upn role : Str)
    (h : baseRole state upn = role) (hne : role ≠ []) :
    currentRole state upn = toLowerCase role := by
  rw [currentRole, h, if_pos hne]

theorem currentRole_of_viewer (state : State) (upn : Str)
    (h : baseRole state upn = "Viewer".toList) : currentRole state upn = "viewer".toList := by
  rw [currentRole_of_baseRole state upn _ h (by decide), toLowerCase_viewer]

theorem currentRole_of_admin (state : State) (upn : Str)
    (h : baseRole state upn = "Admin".toList) : currentRole state upn = "admin".toList := by
  rw [currentRole_of_baseRole state upn _ h (by decide), toLowerCase_admin]

theorem currentRole_of_empty (state : State) (upn : Str) (h : baseRole state upn = []) :
    currentRole state upn = "viewer".toList := by
  rw [currentRole, h, if_neg (by simp), toLowerCase_viewer]

end

/-! ## Allocator lemmas -/

theorem mathMaxZero_nonneg (xs : List Int) : 0 ≤ mathMaxZero xs := by
  induction xs with
  | nil => simp [mathMaxZero]
  | cons x xs ih =>
    simp only [mathMaxZero, List.foldr_cons] at ih ⊢
    omega

theorem le_mathMaxZero (xs : List Int) : ∀ s ∈ xs, s ≤ mathMaxZero xs := by
  induction xs with
  | nil => simp
  | cons x xs ih =>
    intro s hs
    simp only [mathMaxZero, List.foldr_cons] at ih ⊢
    rcases List.mem_cons.mp hs with h | h
    · subst h
      omega
    · have := ih s h
      omega

theorem mathMaxZero_mem (xs : List Int) : mathMaxZero xs = 0 ∨ mathMaxZero xs ∈ xs := by
  induction xs with
  | nil => simp [mathMaxZero]
  | cons x xs ih =>
    simp only [mathMaxZero, List.foldr_cons, List.mem_cons] at ih ⊢
    rcases ih with h | h
    · rcases le_total x (List.foldr max 0 xs) with hle | hle
      · left
        rw [max_eq_right hle, h]
      · right
        left
        exact max_eq_left hle
    · rcases le_total x (List.foldr max 0 xs) with hle | hle
      · right
        right
        rw [max_eq_right hle]
        exact h
      · right
        left
        exact max_eq_left hle

/-- `Math.max(...xs, 0)` is the larger of `0` and the maximum `m` of `xs`. -/
theorem mathMaxZero_eq (xs : List Int) (m : Int) (hmem : m ∈ xs) (hmax : ∀ s ∈ xs, s ≤ m) :
    mathMaxZero xs = max m 0 := by
  have h0 := mathMaxZero_nonneg xs
  have h1 := le_mathMaxZero xs m hmem
  rcases mathMaxZero_mem xs with h | h
  · omega
  · have := hmax _ h
    omega

theorem sequenceNumber_or_zero :
    (fun letter : Letter => if letter.sequenceNumber ≠ 0 then letter.sequenceNumber else 0)
      = Letter.sequenceNumber := by
  funext letter
  split
  · rfl
  · omega

theorem mem_relevantLetters (state : State) (cid : Str) (y : Int) (l : Letter) :
    l ∈ relevantLetters state cid y ↔ l ∈ state.letters ∧ l.companyId = cid ∧ l.year = y := by
  simp [relevantLetters, List.mem_filter]

section
variable [JsEngine]

/-- The allocator on a present company id and year inside the scope. -/
theorem getNextSequence_inScope (state : State) (upn cid : Str) (y : Int) (hc : cid ≠ [])
    (hy : y ≠ 0) (hs : outOfScope state upn cid = false) :
    getNextSequence state upn (some cid) (some y)
      = if relevantLetters state cid y = [] then
          some (match getCompany state upn (some cid) with
            | some company => if company.startingNumber ≠ 0 then company.startingNumber else 1
            | none => 1)
        else some (mathMaxZero ((relevantLetters state cid y).map Letter.sequenceNumber) + 1) := by
  have h1 : truthyStr (some cid) = true := by
    cases cid with
    | nil => exact absurd rfl hc
    | cons c cs => rfl
  have h2 : truthyNum (some y) = true := by simp [truthyNum, hy]
  simp only [getNextSequence, h1, h2, hs, sequenceNumber_or_zero, List.length_eq_zero]
  by_cases hrel : relevantLetters state cid y = []
  · simp only [hrel, if_true]
    cases getCompany state upn (some cid) <;> simp
  · simp [hrel]

/-- The scope depends on the access entries only, not on the company and letter caches. -/
theorem allowedCompanySet_caches (state : State) (upn : Str) (companies : List Company)
    (letters : List Letter) :
    allowedCompanySet { state with companies := companies, letters := letters } upn
      = allowedCompanySet state upn := rfl

theorem outOfScope_caches (state : State) (upn id : Str) (companies : List Company)
    (letters : List Letter) :
    outOfScope { state with companies := companies, letters := letters } upn id
      = outOfScope state upn id := rfl

theorem getCompany_outOfScope (state : State) (upn cid : Str)
    (h : outOfScope state upn cid = true) : getCompany state upn (some cid) = none := by
  unfold getCompany
  cases hf : state.companies.find? (fun item => some item.id == some cid) with
  | none => rfl
  | some company =>
    have hid : company.id = cid := by
      have := List.find?_some hf
      simpa using this
    simp [hid, h]

end

/-! ## Letter creation lemmas -/

section
variable [JsEngine]

theorem getNextSequence_some_inv (state : State) (upn : Str) (companyId : Option Str)
    (year : Option Int) (n : Int) (h : getNextSequence state upn companyId year = some n) :
    ∃ C y, companyId = some C ∧ year = some y ∧ C ≠ [] ∧ y ≠ 0 ∧
      outOfScope state upn C = false := by
  rcases companyId with _ | C
  · simp [getNextSequence, truthyStr] at h
  rcases year with _ | y
  · simp [getNextSequence, truthyNum] at h
  have hC : C ≠ [] := by
    rintro rfl
    simp [getNextSequence, truthyStr] at h
  have hy : y ≠ 0 := by
    rintro rfl
    simp [getNextSequence, truthyNum] at h
  refine ⟨C, y, rfl, rfl, hC, hy, ?_⟩
  cases hs : outOfScope state upn C with
  | false => rfl
  | true =>
    unfold getNextSequence at h
    split at h
    · cases h
    · simp [hs] at h

theorem getCompany_id (state : State) (upn C : Str) (company : Company)
    (h : getCompany state upn (some C) = some company) : company.id = C := by
  unfold getCompany at h
  split at h
  · cases h
  next found hf =>
    have hid : found.id = C := by simpa using List.find?_some hf
    split at h
    · cases h
    · injection h with h
      rw [← h, hid]

/-- What a successful `createLetter` did: the checks it passed, the record it
wrote, and the letter it added to the cache. -/
theorem createLetter_ok_inv (ext : Collaborators) (state : State) (upn : Str)
    (input : CreateLetterInput) (res : CreateLetterResult)
    (hok : (createLetter ext state upn input).result = .ok res) :
    ∃ C company y created added,
      input.companyId = some C ∧ C ≠ [] ∧ outOfScope state upn C = false ∧
      canEditLetters state upn = true ∧
      getCompany state upn (some C) = some company ∧
      derivedYear ext input = some y ∧ y ≠ 0 ∧
      getNextSequence state upn (some C) (some y) = some res.sequenceNumber ∧
      res.sequenceNumber ≠ 0 ∧ res.year = y ∧
      res.referenceNumber
        = buildReferenceNumber (some company.abbreviation) (some res.sequenceNumber) (some y) ∧
      ext.createListItem
          (createLetterFields company input res.referenceNumber res.sequenceNumber (some y)
            (normalizeLetterDate ext.nowIso input.letterDate)) = .ok created ∧
      added.companyId = (mapLetter ext.currentYear created).companyId ∧
      added.sequenceNumber = (mapLetter ext.currentYear created).sequenceNumber ∧
      added.year = (mapLetter ext.currentYear created).year ∧
      (createLetter ext state upn input).state
        = letterReducer
            (letterReducer (letterReducer state (.setLoading .creating true)) (.addLetter added))
            (.setLoading .creating false) := by
  generalize hout : createLetter ext state upn input = out at hok ⊢
  unfold createLetter at hout
  split at hout
  · subst hout
    cases hok
  next hcid =>
  split at hout
  · subst hout
    cases hok
  next hedit =>
  split at hout
  · subst hout
    cases hok
  next hscope =>
  split at hout
  · subst hout
    cases hok
  next company hcompany =>
  split at hout
  · subst hout
    cases hok
  next sequenceNumber hnext =>
  split at hout
  · subst hout
    cases hok
  next hseq0 =>
  obtain ⟨C, y, hC, hy, hCne, hyne, hsc⟩ := getNextSequence_some_inv _ _ _ _ _ hnext
  simp only at hout
  split at hout
  · subst hout
    cases hok
  next created hcreated =>
  split at hout
  · split at hout
    · subst hout
      cases hok
    next uploaded hupload =>
    subst hout
    simp only at hok
    injection hok with hok
    subst hok
    rw [hC] at hcompany hnext
    rw [hy] at hnext hcreated ⊢
    simp only [Bool.not_eq_true, Bool.not_eq_eq_eq_not, Bool.not_true,
      Bool.not_false] at hedit
    exact ⟨C, company, y, created,
      { mapLetter ext.currentYear created with
        hasAttachments := decide (uploaded.length > 0)
        attachmentsLoaded := true
        attachments := uploaded },
      hC, hCne, hsc, by simpa using hedit, hcompany, rfl, hyne,
      hnext, hseq0, rfl, rfl, hcreated, rfl, rfl, rfl, rfl⟩
  · subst hout
    simp only at hok
    injection hok with hok
    subst hok
    rw [hC] at hcompany hnext
    rw [hy] at hnext hcreated ⊢
    simp only [Bool.not_eq_true, Bool.not_eq_eq_eq_not, Bool.not_true,
      Bool.not_false] at hedit
    exact ⟨C, company, y, created,
      { mapLetter ext.currentYear created with attachmentsLoaded := true },
      hC, hCne, hsc, by simpa using hedit, hcompany, rfl, hyne,
      hnext, hseq0, rfl, rfl, hcreated, rfl, rfl, rfl, rfl⟩

end

/-! ## Claims on the codec -/

/-- C6: `buildReferenceNumber` returns the empty string when one of its three
inputs is falsy (missing, empty abbreviation, zero sequence, zero year).
Otherwise it returns the abbreviation, a slash, the decimal numeral of the
sequence left-padded with zeros to at least four characters, a slash, and the
last two characters of the decimal numeral of the year; for a positive sequence the
padded run consists of digits and has the value of the sequence, and for a year
of two digits or more the final run is the tens digit and the units digit. -/
theorem buildReferenceNumber_spec (abbr : Option Str) (seq year : Option Int) :
    ((truthyStr abbr && truthyNum seq && truthyNum year) = false →
      buildReferenceNumber abbr seq year = []) ∧
    (∀ a s y, abbr = some a → seq = some s → year = some y → a ≠ [] → s ≠ 0 → y ≠ 0 →
      buildReferenceNumber abbr seq year
          = a ++ ['/'] ++ padStart 4 '0' (numberToString s) ++ ['/']
              ++ sliceLast 2 (numberToString y)
        ∧ 4 ≤ (padStart 4 '0' (numberToString s)).length
        ∧ (0 < s → (∀ c ∈ padStart 4 '0' (numberToString s), c.isDigit = true)
              ∧ (decimalValue (padStart 4 '0' (numberToString s)) : Int) = s)
        ∧ (10 ≤ y → sliceLast 2 (numberToString y)
              = [digitChar (y.toNat / 10 % 10), digitChar (y.toNat % 10)])) := by
  constructor
  · intro h
    rcases abbr with _ | a <;> rcases seq with _ | s <;> rcases year with _ | y <;>
      simp [buildReferenceNumber]
    rcases a with _ | ⟨c, a⟩
    · simp
    · intro _
      simpa [truthyStr, truthyNum] using h
  · intro a s y ha hs hy hane hsne hyne
    subst ha hs hy
    refine ⟨?_, ?_, ?_, ?_⟩
    · rw [buildReferenceNumber_truthy a s y hane hsne hyne]
      simp [twoDigitYear]
    · simp only [padStart, List.length_append, List.length_replicate]
      omega
    · intro hpos
      lift s to ℕ using hpos.le
      rw [numberToString_natCast]
      exact ⟨padStart_natToString_isDigit s, by rw [decimalValue_padStart]⟩
    · intro hten
      lift y to ℕ using (by omega : (0 : Int) ≤ y)
      have h10 : 10 ≤ y := by omega
      have := twoDigitYear_natCast y h10
      simpa [twoDigitYear] using this

theorem buildReferenceNumber_spec_witness :
    buildReferenceNumber (some "EASE".toList) (some 1) (some 2024) = "EASE/0001/24".toList :=
  ((buildReferenceNumber_spec (some "EASE".toList) (some 1) (some 2024)).2
    "EASE".toList 1 2024 rfl rfl rfl (by decide) (by decide) (by decide)).1.trans (by decide)

/-- C7, as the claim states it, fails: `Number` reads the captured digits as a
double.  The string `EASE/9007199254740993/24` matches the pattern, the digit run
has the integer value `2^53 + 1`, and `extractSequenceFromRef` returns `2^53`. -/
theorem extractSequenceFromRef_rounding_counterexample :
    MatchesSequencePattern "EASE/9007199254740993/24".toList "9007199254740993".toList ∧
      decimalValue "9007199254740993".toList = 9007199254740993 ∧
      extractSequenceFromRef "EASE/9007199254740993/24".toList = 9007199254740992 :=
  ⟨⟨"EASE".toList, '2', '4', by decide, by decide, by decide, by decide, by decide,
      by decide, by decide⟩, by decide, by decide⟩

/-- C7, amended: for every string `r` that matches `^[^/]+/(\d+)/\d{2}$`,
`extractSequenceFromRef r` is the integer value of the captured digit run when
that value is at most `2^53`; for a larger value below `2^1024 - 2^970` it is the
value rounded to the nearest double, which differs from the value by at most the
fraction `2^-53` of it.  It is `0` when `r` does not match. -/
theorem extractSequenceFromRef_spec (r : Str) :
    (∀ ds, MatchesSequencePattern r ds →
      (decimalValue ds ≤ 9007199254740992 →
        extractSequenceFromRef r = (decimalValue ds : Int)) ∧
      (decimalValue ds < 2 ^ 1024 - 2 ^ 970 →
        extractSequenceFromRef r = (roundToDouble (decimalValue ds) : Int) ∧
        |extractSequenceFromRef r - (decimalValue ds : Int)| * 2 ^ 53
          ≤ (decimalValue ds : Int))) ∧
    ((¬ ∃ ds, MatchesSequencePattern r ds) → extractSequenceFromRef r = 0) := by
  refine ⟨fun ds h => ⟨fun hle => ?_, fun _ => ⟨?_, ?_⟩⟩, extractSequenceFromRef_of_not_matches r⟩
  · rw [extractSequenceFromRef_of_matches r ds h, numberOfDigits_of_le ds hle]
  · rw [extractSequenceFromRef_of_matches r ds h, numberOfDigits]
  · rw [extractSequenceFromRef_of_matches r ds h, numberOfDigits]
    obtain ⟨h1, h2⟩ := roundToDouble_near (decimalValue ds)
    have h53 : (2 : Nat) ^ 53 = 9007199254740992 := by norm_num
    have h53i : (2 : Int) ^ 53 = 9007199254740992 := by norm_num
    rw [h53] at h1 h2
    rw [h53i]
    rcases abs_cases ((roundToDouble (decimalValue ds) : Int) - (decimalValue ds : Int))
      with ⟨e, _⟩ | ⟨e, _⟩ <;> rw [e] <;> omega

theorem extractSequenceFromRef_spec_witness :
    MatchesSequencePattern "EASE/0042/24".toList "0042".toList ∧
      decimalValue "0042".toList ≤ 9007199254740992 ∧
      extractSequenceFromRef "EASE/0042/24".toList = 42 :=
  have hm : MatchesSequencePattern "EASE/0042/24".toList "0042".toList :=
    ⟨"EASE".toList, '2', '4', by decide, by decide, by decide, by decide, by decide,
      by decide, by decide⟩
  ⟨hm, by decide,
    (((extractSequenceFromRef_spec "EASE/0042/24".toList).1 "0042".toList hm).1
      (by decide)).trans (by decide)⟩

/-- C8: for every current year `N` and every string `r` ending in a slash and two
digits `dd`, `extractYearFromRef` returns the current century plus `dd`, less 100
when that value is more than ten years after `N`; the result has last two digits
`dd`, is never greater than `N + 10`, and is a four-digit year whenever
`1100 ≤ N ≤ 9999`.  For a string without such an ending it returns `0`. -/
theorem extractYearFromRef_spec (N : Int) (r : Str) :
    (∀ y1 y2, MatchesYearPattern r y1 y2 →
      extractYearFromRef N r
          = (if N / 100 * 100 + (decimalValue [y1, y2] : Int) > N + 10
              then N / 100 * 100 + (decimalValue [y1, y2] : Int) - 100
              else N / 100 * 100 + (decimalValue [y1, y2] : Int))
        ∧ extractYearFromRef N r % 100 = (decimalValue [y1, y2] : Int)
        ∧ extractYearFromRef N r ≤ N + 10
        ∧ (1100 ≤ N → N ≤ 9999 →
            1000 ≤ extractYearFromRef N r ∧ extractYearFromRef N r ≤ 9999)) ∧
    ((¬ ∃ y1 y2, MatchesYearPattern r y1 y2) → extractYearFromRef N r = 0) := by
  refine ⟨?_, extractYearFromRef_of_not_matches N r⟩
  intro y1 y2 h
  have he := extractYearFromRef_of_matches N r y1 y2 h
  obtain ⟨front, -, h1, h2⟩ := h
  have hlt := decimalValue_pair_lt y1 y2 h1 h2
  refine ⟨he, ?_, ?_, ?_⟩
  · rw [he]
    split <;> omega
  · rw [he]
    split <;> omega
  · intro hlo hhi
    rw [he]
    split <;> omega

theorem extractYearFromRef_spec_witness :
    MatchesYearPattern "EASE/0042/24".toList '2' '4' ∧
      extractYearFromRef 2024 "EASE/0042/24".toList = 2024 :=
  have hm : MatchesYearPattern "EASE/0042/24".toList '2' '4' :=
    ⟨"EASE/0042".toList, by decide, by decide, by decide⟩
  ⟨hm, ((extractYearFromRef_spec 2024 "EASE/0042/24".toList).1 '2' '4' hm).1.trans
    (by decide)⟩

/-- C9, as the claim states it, fails: `EASE/24` lacks the shape
`ABBR/digits/two-digits`, yet `extractYearFromRef` returns 2024 for it. -/
theorem extractYearFromRef_malformed_counterexample :
    (¬ ∃ ds, MatchesSequencePattern "EASE/24".toList ds) ∧
      extractSequenceFromRef "EASE/24".toList = 0 ∧
      extractYearFromRef 2024 "EASE/24".toList = 2024 := by
  refine ⟨?_, by decide, by decide⟩
  rintro ⟨ds, h⟩
  have hm := matchSequencePattern_of_matches _ _ h
  have hn : matchSequencePattern "EASE/24".toList = none := by decide
  rw [hn] at hm
  cases hm

/-- C9, amended: both functions are total; `extractSequenceFromRef` returns `0`
for every string that lacks the shape `ABBR/digits/two-digits`;
`extractYearFromRef` returns `0` for every string that does not end in a slash
followed by two digits, and for such a string `extractSequenceFromRef` returns `0`
as well; both return `0` for the empty string. -/
theorem extract_malformed (N : Int) (r : Str) :
    ((¬ ∃ ds, MatchesSequencePattern r ds) → extractSequenceFromRef r = 0) ∧
    ((¬ ∃ y1 y2, MatchesYearPattern r y1 y2) →
      extractYearFromRef N r = 0 ∧ extractSequenceFromRef r = 0) ∧
    extractSequenceFromRef [] = 0 ∧ extractYearFromRef N [] = 0 := by
  refine ⟨extractSequenceFromRef_of_not_matches r, ?_, rfl, rfl⟩
  intro h
  refine ⟨extractYearFromRef_of_not_matches N r h, ?_⟩
  apply extractSequenceFromRef_of_not_matches
  rintro ⟨ds, hds⟩
  exact h (matchesYear_of_matchesSequence r ds hds)

theorem extract_malformed_witness :
    (¬ ∃ y1 y2, MatchesYearPattern "EASE-42".toList y1 y2) ∧
      extractYearFromRef 2024 "EASE-42".toList = 0 ∧
      extractSequenceFromRef "EASE-42".toList = 0 :=
  have hn : ¬ ∃ y1 y2, MatchesYearPattern "EASE-42".toList y1 y2 := by
    rintro ⟨y1, y2, h⟩
    have hm := matchYearPattern_of_matches _ _ _ h
    have hnone : matchYearPattern "EASE-42".toList = none := by decide
    rw [hnone] at hm
    cases hm
  ⟨hn, (extract_malformed 2024 "EASE-42".toList).2.1 hn⟩

/-- C5, as the claim states it, fails: the abbreviation `A/B` is non-empty, but
the reference `A/B/0001/24` built from it does not parse, so formatting the
parsed values gives the empty string. -/
theorem codec_roundtrip_counterexample :
    "A/B".toList ≠ [] ∧
      buildReferenceNumber (some "A/B".toList) (some 1) (some 2024) = "A/B/0001/24".toList ∧
      buildReferenceNumber (some "A/B".toList)
          (some (extractSequenceFromRef
            (buildReferenceNumber (some "A/B".toList) (some 1) (some 2024))))
          (some (extractYearFromRef 2024
            (buildReferenceNumber (some "A/B".toList) (some 1) (some 2024))))
        ≠ buildReferenceNumber (some "A/B".toList) (some 1) (some 2024) := by
  decide

/-- C5, amended: for every non-empty abbreviation `A` that contains no slash,
every sequence `1 ≤ S ≤ 9999` and every four-digit year `Y`, with a current year
`N ≥ 100`, parsing the formatted reference and formatting again gives the same
string. -/
theorem codec_roundtrip (N : Int) (A : Str) (S Y : Int) (hN : 100 ≤ N) (hA : A ≠ [])
    (hslash : ∀ c ∈ A, c ≠ '/') (hS1 : 1 ≤ S) (hS2 : S ≤ 9999) (hY1 : 1000 ≤ Y)
    (hY2 : Y ≤ 9999) :
    buildReferenceNumber (some A)
        (some (extractSequenceFromRef (buildReferenceNumber (some A) (some S) (some Y))))
        (some (extractYearFromRef N (buildReferenceNumber (some A) (some S) (some Y))))
      = buildReferenceNumber (some A) (some S) (some Y) := by
  lift S to ℕ using (by omega : (0 : Int) ≤ S)
  lift Y to ℕ using (by omega : (0 : Int) ≤ Y)
  have hY10 : 10 ≤ Y := by omega
  have hr := buildReferenceNumber_truthy A S Y hA (by omega) (by omega)
  rw [numberToString_natCast, twoDigitYear_natCast Y hY10] at hr
  have hseq : MatchesSequencePattern (buildReferenceNumber (some A) (some (S : Int)) (some (Y : Int)))
      (padStart 4 '0' (natToString S)) :=
    ⟨A, digitChar (Y / 10 % 10), digitChar (Y % 10), hr, hA, hslash,
      padStart_ne_nil _ (natToString_ne_nil S), padStart_natToString_isDigit S,
      digitChar_isDigit _, digitChar_isDigit _⟩
  have hyear : MatchesYearPattern (buildReferenceNumber (some A) (some (S : Int)) (some (Y : Int)))
      (digitChar (Y / 10 % 10)) (digitChar (Y % 10)) :=
    ⟨A ++ '/' :: padStart 4 '0' (natToString S), by simp [hr], digitChar_isDigit _,
      digitChar_isDigit _⟩
  have e1 := extractSequenceFromRef_of_matches _ _ hseq
  rw [numberOfDigits_of_le _ (by rw [decimalValue_padStart]; omega), decimalValue_padStart] at e1
  have e2 := extractYearFromRef_of_matches N _ _ _ hyear
  have hdd : decimalValue [digitChar (Y / 10 % 10), digitChar (Y % 10)] = Y % 100 := by
    rw [decimalValue_pair, digitValue_digitChar _ (by omega), digitValue_digitChar _ (by omega)]
    omega
  rw [hdd] at e2
  obtain ⟨yr, hyr, hyr10, hmod⟩ : ∃ yr : ℕ,
      extractYearFromRef N (buildReferenceNumber (some A) (some (S : Int)) (some (Y : Int)))
        = (yr : Int) ∧ 10 ≤ yr ∧ yr % 100 = Y % 100 := by
    refine ⟨(extractYearFromRef N
      (buildReferenceNumber (some A) (some (S : Int)) (some (Y : Int)))).toNat, ?_, ?_, ?_⟩
    · rw [e2]
      split <;> omega
    · rw [e2]
      split <;> omega
    · rw [e2]
      split <;> omega
  rw [e1, hyr, buildReferenceNumber_truthy A S yr hA (by omega) (by omega), hr,
    numberToString_natCast, twoDigitYear_natCast yr hyr10]
  have h1 : yr / 10 % 10 = Y / 10 % 10 := by omega
  have h2 : yr % 10 = Y % 10 := by omega
  rw [h1, h2]

theorem codec_roundtrip_witness :
    buildReferenceNumber (some "EASE".toList)
        (some (extractSequenceFromRef
          (buildReferenceNumber (some "EASE".toList) (some 42) (some 1999))))
        (some (extractYearFromRef 2024
          (buildReferenceNumber (some "EASE".toList) (some 42) (some 1999))))
      = buildReferenceNumber (some "EASE".toList) (some 42) (some 1999) :=
  codec_roundtrip 2024 "EASE".toList 42 1999 (by decide) (by decide) (by decide) (by decide)
    (by decide) (by decide) (by decide)

/-! ## Claims on the allocator and the scope -/

section
variable [JsEngine]

/-- C1, amended: for every cache state, every company id `C` inside the scope and
every year `Y`, if `m` is the maximum sequence number over exactly the cached
letters with `companyId = C` and `year = Y`, then `getNextSequence C Y` is
`max m 0 + 1`, whatever other letters the cache holds; this is `m + 1` whenever
`m` is not negative. -/
theorem getNextSequence_max (state : State) (upn C : Str) (Y m : Int) (hC : C ≠ [])
    (hY : Y ≠ 0) (hscope : outOfScope state upn C = false)
    (hmem : ∃ l ∈ state.letters, l.companyId = C ∧ l.year = Y ∧ l.sequenceNumber = m)
    (hmax : ∀ l ∈ state.letters, l.companyId = C → l.year = Y → l.sequenceNumber ≤ m) :
    getNextSequence state upn (some C) (some Y) = some (max m 0 + 1) ∧
      (0 ≤ m → getNextSequence state upn (some C) (some Y) = some (m + 1)) := by
  obtain ⟨l, hl, hlc, hly, hlm⟩ := hmem
  have hrel : l ∈ relevantLetters state C Y := (mem_relevantLetters state C Y l).2 ⟨hl, hlc, hly⟩
  have hne : relevantLetters state C Y ≠ [] := List.ne_nil_of_mem hrel
  have hmm : mathMaxZero ((relevantLetters state C Y).map Letter.sequenceNumber) = max m 0 := by
    apply mathMaxZero_eq
    · exact List.mem_map.2 ⟨l, hrel, hlm⟩
    · intro s hs
      obtain ⟨l2, hl2, rfl⟩ := List.mem_map.1 hs
      obtain ⟨h1, h2, h3⟩ := (mem_relevantLetters state C Y l2).1 hl2
      exact hmax l2 h1 h2 h3
  have key : getNextSequence state upn (some C) (some Y) = some (max m 0 + 1) := by
    rw [getNextSequence_inScope state upn C Y hC hY hscope, if_neg hne, hmm]
  refine ⟨key, fun h0 => ?_⟩
  rw [key, max_eq_left h0]

/-- C2: for every cache state, every company id `C` inside the scope and every
year `Y` such that no cached letter has both `companyId = C` and `year = Y`,
`getNextSequence C Y` is the starting number `S` of the cached company `C` when
`S` is configured (not the falsy value `0`), and `1` when the company has no
configured starting number (`S = 0`) or is not in the company cache; letters
of `C` for other years play no part. -/
theorem getNextSequence_starting (state : State) (upn C : Str) (Y : Int) (hC : C ≠ [])
    (hY : Y ≠ 0) (hscope : outOfScope state upn C = false)
    (hnone : ∀ l ∈ state.letters, ¬ (l.companyId = C ∧ l.year = Y)) :
    (∀ company, state.companies.find? (fun item => item.id == C) = some company →
        company.startingNumber ≠ 0 →
        getNextSequence state upn (some C) (some Y) = some company.startingNumber) ∧
      (∀ company, state.companies.find? (fun item => item.id == C) = some company →
        company.startingNumber = 0 →
        getNextSequence state upn (some C) (some Y) = some 1) ∧
      (state.companies.find? (fun item => item.id == C) = none →
        getNextSequence state upn (some C) (some Y) = some 1) := by
  have hrel : relevantLetters state C Y = [] := by
    apply List.eq_nil_iff_forall_not_mem.2
    intro l hl
    obtain ⟨h1, h2, h3⟩ := (mem_relevantLetters state C Y l).1 hl
    exact hnone l h1 ⟨h2, h3⟩
  have hfun : (fun item : Company => some item.id == some C) = (fun item => item.id == C) := by
    funext item
    simp
  rw [getNextSequence_inScope state upn C Y hC hY hscope, if_pos hrel]
  unfold getCompany
  rw [hfun]
  refine ⟨?_, ?_, ?_⟩
  · intro company hf hS
    have hid : company.id = C := by simpa using List.find?_some hf
    simp [hf, hid, hscope, hS]
  · intro company hf hS
    have hid : company.id = C := by simpa using List.find?_some hf
    simp [hf, hid, hscope, hS]
  · intro hf
    simp [hf]

/-- C3: `getNextSequence` returns `null` when the company id is missing or empty,
when the year is missing or zero, and when the scope is restricted to a set that
does not contain the company id; in that last case the result is `null`, and
`getReferencePreview` is the empty string, for every content of the company and
letter caches. -/
theorem getNextSequence_null (state : State) (upn : Str) (companyId : Option Str)
    (year : Option Int) :
    (truthyStr companyId = false → getNextSequence state upn companyId year = none) ∧
    (truthyNum year = false → getNextSequence state upn companyId year = none) ∧
    (∀ cid ids, companyId = some cid → allowedCompanySet state upn = some ids → cid ∉ ids →
      ∀ (companies : List Company) (letters : List Letter),
        getNextSequence { state with companies := companies, letters := letters } upn
            companyId year = none ∧
          getReferencePreview { state with companies := companies, letters := letters } upn
            companyId year = []) := by
  refine ⟨?_, ?_, ?_⟩
  · intro h
    simp [getNextSequence, h]
  · intro h
    simp [getNextSequence, h]
  · intro cid ids hcid hset hnot companies letters
    subst hcid
    have hout : outOfScope { state with companies := companies, letters := letters } upn cid
        = true := by
      rw [outOfScope_caches]
      simp [outOfScope, hset, hnot]
    constructor
    · cases year with
      | none => simp [getNextSequence, truthyNum]
      | some y =>
        unfold getNextSequence
        split
        · rfl
        · simp only [hout, if_true]
    · unfold getReferencePreview
      rw [getCompany_outOfScope _ upn cid hout]

/-- C4, amended: when `createLetter` succeeds for company `C` and year `Y`, the
sequence number it assigns is the value of `getNextSequence C Y` before the call
and is strictly greater than every sequence number cached for `(C, Y)`.  When the
record store returns the fields it was sent, then after the `ADD_LETTER` step
pairwise distinct sequence numbers of `(C, Y)` are still pairwise distinct, and
`getNextSequence C Y` is strictly greater than the number just assigned. -/
theorem createLetter_sequence_fresh (ext : Collaborators) (state : State) (upn : Str)
    (input : CreateLetterInput) (res : CreateLetterResult)
    (hok : (createLetter ext state upn input).result = .ok res) :
    ∃ C, input.companyId = some C ∧
      getNextSequence state upn (some C) (some res.year) = some res.sequenceNumber ∧
      (∀ l ∈ state.letters, l.companyId = C → l.year = res.year →
        l.sequenceNumber < res.sequenceNumber) ∧
      ((∀ fields item, ext.createListItem fields = .ok item → item.fields = fields) →
        (((relevantLetters state C res.year).map Letter.sequenceNumber).Nodup →
          ((relevantLetters (createLetter ext state upn input).state C res.year).map
            Letter.sequenceNumber).Nodup) ∧
        (∃ n, getNextSequence (createLetter ext state upn input).state upn (some C)
            (some res.year) = some n ∧ res.sequenceNumber < n)) := by
  obtain ⟨C, company, y, created, added, hC, hCne, hsc, -, hcompany, -, hyne, hnext, hseq0,
    hry, -, hcreated, ha1, ha2, ha3, hstate⟩ := createLetter_ok_inv ext state upn input res hok
  have hlt : ∀ l ∈ relevantLetters state C y, l.sequenceNumber < res.sequenceNumber := by
    intro l hl
    have hne : relevantLetters state C y ≠ [] := List.ne_nil_of_mem hl
    rw [getNextSequence_inScope state upn C y hCne hyne hsc, if_neg hne] at hnext
    injection hnext with hnext
    have := le_mathMaxZero _ l.sequenceNumber (List.mem_map_of_mem Letter.sequenceNumber hl)
    omega
  rw [hry]
  refine ⟨C, hC, hnext, ?_, ?_⟩
  · intro l hl h1 h2
    exact hlt l ((mem_relevantLetters state C y l).2 ⟨hl, h1, h2⟩)
  intro hecho
  have hf := hecho _ _ hcreated
  have hid := getCompany_id state upn C company hcompany
  obtain ⟨k1, k2, k3⟩ := mapLetter_keys ext.currentYear created C res.sequenceNumber y hCne
    hseq0 hyne (by rw [hf]; simp [createLetterFields, hid]) (by rw [hf]; rfl) (by rw [hf]; rfl)
  rw [k1] at ha1
  rw [k2] at ha2
  rw [k3] at ha3
  have hrel : relevantLetters (createLetter ext state upn input).state C y
      = added :: relevantLetters state C y := by
    rw [hstate]
    simp [relevantLetters, letterReducer, List.filter_cons, ha1, ha3]
  have hscope : outOfScope (createLetter ext state upn input).state upn C = false := by
    rw [hstate]
    exact hsc
  refine ⟨?_, ?_⟩
  · intro hnodup
    rw [hrel, List.map_cons, List.nodup_cons]
    refine ⟨?_, hnodup⟩
    intro hmem
    obtain ⟨l, hl, hls⟩ := List.mem_map.1 hmem
    have := hlt l hl
    omega
  · refine ⟨mathMaxZero ((added :: relevantLetters state C y).map Letter.sequenceNumber) + 1,
      ?_, ?_⟩
    · rw [getNextSequence_inScope _ upn C y hCne hyne hscope, hrel, if_neg (by simp)]
    · have := le_mathMaxZero ((added :: relevantLetters state C y).map Letter.sequenceNumber)
        added.sequenceNumber (by simp)
      omega

/-- C10, amended: when the access-entry list is loaded and non-empty and no entry
matches the current principal, the role is Viewer without any write capability,
and the company scope is unrestricted (`null`): the exposed company list and
letter list are the whole caches, `getCompany` returns the cached company with the
requested id, and no company id is out of scope for `getNextSequence`. -/
theorem unlisted_principal_scope (state : State) (upn : Str)
    (hloaded : state.userAccessLoaded = true) (hne : state.userAccess ≠ [])
    (hno : ∀ entry ∈ state.userAccess,
      toLowerCase (if entry.userPrincipalName ≠ [] then entry.userPrincipalName
        else entry.title) ≠ upn) :
    baseRole state upn = "Viewer".toList ∧ isAdmin state upn = false ∧
      canEditLetters state upn = false ∧ canManageCompanies state upn = false ∧
      allowedCompanySet state upn = none ∧
      scopedCompanies state upn = state.companies ∧ scopedLetters state upn = state.letters ∧
      (∀ cid, outOfScope state upn cid = false) ∧
      (∀ cid, getCompany state upn (some cid)
        = state.companies.find? (fun item => item.id == cid)) := by
  have hcur : currentUserAccess state upn = none := by
    unfold currentUserAccess
    split
    · rfl
    · apply List.find?_eq_none.2
      intro entry hentry
      simpa using hno entry hentry
  have hass : hasAssignments state = true := by
    cases hua : state.userAccess with
    | nil => exact absurd hua hne
    | cons e es => simp [hasAssignments, hua]
  have hbase : baseRole state upn = "Viewer".toList := by
    simp [baseRole, hloaded, hcur, hass]
  have hrole : currentRole state upn = "viewer".toList := currentRole_of_viewer state upn hbase
  have hset : allowedCompanySet state upn = none := by
    simp [allowedCompanySet, hloaded, hcur]
  have hout : ∀ cid, outOfScope state upn cid = false := by
    intro cid
    simp [outOfScope, hset]
  refine ⟨hbase, ?_, ?_, ?_, hset, ?_, ?_, hout, ?_⟩
  · rw [isAdmin, hrole]
    decide
  · rw [canEditLetters, hrole]
    decide
  · rw [canManageCompanies, isAdmin, hrole]
    decide
  · simp [scopedCompanies, hset]
  · simp [scopedLetters, hset]
  · intro cid
    have hfun : (fun item : Company => some item.id == some cid) = (fun item => item.id == cid) := by
      funext item
      simp
    unfold getCompany
    rw [hfun]
    cases state.companies.find? (fun item => item.id == cid) with
    | none => rfl
    | some company => simp [hout]

end

/-! ## Role and scope lemmas -/

section
variable [JsEngine]

theorem currentUserAccess_none (state : State) (upn : Str)
    (hno : ∀ entry ∈ state.userAccess, toLowerCase (entryPrincipalName entry) ≠ upn) :
    currentUserAccess state upn = none := by
  unfold currentUserAccess
  split
  · rfl
  · apply List.find?_eq_none.2
    intro entry hentry
    simpa [entryPrincipalName] using hno entry hentry

/-- The lookup returns the first entry, in list order, whose principal name
equals the principal ignoring case. -/
theorem currentUserAccess_first (state : State) (upn : Str) (before after : List UserAccessEntry)
    (e : UserAccessEntry) (hupn : upn ≠ []) (hlist : state.userAccess = before ++ e :: after)
    (hbefore : ∀ entry ∈ before, toLowerCase (entryPrincipalName entry) ≠ upn)
    (hmatch : toLowerCase (entryPrincipalName e) = upn) :
    currentUserAccess state upn = some e := by
  unfold currentUserAccess
  rw [if_neg hupn, hlist]
  apply find_first_match
  · intro entry hentry
    have := hbefore entry hentry
    simpa [entryPrincipalName] using this
  · simpa [entryPrincipalName] using hmatch

theorem currentUserAccess_some (state : State) (upn : Str) (e : UserAccessEntry)
    (h : currentUserAccess state upn = some e) :
    upn ≠ [] ∧ e ∈ state.userAccess ∧ toLowerCase (entryPrincipalName e) = upn := by
  unfold currentUserAccess at h
  split at h
  · cases h
  next hupn =>
    refine ⟨hupn, List.mem_of_find?_eq_some h, ?_⟩
    have := List.find?_some h
    simpa [entryPrincipalName] using this

theorem isAdmin_iff (state : State) (upn : Str) :
    isAdmin state upn = true ↔ toLowerCase (baseRole state upn) = "admin".toList := by
  unfold isAdmin
  by_cases h : baseRole state upn = []
  · rw [currentRole_of_empty state upn h, h, toLowerCase_nil]
    decide
  · rw [currentRole_of_baseRole state upn _ rfl h]
    simp

theorem canEditLetters_iff (state : State) (upn : Str) :
    canEditLetters state upn = true ↔
      toLowerCase (baseRole state upn) = "admin".toList ∨
        toLowerCase (baseRole state upn) = "editor".toList := by
  unfold canEditLetters
  by_cases h : baseRole state upn = []
  · rw [currentRole_of_empty state upn h, h, toLowerCase_nil]
    decide
  · rw [currentRole_of_baseRole state upn _ rfl h]
    simp

/-- The lookup returns the entry that alone has the principal name `upn` in
lower case, wherever it stands in the list. -/
theorem currentUserAccess_unique (state : State) (upn : Str) (e : UserAccessEntry)
    (hupn : upn ≠ []) (hmem : e ∈ state.userAccess)
    (hmatch : toLowerCase (entryPrincipalName e) = upn)
    (hunique : ∀ entry ∈ state.userAccess,
      toLowerCase (entryPrincipalName entry) = upn → entry = e) :
    currentUserAccess state upn = some e := by
  cases hfind : currentUserAccess state upn with
  | none =>
    unfold currentUserAccess at hfind
    rw [if_neg hupn] at hfind
    have := List.find?_eq_none.1 hfind e hmem
    simp [entryPrincipalName] at hmatch
    simp [hmatch] at this
  | some found =>
    obtain ⟨-, hfmem, hfmatch⟩ := currentUserAccess_some state upn found hfind
    rw [hunique found hfmem hfmatch]

/-- Role and scope depend on the access list only through the entry found. -/
theorem role_scope_of_lookup (s1 s2 : State) (upn : Str) (e : UserAccessEntry)
    (h1 : s1.userAccessLoaded = true) (h2 : s2.userAccessLoaded = true)
    (c1 : currentUserAccess s1 upn = some e) (c2 : currentUserAccess s2 upn = some e) :
    baseRole s1 upn = e.role ∧ baseRole s2 upn = e.role ∧
      allowedCompanySet s1 upn = allowedCompanySet s2 upn := by
  have hb1 : baseRole s1 upn = e.role := by simp [baseRole, h1, c1]
  have hb2 : baseRole s2 upn = e.role := by simp [baseRole, h2, c2]
  refine ⟨hb1, hb2, ?_⟩
  simp only [allowedCompanySet, isAdmin, currentRole, h1, h2, c1, c2, hb1, hb2]

end

/-! ## Claims on roles and scopes -/

section
variable [JsEngine]

/-- C11: for a principal with no matching access entry, while the access-entry
list has not been loaded the role is Viewer and `canEditLetters` and
`canManageCompanies` are both false; once loaded, the role is Admin if the list is
empty and Viewer if the list is non-empty. -/
theorem role_without_entry (state : State) (upn : Str)
    (hno : ∀ entry ∈ state.userAccess, toLowerCase (entryPrincipalName entry) ≠ upn) :
    (state.userAccessLoaded = false →
      baseRole state upn = "Viewer".toList ∧ canEditLetters state upn = false ∧
        canManageCompanies state upn = false) ∧
    (state.userAccessLoaded = true → state.userAccess = [] →
      baseRole state upn = "Admin".toList ∧ isAdmin state upn = true) ∧
    (state.userAccessLoaded = true → state.userAccess ≠ [] →
      baseRole state upn = "Viewer".toList ∧ canEditLetters state upn = false ∧
        canManageCompanies state upn = false) := by
  have hcur := currentUserAccess_none state upn hno
  have viewer : baseRole state upn = "Viewer".toList →
      canEditLetters state upn = false ∧ canManageCompanies state upn = false := by
    intro hb
    have hrole : currentRole state upn = "viewer".toList := currentRole_of_viewer state upn hb
    constructor
    · rw [canEditLetters, hrole]
      decide
    · rw [canManageCompanies, isAdmin, hrole]
      decide
  refine ⟨?_, ?_, ?_⟩
  · intro hl
    have hb : baseRole state upn = "Viewer".toList := by simp [baseRole, hl]
    exact ⟨hb, viewer hb⟩
  · intro hl hempty
    have hb : baseRole state upn = "Admin".toList := by
      simp [baseRole, hl, hcur, hasAssignments, hempty]
    refine ⟨hb, ?_⟩
    rw [isAdmin, currentRole_of_admin state upn hb]
    decide
  · intro hl hne
    have hass : hasAssignments state = true := by
      cases hua : state.userAccess with
      | nil => exact absurd hua hne
      | cons e es => simp [hasAssignments, hua]
    have hb : baseRole state upn = "Viewer".toList := by simp [baseRole, hl, hcur, hass]
    exact ⟨hb, viewer hb⟩

/-- C12: once the access-entry list is loaded, let the signed-in account have
the principal name `P`, with a non-empty lower-case form.  If exactly one entry
has a principal name equal to `P` ignoring letter case, that is, with the same
lower-case form as `P`, the lookup returns that entry and the resolved role is
its role, whatever the other entries are and wherever the entry stands in the
list. -/
theorem role_of_matching_entry (state : State) (account : Account) (e : UserAccessEntry)
    (hloaded : state.userAccessLoaded = true)
    (hsigned : currentUserPrincipalName (some account) ≠ [])
    (hmem : e ∈ state.userAccess)
    (hmatch : toLowerCase (entryPrincipalName e) = toLowerCase (preferredName account))
    (hunique : ∀ entry ∈ state.userAccess,
      toLowerCase (entryPrincipalName entry) = toLowerCase (preferredName account) →
        entry = e) :
    currentUserAccess state (currentUserPrincipalName (some account)) = some e ∧
      baseRole state (currentUserPrincipalName (some account)) = e.role := by
  have hcur := currentUserAccess_unique state (currentUserPrincipalName (some account)) e
    hsigned hmem hmatch hunique
  exact ⟨hcur, by simp [baseRole, hloaded, hcur]⟩

/-- C13, amended: when several access entries have a principal name matching the
current principal, the entry that comes first in scan order determines the
resolved role and the company scope: both are what they would be if that entry
were the only entry of the list. -/
theorem first_match_wins (state : State) (upn : Str) (before after : List UserAccessEntry)
    (e : UserAccessEntry) (hloaded : state.userAccessLoaded = true) (hupn : upn ≠ [])
    (hlist : state.userAccess = before ++ e :: after)
    (hbefore : ∀ entry ∈ before, toLowerCase (entryPrincipalName entry) ≠ upn)
    (hmatch : toLowerCase (entryPrincipalName e) = upn) :
    currentUserAccess state upn = some e ∧ baseRole state upn = e.role ∧
      allowedCompanySet state upn = allowedCompanySet { state with userAccess := [e] } upn := by
  have hcur := currentUserAccess_first state upn before after e hupn hlist hbefore hmatch
  have hcur1 : currentUserAccess { state with userAccess := [e] } upn = some e :=
    currentUserAccess_first { state with userAccess := [e] } upn [] [] e hupn rfl
      (fun _ h => absurd h (List.not_mem_nil _)) hmatch
  obtain ⟨hb, -, hset⟩ := role_scope_of_lookup state { state with userAccess := [e] } upn e
    hloaded hloaded hcur hcur1
  exact ⟨hcur, hb, hset⟩

/-- C14, amended: for every resolved role string `r`, compared ignoring letter
case, `isAdmin` holds exactly when `r` is `admin`, `canEditLetters` holds exactly
when `r` is `admin` or `editor`, and `canManageCompanies` equals `isAdmin`;
hence `canManageCompanies` implies `canEditLetters`, and every other role
value (Viewer, empty, unknown) yields no write capability. -/
theorem capabilities_of_role (state : State) (upn r : Str) (hr : baseRole state upn = r) :
    (isAdmin state upn = true ↔ toLowerCase r = "admin".toList) ∧
    (canEditLetters state upn = true ↔
      toLowerCase r = "admin".toList ∨ toLowerCase r = "editor".toList) ∧
    canManageCompanies state upn = isAdmin state upn ∧
    (canManageCompanies state upn = true → canEditLetters state upn = true) ∧
    (toLowerCase r ≠ "admin".toList → toLowerCase r ≠ "editor".toList →
      isAdmin state upn = false ∧ canEditLetters state upn = false ∧
        canManageCompanies state upn = false) := by
  subst hr
  have h1 := isAdmin_iff state upn
  have h2 := canEditLetters_iff state upn
  refine ⟨h1, h2, rfl, ?_, ?_⟩
  · intro h
    exact h2.2 (Or.inl (h1.1 h))
  · intro ha he
    have hadmin : isAdmin state upn = false := by
      cases hx : isAdmin state upn with
      | false => rfl
      | true => exact absurd (h1.1 hx) ha
    have hedit : canEditLetters state upn = false := by
      cases hx : canEditLetters state upn with
      | false => rfl
      | true =>
        rcases h2.1 hx with h | h
        · exact absurd h ha
        · exact absurd h he
    exact ⟨hadmin, hedit, hadmin⟩

/-- C15: for a principal with a matched entry (the access list being loaded): if
the role is Admin, ignoring letter case, the scope is unrestricted (`null`)
whatever the company-id list of the entry; otherwise, when some company id of the
entry is not blank, the scope is exactly the set of the trimmed, non-blank company
ids of the entry, and when the list is empty or all blank the scope is
unrestricted (`null`). -/
theorem scope_of_matched_entry (state : State) (upn : Str) (e : UserAccessEntry)
    (hloaded : state.userAccessLoaded = true) (hcur : currentUserAccess state upn = some e) :
    (toLowerCase e.role = "admin".toList → allowedCompanySet state upn = none) ∧
    (toLowerCase e.role ≠ "admin".toList → (∃ raw ∈ e.companyIds, trim raw ≠ []) →
      ∃ A, allowedCompanySet state upn = some A ∧
        ∀ id, id ∈ A ↔ id ≠ [] ∧ ∃ raw ∈ e.companyIds, trim raw = id) ∧
    (toLowerCase e.role ≠ "admin".toList → (∀ raw ∈ e.companyIds, trim raw = []) →
      allowedCompanySet state upn = none) := by
  have hb : baseRole state upn = e.role := by simp [baseRole, hloaded, hcur]
  have hadm := isAdmin_iff state upn
  rw [hb] at hadm
  refine ⟨?_, ?_, ?_⟩
  · intro h
    simp [allowedCompanySet, hloaded, hcur, hadm.2 h]
  · intro h hsome
    have hna : isAdmin state upn = false := by
      cases hx : isAdmin state upn with
      | false => rfl
      | true => exact absurd (hadm.1 hx) h
    obtain ⟨raw, hraw, hne⟩ := hsome
    have hmem : trim raw ∈ (e.companyIds.map trim).filter (fun id => id != []) := by
      simp only [List.mem_filter, List.mem_map]
      exact ⟨⟨raw, hraw, rfl⟩, by simpa using hne⟩
    have hnil : (e.companyIds.map trim).filter (fun id => id != []) ≠ [] :=
      List.ne_nil_of_mem hmem
    refine ⟨(e.companyIds.map trim).filter (fun id => id != []), ?_, ?_⟩
    · simp [allowedCompanySet, hloaded, hcur, hna, hnil]
    · intro id
      simp only [List.mem_filter, List.mem_map]
      constructor
      · rintro ⟨⟨raw2, h2, rfl⟩, h3⟩
        exact ⟨by simpa using h3, raw2, h2, rfl⟩
      · rintro ⟨h3, raw2, h2, rfl⟩
        exact ⟨⟨raw2, h2, rfl⟩, by simpa using h3⟩
  · intro h hall
    have hna : isAdmin state upn = false := by
      cases hx : isAdmin state upn with
      | false => rfl
      | true => exact absurd (hadm.1 hx) h
    have hnil : (e.companyIds.map trim).filter (fun id => id != []) = [] := by
      apply List.filter_eq_nil_iff.2
      intro id hid
      obtain ⟨raw, hraw, rfl⟩ := List.mem_map.1 hid
      simp [hall raw hraw]
    simp [allowedCompanySet, hloaded, hcur, hna, hnil]

/-- C16: for every restricted scope `A` and every cache, the exposed company list
is the cached companies whose id is in `A` and the exposed letter list is the
cached letters whose `companyId` is in `A`, both in cached order, so no exposed
company or letter lies outside `A`; with an unrestricted scope both lists equal
the caches. -/
theorem scope_filtering (state : State) (upn : Str) :
    (∀ A, allowedCompanySet state upn = some A →
      scopedCompanies state upn = state.companies.filter (fun c => decide (c.id ∈ A)) ∧
      scopedLetters state upn = state.letters.filter (fun l => decide (l.companyId ∈ A)) ∧
      (∀ c ∈ scopedCompanies state upn, c.id ∈ A) ∧
      (∀ l ∈ scopedLetters state upn, l.companyId ∈ A)) ∧
    (allowedCompanySet state upn = none →
      scopedCompanies state upn = state.companies ∧ scopedLetters state upn = state.letters) := by
  constructor
  · intro A hA
    have hc : scopedCompanies state upn = state.companies.filter (fun c => decide (c.id ∈ A)) := by
      simp only [scopedCompanies, hA]
      congr 1
      funext c
      simp
    have hl : scopedLetters state upn
        = state.letters.filter (fun l => decide (l.companyId ∈ A)) := by
      simp only [scopedLetters, hA]
      congr 1
      funext l
      simp
    refine ⟨hc, hl, ?_, ?_⟩
    · intro c hmem
      rw [hc] at hmem
      simpa using (List.mem_filter.1 hmem).2
    · intro l hmem
      rw [hl] at hmem
      simpa using (List.mem_filter.1 hmem).2
  · intro hnone
    simp [scopedCompanies, scopedLetters, hnone]

end

/-! ## Lemmas on the operations -/

section
variable [JsEngine]

theorem failsFast_addCompany (ext : Collaborators) (state : State) (upn : Str)
    (input : AddCompanyInput) : FailsFast ext state (addCompany ext state upn input) := by
  unfold addCompany
  split
  · exact failsFast_local ext state _ (by decide)
  split
  · exact failsFast_local ext state _ (by decide)
  simp only
  split
  next message hcall =>
    exact failsFast_store ext state _ _ message (by simp)
      (Or.inr (Or.inr (Or.inr (Or.inl ⟨_, hcall⟩))))
  next item hcall => exact failsFast_ok ext state _ _ _

theorem failsFast_updateCompany (ext : Collaborators) (state : State) (upn : Str)
    (companyId : Option Str) (updates : CompanyUpdates) :
    FailsFast ext state (updateCompany ext state upn companyId updates) := by
  unfold updateCompany
  split
  · exact failsFast_local ext state _ (by decide)
  split
  · exact failsFast_local ext state _ (by decide)
  split
  · exact failsFast_local ext state _ (by decide)
  simp only
  split
  · exact failsFast_ok ext state _ _ _
  split
  next message hcall =>
    exact failsFast_store ext state _ _ message (by simp)
      (Or.inr (Or.inr (Or.inr (Or.inr (Or.inl ⟨_, _, hcall⟩)))))
  next hcall => exact failsFast_ok ext state _ _ _

theorem failsFast_deleteCompany (ext : Collaborators) (state : State) (upn : Str)
    (companyId : Option Str) : FailsFast ext state (deleteCompany ext state upn companyId) := by
  unfold deleteCompany
  split
  · exact failsFast_ok ext state _ _ _
  split
  · exact failsFast_local ext state _ (by decide)
  simp only
  split
  next message hcall =>
    exact failsFast_store ext state _ _ message (by simp)
      (Or.inr (Or.inr (Or.inr (Or.inr (Or.inr (Or.inl ⟨_, hcall⟩))))))
  next hcall => exact failsFast_ok ext state _ _ _

theorem failsFast_createLetter (ext : Collaborators) (state : State) (upn : Str)
    (input : CreateLetterInput) : FailsFast ext state (createLetter ext state upn input) := by
  unfold createLetter
  split
  · exact failsFast_local ext state _ (by decide)
  split
  · exact failsFast_local ext state _ (by decide)
  split
  · exact failsFast_local ext state _ (by decide)
  split
  · exact failsFast_local ext state _ (by decide)
  split
  · exact failsFast_local ext state _ (by decide)
  split
  · exact failsFast_local ext state _ (by decide)
  simp only
  split
  next message hcall =>
    exact failsFast_store ext state _ _ message (by simp) (Or.inl ⟨_, hcall⟩)
  next created hcall =>
    split
    · split
      next message hup =>
        exact failsFast_store ext state _ _ message (by simp) (Or.inr (Or.inl ⟨_, _, _, hup⟩))
      next uploaded hup => exact failsFast_ok ext state _ _ _
    · exact failsFast_ok ext state _ _ _

theorem failsFast_updateLetter (ext : Collaborators) (state : State) (upn : Str)
    (input : UpdateLetterInput) : FailsFast ext state (updateLetter ext state upn input) := by
  unfold updateLetter
  split
  · exact failsFast_local ext state _ (by decide)
  split
  · exact failsFast_local ext state _ (by decide)
  split
  · exact failsFast_local ext state _ (by decide)
  next existing hfind =>
  split
  · exact failsFast_local ext state _ (by decide)
  simp only
  split
  next message hcall =>
    by_cases hf : updateLetterFields ext.nowIso existing input.updates ≠ {}
    · rw [if_pos hf] at hcall
      rw [if_pos hf]
      exact failsFast_store ext state _ _ message (by simp)
        (Or.inr (Or.inr (Or.inl ⟨_, _, hcall⟩)))
    · rw [if_neg hf] at hcall
      cases hcall
  next hcall =>
    split
    · split
      next message hup =>
        exact failsFast_store ext state _ _ message (by simp) (Or.inr (Or.inl ⟨_, _, _, hup⟩))
      next uploaded hup => exact failsFast_ok ext state _ _ _
    · exact failsFast_ok ext state _ _ _

theorem failsFast_addUserAccessEntry (ext : Collaborators) (state : State) (upn : Str)
    (input : UserAccessInput) : FailsFast ext state (addUserAccessEntry ext state upn input) := by
  unfold addUserAccessEntry
  split
  · exact failsFast_local ext state _ (by decide)
  split
  · exact failsFast_local ext state _ (by decide)
  simp only
  split
  next message hcall =>
    exact failsFast_store ext state _ _ message (by simp)
      (Or.inr (Or.inr (Or.inr (Or.inr (Or.inr (Or.inr (Or.inl ⟨_, hcall⟩)))))))
  next created hcall => exact failsFast_ok ext state _ _ _

theorem failsFast_updateUserAccessEntry (ext : Collaborators) (state : State) (upn : Str)
    (itemId : Option Str) (input : UserAccessInput) :
    FailsFast ext state (updateUserAccessEntry ext state upn itemId input) := by
  unfold updateUserAccessEntry
  split
  · exact failsFast_local ext state _ (by decide)
  split
  · exact failsFast_local ext state _ (by decide)
  simp only
  split
  next message hcall =>
    exact failsFast_store ext state _ _ message (by simp)
      (Or.inr (Or.inr (Or.inr (Or.inr (Or.inr (Or.inr (Or.inr (Or.inl ⟨_, _, hcall⟩))))))))
  next hcall => exact failsFast_ok ext state _ _ _

theorem failsFast_deleteUserAccessEntry (ext : Collaborators) (state : State) (upn : Str)
    (itemId : Option Str) :
    FailsFast ext state (deleteUserAccessEntry ext state upn itemId) := by
  unfold deleteUserAccessEntry
  split
  · exact failsFast_ok ext state _ _ _
  split
  · exact failsFast_local ext state _ (by decide)
  split
  next message hcall =>
    exact failsFast_store ext state _ _ message (by simp)
      (Or.inr (Or.inr (Or.inr (Or.inr (Or.inr (Or.inr (Or.inr (Or.inr ⟨_, hcall⟩))))))))
  next hcall => exact failsFast_ok ext state _ _ _

/-- A role string `Viewer` gives none of the three capabilities. -/
theorem viewer_capabilities (state : State) (upn : Str)
    (h : baseRole state upn = "Viewer".toList) :
    isAdmin state upn = false ∧ canEditLetters state upn = false ∧
      canManageCompanies state upn = false := by
  have hrole : currentRole state upn = "viewer".toList := currentRole_of_viewer state upn h
  refine ⟨?_, ?_, ?_⟩
  · rw [isAdmin, hrole]
    decide
  · rw [canEditLetters, hrole]
    decide
  · rw [canManageCompanies, isAdmin, hrole]
    decide

end

/-! ## Claims on the guarded operations -/

section
variable [JsEngine]

/-- C17, amended: for a principal whose resolved role is Viewer, each of
`addCompany`, `createLetter`, `updateCompany`, `deleteCompany` and
`addUserAccessEntry` fails with its permission-denied error for every argument
that passes the required-argument check of the operation (name and abbreviation;
company id; user principal name and role); when that check fails the operation
ends with its validation error instead, and `deleteCompany` returns without
effect.  In every case no collaborator is called and the state is unchanged. -/
theorem viewer_mutations_denied (ext : Collaborators) (state : State) (upn : Str)
    (hrole : baseRole state upn = "Viewer".toList) :
    (∀ input : AddCompanyInput,
      addCompany ext state upn input
        = ⟨state, [], .error
            (if truthyStr input.name && truthyStr input.abbreviation
              then "You do not have permission to add companies."
              else "Company name and abbreviation are required.")⟩) ∧
    (∀ input : CreateLetterInput,
      createLetter ext state upn input
        = ⟨state, [], .error
            (if truthyStr input.companyId then "You do not have permission to create letters."
              else "Please choose a company.")⟩) ∧
    (∀ (companyId : Option Str) (updates : CompanyUpdates),
      updateCompany ext state upn companyId updates
        = ⟨state, [], .error
            (if truthyStr companyId then "You do not have permission to edit companies."
              else "Company ID is required.")⟩) ∧
    (∀ companyId : Option Str,
      deleteCompany ext state upn companyId
        = ⟨state, [],
            if truthyStr companyId then .error "You do not have permission to delete companies."
            else .ok ()⟩) ∧
    (∀ input : UserAccessInput,
      addUserAccessEntry ext state upn input
        = ⟨state, [], .error
            (if truthyStr input.userPrincipalName && truthyStr input.role
              then "Only admins can manage user access entries."
              else "User principal name and role are required.")⟩) := by
  obtain ⟨hadmin, hedit, hmanage⟩ := viewer_capabilities state upn hrole
  refine ⟨?_, ?_, ?_, ?_, ?_⟩
  · intro input
    unfold addCompany
    cases h1 : truthyStr input.name <;> cases h2 : truthyStr input.abbreviation <;>
      simp [hmanage]
  · intro input
    unfold createLetter
    cases h1 : truthyStr input.companyId <;> simp [hedit]
  · intro companyId updates
    unfold updateCompany
    cases h1 : truthyStr companyId <;> simp [hmanage]
  · intro companyId
    unfold deleteCompany
    cases h1 : truthyStr companyId <;> simp [hmanage]
  · intro input
    unfold addUserAccessEntry
    cases h1 : truthyStr input.userPrincipalName <;> cases h2 : truthyStr input.role <;>
      simp [hadmin]

/-- C18: each of `addCompany`, `updateCompany`, `deleteCompany`, `createLetter`,
`updateLetter`, `addUserAccessEntry`, `updateUserAccessEntry` and
`deleteUserAccessEntry` fails fast: when it ends with an error, either the error
is a permission, validation, not-found or allocation error of its own checks, no
record-store or blob-store call has been made and the state is unchanged, or a
collaborator was called and threw the error. -/
theorem fail_fast (ext : Collaborators) (state : State) (upn : Str) :
    (∀ input, FailsFast ext state (addCompany ext state upn input)) ∧
    (∀ companyId updates, FailsFast ext state (updateCompany ext state upn companyId updates)) ∧
    (∀ companyId, FailsFast ext state (deleteCompany ext state upn companyId)) ∧
    (∀ input, FailsFast ext state (createLetter ext state upn input)) ∧
    (∀ input, FailsFast ext state (updateLetter ext state upn input)) ∧
    (∀ input, FailsFast ext state (addUserAccessEntry ext state upn input)) ∧
    (∀ itemId input, FailsFast ext state (updateUserAccessEntry ext state upn itemId input)) ∧
    (∀ itemId, FailsFast ext state (deleteUserAccessEntry ext state upn itemId)) :=
  ⟨failsFast_addCompany ext state upn, failsFast_updateCompany ext state upn,
    failsFast_deleteCompany ext state upn, failsFast_createLetter ext state upn,
    failsFast_updateLetter ext state upn, failsFast_addUserAccessEntry ext state upn,
    failsFast_updateUserAccessEntry ext state upn,
    failsFast_deleteUserAccessEntry ext state upn⟩

/-- C19: for every principal with edit rights whose scope is restricted to a set
`A` of company ids (so the principal is not an admin), `createLetter` for a
company id that is not in `A` fails with the permission-denied error
`You do not have access to this company.`, makes no collaborator call and leaves
the state unchanged, whatever the company cache holds. -/
theorem createLetter_outOfScope (ext : Collaborators) (state : State) (upn : Str)
    (input : CreateLetterInput) (A : List Str) (cid : Str)
    (hA : allowedCompanySet state upn = some A) (hedit : canEditLetters state upn = true)
    (hcid : input.companyId = some cid) (hne : cid ≠ []) (hnot : cid ∉ A) :
    isAdmin state upn = false ∧
      createLetter ext state upn input
        = ⟨state, [], .error "You do not have access to this company."⟩ ∧
      "You do not have access to this company." ∈ permissionMessages := by
  have hout : outOfScope state upn cid = true := by simp [outOfScope, hA, hnot]
  refine ⟨?_, ?_, by decide⟩
  · cases hx : isAdmin state upn with
    | false => rfl
    | true =>
      unfold allowedCompanySet at hA
      split at hA
      · cases hA
      · split at hA
        · cases hA
        · simp [hx] at hA
  · unfold createLetter
    simp [hcid, truthyStr_some cid hne, hedit, hout]

/-- C20: `updateLetter` decides company access from the cached letter.  For every
restricted scope `A` and every cached letter found under the given id: if the
`companyId` of the cached letter is not in `A`, the call fails with a
permission-denied error, without a collaborator call or a state change, for every
payload; if it is in `A` and the principal can edit, then for every payload the
call either succeeds or ends with the error of a remote call it made. -/
theorem updateLetter_scope (ext : Collaborators) (state : State) (upn : Str) (A : List Str)
    (id : Str) (existing : Letter) (hid : id ≠ [])
    (hfind : state.letters.find? (fun letter => letter.id == id) = some existing)
    (hA : allowedCompanySet state upn = some A) :
    (existing.companyId ∉ A →
      ∀ (updates : LetterUpdates) (toAdd : List UploadFile) (toRemove : List Attachment),
        ∃ m, m ∈ permissionMessages ∧
          updateLetter ext state upn
              { letterId := some id, updates := updates, attachmentsToAdd := toAdd,
                attachmentsToRemove := toRemove }
            = ⟨state, [], .error m⟩) ∧
    (existing.companyId ∈ A → canEditLetters state upn = true →
      ∀ (updates : LetterUpdates) (toAdd : List UploadFile) (toRemove : List Attachment),
        (∃ letter,
          (updateLetter ext state upn
              { letterId := some id, updates := updates, attachmentsToAdd := toAdd,
                attachmentsToRemove := toRemove }).result = .ok letter) ∨
        (∃ m,
          (updateLetter ext state upn
              { letterId := some id, updates := updates, attachmentsToAdd := toAdd,
                attachmentsToRemove := toRemove }).result = .error m ∧
          (updateLetter ext state upn
              { letterId := some id, updates := updates, attachmentsToAdd := toAdd,
                attachmentsToRemove := toRemove }).calls ≠ [] ∧
          StoreFailed ext m)) := by
  have hfun : (fun letter : Letter => some letter.id == some id)
      = (fun letter => letter.id == id) := by
    funext letter
    simp
  have htruthy := truthyStr_some id hid
  constructor
  · intro hnot updates toAdd toRemove
    have hout : outOfScope state upn existing.companyId = true := by
      simp [outOfScope, hA, hnot]
    cases hedit : canEditLetters state upn with
    | false =>
      refine ⟨"You do not have permission to edit letters.", by decide, ?_⟩
      unfold updateLetter
      simp [htruthy, hedit]
    | true =>
      refine ⟨"You do not have access to this letter.", by decide, ?_⟩
      unfold updateLetter
      simp [htruthy, hedit, hfun, hfind, hout]
  · intro hin hedit updates toAdd toRemove
    have hout : outOfScope state upn existing.companyId = false := by
      simp [outOfScope, hA, hin]
    have hff := failsFast_updateLetter ext state upn
      { letterId := some id, updates := updates, attachmentsToAdd := toAdd,
        attachmentsToRemove := toRemove }
    cases hres : (updateLetter ext state upn
        { letterId := some id, updates := updates, attachmentsToAdd := toAdd,
          attachmentsToRemove := toRemove }).result with
    | ok letter => exact Or.inl ⟨letter, rfl⟩
    | error m =>
      right
      refine ⟨m, rfl, ?_⟩
      rcases hff m hres with ⟨-, hcalls, -⟩ | ⟨hcalls, hstore⟩
      · exfalso
        revert hres hcalls
        unfold updateLetter
        simp only [htruthy, hedit, hfun, hfind, hout, Bool.not_true, Bool.false_eq_true,
          if_false]
        split
        next message heq =>
          split
          · intro _ hc
            simp at hc
          next hf =>
            rw [if_neg hf] at heq
            cases heq
        next heq =>
          split
          · split
            · intro _ hc
              simp at hc
            · intro hr _
              cases hr
          · intro hr _
            cases hr
      · exact ⟨hcalls, hstore⟩

end

/-! ## Lemmas on `sanitizeSegment` -/

theorem replaceWhitespaceRunsAux_mem (inRun : Bool) (s : Str) :
    ∀ c ∈ replaceWhitespaceRunsAux inRun s, isTrimChar c = false ∧ (c = '-' ∨ c ∈ s) := by
  induction s generalizing inRun with
  | nil =>
    intro c hc
    simp [replaceWhitespaceRunsAux] at hc
  | cons a as ih =>
    intro c hc
    unfold replaceWhitespaceRunsAux at hc
    split at hc
    · split at hc
      · obtain ⟨h1, h2⟩ := ih true c hc
        exact ⟨h1, h2.imp id (List.mem_cons_of_mem a)⟩
      · rcases List.mem_cons.mp hc with h | h
        · subst h
          exact ⟨by decide, Or.inl rfl⟩
        · obtain ⟨h1, h2⟩ := ih true c h
          exact ⟨h1, h2.imp id (List.mem_cons_of_mem a)⟩
    next hws =>
      rcases List.mem_cons.mp hc with h | h
      · subst h
        exact ⟨by simpa using hws, Or.inr (List.mem_cons_self _ _)⟩
      · obtain ⟨h1, h2⟩ := ih false c h
        exact ⟨h1, h2.imp id (List.mem_cons_of_mem a)⟩

theorem replaceWhitespaceRunsAux_clean (inRun : Bool) (s : Str)
    (h : ∀ c ∈ s, isTrimChar c = false) : replaceWhitespaceRunsAux inRun s = s := by
  induction s generalizing inRun with
  | nil => rfl
  | cons a as ih =>
    unfold replaceWhitespaceRunsAux
    rw [if_neg (by simp [h a (List.mem_cons_self a as)])]
    rw [ih false (fun c hc => h c (List.mem_cons_of_mem a hc))]

theorem dropWhile_clean (s : Str) (h : ∀ c ∈ s, isTrimChar c = false) :
    s.dropWhile isTrimChar = s := by
  cases s with
  | nil => rfl
  | cons a as => simp [List.dropWhile_cons, h a (List.mem_cons_self a as)]

theorem trim_clean (s : Str) (h : ∀ c ∈ s, isTrimChar c = false) : trim s = s := by
  unfold trim
  rw [dropWhile_clean s h, dropWhile_clean s.reverse (fun c hc => h c (List.mem_reverse.1 hc)),
    List.reverse_reverse]

/-- The non-empty result of the three steps of `sanitizeSegment` holds no deleted
character and no white space. -/
theorem cleaned_mem (s : Str) :
    ∀ c ∈ replaceWhitespaceRuns ((trim s).filter (fun ch => !isForbiddenChar ch)),
      isForbiddenChar c = false ∧ isTrimChar c = false := by
  intro c hc
  obtain ⟨h1, h2⟩ := replaceWhitespaceRunsAux_mem false _ c hc
  refine ⟨?_, h1⟩
  rcases h2 with h | h
  · subst h
    decide
  · simpa using (List.mem_filter.1 h).2

theorem sanitizeSegment_mem (value : Option Str) (fallback : Str)
    (hclean : ∀ c ∈ fallback, isForbiddenChar c = false ∧ isTrimChar c = false) :
    ∀ c ∈ sanitizeSegment value fallback, isForbiddenChar c = false ∧ isTrimChar c = false := by
  unfold sanitizeSegment
  split
  · simp only
    split
    · exact cleaned_mem _
    · exact hclean
  · exact hclean

theorem sanitizeSegment_ne_nil (value : Option Str) (fallback : Str) (hne : fallback ≠ []) :
    sanitizeSegment value fallback ≠ [] := by
  unfold sanitizeSegment
  split
  · simp only
    split
    next h => exact h
    · exact hne
  · exact hne

theorem sanitizeSegment_of_clean (s fallback : Str) (hne : s ≠ [])
    (hclean : ∀ c ∈ s, isForbiddenChar c = false ∧ isTrimChar c = false) :
    sanitizeSegment (some s) fallback = s := by
  have hws : ∀ c ∈ s, isTrimChar c = false := fun c hc => (hclean c hc).2
  have hfilter : s.filter (fun ch => !isForbiddenChar ch) = s := by
    apply List.filter_eq_self.2
    intro c hc
    simp [(hclean c hc).1]
  have hcleaned : replaceWhitespaceRuns ((trim s).filter (fun ch => !isForbiddenChar ch)) = s := by
    rw [trim_clean s hws, hfilter, replaceWhitespaceRuns, replaceWhitespaceRunsAux_clean false s hws]
  cases s with
  | nil => exact absurd rfl hne
  | cons a as =>
    unfold sanitizeSegment
    simp only [hcleaned]
    rw [if_pos hne]

/-! ## Claim on `sanitizeSegment` -/

/-- C26: for every input and every non-empty fallback that holds none of the
characters `sanitizeSegment` deletes and no white space, `sanitizeSegment` returns
a non-empty string without any of the characters less-than, greater-than, colon,
double quote, slash, backslash, vertical bar, question mark, asterisk, CR, LF and
without white space, and sanitizing its output returns the output unchanged; so
the company segment of the folder path never contains a slash or a backslash. -/
theorem sanitizeSegment_safe (value : Option Str) (fallback : Str) (hne : fallback ≠ [])
    (hclean : ∀ c ∈ fallback, isForbiddenChar c = false ∧ isTrimChar c = false) :
    sanitizeSegment value fallback ≠ [] ∧
    (∀ c ∈ sanitizeSegment value fallback,
      c.toNat ∉ [60, 62, 58, 34, 47, 92, 124, 63, 42, 13, 10] ∧ isTrimChar c = false) ∧
    sanitizeSegment (some (sanitizeSegment value fallback)) fallback
      = sanitizeSegment value fallback ∧
    (∀ (abbreviation name : Option Str), ∀ c ∈ companyFolderSegment abbreviation name,
      c ≠ '/' ∧ c ≠ Char.ofNat 92) := by
  have hmem := sanitizeSegment_mem value fallback hclean
  have hnil := sanitizeSegment_ne_nil value fallback hne
  refine ⟨hnil, ?_, sanitizeSegment_of_clean _ fallback hnil hmem, ?_⟩
  · intro c hc
    obtain ⟨h1, h2⟩ := hmem c hc
    exact ⟨by simpa [isForbiddenChar] using h1, h2⟩
  · intro abbreviation name c hc
    have h := (sanitizeSegment_mem (orStr abbreviation name) "Company".toList (by decide) c hc).1
    constructor
    · rintro rfl
      exact absurd h (by decide)
    · rintro rfl
      exact absurd h (by decide)

theorem sanitizeSegment_safe_witness :
    sanitizeSegment (some "  a  b/c:d ".toList) "General".toList = "a-bcd".toList ∧
      sanitizeSegment (some (sanitizeSegment (some "  a  b/c:d ".toList) "General".toList))
          "General".toList
        = sanitizeSegment (some "  a  b/c:d ".toList) "General".toList :=
  ⟨by decide,
    (sanitizeSegment_safe (some "  a  b/c:d ".toList) "General".toList (by decide)
      (by decide)).2.2.1⟩

/-! ## Lemmas on `updateLetter` -/

section
variable [JsEngine]

/-- What a successful `updateLetter` did: the cached letter it found, the letter
it built from it, the state it left and the calls it made. -/
theorem updateLetter_ok_inv (ext : Collaborators) (state : State) (upn : Str)
    (input : UpdateLetterInput) (letter : Letter)
    (hok : (updateLetter ext state upn input).result = .ok letter) :
    ∃ id existing attachments,
      input.letterId = some id ∧
      state.letters.find? (fun l => l.id == id) = some existing ∧
      letter = updatedLetter existing input.updates attachments ∧
      (input.attachmentsToAdd = [] →
        attachments = remainingAttachments existing input.attachmentsToRemove) ∧
      (updateLetter ext state upn input).state = letterReducer state (.updateLetter id letter) ∧
      (updateLetter ext state upn input).calls
        = (if updateLetterFields ext.nowIso existing input.updates ≠ {}
            then [.updateLetterItem id (updateLetterFields ext.nowIso existing input.updates)]
            else []) ++ deleteLetterFilesCalls input.attachmentsToRemove ++
          (if input.attachmentsToAdd.length > 0
            then [.uploadLetterFiles
              { abbreviation := existing.companyAbbreviation, name := existing.companyName }
              existing.referenceNumber input.attachmentsToAdd]
            else []) := by
  generalize hout : updateLetter ext state upn input = out at hok ⊢
  unfold updateLetter at hout
  split at hout
  · subst hout
    cases hok
  next hid =>
  obtain ⟨id, hidv, -⟩ := truthyStr_inv input.letterId (by simpa using hid)
  split at hout
  · subst hout
    cases hok
  split at hout
  · subst hout
    cases hok
  next existing hfind =>
  have hfind2 : state.letters.find? (fun l => l.id == id) = some existing := by
    rw [hidv] at hfind
    have hfun : (fun letter : Letter => some letter.id == some id)
        = (fun l => l.id == id) := by
      funext l
      simp
    rw [hfun] at hfind
    exact hfind
  split at hout
  · subst hout
    cases hok
  simp only at hout
  split at hout
  · subst hout
    cases hok
  split at hout
  next hadd =>
    split at hout
    · subst hout
      cases hok
    next uploaded hup =>
    subst hout
    simp only at hok
    injection hok with hok
    refine ⟨id, existing, _, hidv, hfind2, hok.symm, ?_, ?_, ?_⟩
    · intro hnil
      rw [hnil] at hadd
      simp at hadd
    · simp only [hidv, Option.getD_some, hok]
    · simp only [hidv, Option.getD_some, hadd, if_true]
  next hadd =>
    subst hout
    simp only at hok
    injection hok with hok
    refine ⟨id, existing, _, hidv, hfind2, hok.symm, fun _ => rfl, ?_, ?_⟩
    · simp only [hidv, Option.getD_some, hok]
    · simp only [hidv, Option.getD_some, hadd, if_false, List.append_nil]

end

/-! ## Claims on `updateLetter` -/

section
variable [JsEngine]

/-- C21: for every cached letter and every payload that `updateLetter` accepts,
the letter it returns and caches has the same id, sequence number, company id and
reference number as the cached letter it was built from, whatever the payload
holds; the cache afterwards is the old cache with that letter put in place of
the letters of that id; and no `SequenceNumber`, `CompanyItemId` or
`ReferenceNumber` is among the fields sent to the record store. -/
theorem updateLetter_identity_frame (ext : Collaborators) (state : State) (upn : Str)
    (input : UpdateLetterInput) (letter : Letter)
    (hok : (updateLetter ext state upn input).result = .ok letter) :
    ∃ id existing,
      input.letterId = some id ∧
      state.letters.find? (fun l => l.id == id) = some existing ∧
      letter.id = existing.id ∧ letter.sequenceNumber = existing.sequenceNumber ∧
      letter.companyId = existing.companyId ∧
      letter.referenceNumber = existing.referenceNumber ∧
      (updateLetter ext state upn input).state.letters
        = state.letters.map (fun l => if l.id = id then letter else l) ∧
      (∀ call ∈ (updateLetter ext state upn input).calls,
        (∀ cid fields, call = .updateLetterItem cid fields →
          fields.SequenceNumber = none ∧ fields.CompanyItemId = none ∧
            fields.ReferenceNumber = none) ∧
        (∀ fields, call ≠ .createLetterItem fields)) := by
  obtain ⟨id, existing, attachments, hid, hfind, hletter, -, hstate, hcalls⟩ :=
    updateLetter_ok_inv ext state upn input letter hok
  refine ⟨id, existing, hid, hfind, ?_, ?_, ?_, ?_, ?_, ?_⟩
  · rw [hletter]
    rfl
  · rw [hletter]
    rfl
  · rw [hletter]
    rfl
  · rw [hletter]
    rfl
  · rw [hstate]
    rfl
  · intro call hcall
    rw [hcalls] at hcall
    obtain ⟨h1, h2⟩ := updateLetter_calls_inv ext existing id input call hcall
    refine ⟨?_, h2⟩
    intro cid fields heq
    rw [h1 cid fields heq]
    exact ⟨rfl, rfl, rfl⟩

/-- C22, amended: for every cached letter and every payload that `updateLetter`
accepts, the year of the resulting letter is the year of the payload when the
payload has one and the year of the cached letter otherwise, and the `Year` field
sent to the record store is exactly the year of the payload: without a year in the
payload the year is unchanged and no `Year` is sent. -/
theorem updateLetter_year (ext : Collaborators) (state : State) (upn : Str)
    (input : UpdateLetterInput) (letter : Letter)
    (hok : (updateLetter ext state upn input).result = .ok letter) :
    ∃ id existing,
      input.letterId = some id ∧
      state.letters.find? (fun l => l.id == id) = some existing ∧
      letter.year = input.updates.year.getD existing.year ∧
      (input.updates.year = none → letter.year = existing.year) ∧
      (∀ call ∈ (updateLetter ext state upn input).calls, ∀ cid fields,
        call = .updateLetterItem cid fields → fields.Year = input.updates.year) := by
  obtain ⟨id, existing, attachments, hid, hfind, hletter, -, -, hcalls⟩ :=
    updateLetter_ok_inv ext state upn input letter hok
  refine ⟨id, existing, hid, hfind, ?_, ?_, ?_⟩
  · rw [hletter]
    rfl
  · intro hnone
    rw [hletter]
    simp [updatedLetter, hnone]
  · intro call hcall cid fields heq
    rw [hcalls] at hcall
    rw [(updateLetter_calls_inv ext existing id input call hcall).1 cid fields heq]
    rfl

/-- C23, amended: for every cached letter and payload that `updateLetter`
accepts, each of subject, recipient, preparer, notes, letter date and year that is
absent from the payload keeps its value in the letter returned and cached and is
not sent to the record store, and id, reference number, company and sequence
number are never touched.  With an empty payload and no attachments to add or
remove no call is made, and the returned letter is the cached letter with its
attachments marked as loaded (the empty list when they had not been loaded) and
`hasAttachments` recomputed; it equals the cached letter when the attachments of
that letter were loaded and its `hasAttachments` agreed with them. -/
theorem updateLetter_partial (ext : Collaborators) (state : State) (upn : Str)
    (input : UpdateLetterInput) (letter : Letter)
    (hok : (updateLetter ext state upn input).result = .ok letter) :
    ∃ id existing,
      input.letterId = some id ∧
      state.letters.find? (fun l => l.id == id) = some existing ∧
      (input.updates.subject = none → letter.subject = existing.subject) ∧
      (input.updates.recipientCompany = none →
        letter.recipientCompany = existing.recipientCompany) ∧
      (input.updates.preparedBy = none → letter.preparedBy = existing.preparedBy) ∧
      (input.updates.notes = none → letter.notes = existing.notes) ∧
      (input.updates.letterDate = none → letter.letterDate = existing.letterDate) ∧
      (input.updates.year = none → letter.year = existing.year) ∧
      (letter.id = existing.id ∧ letter.referenceNumber = existing.referenceNumber ∧
        letter.companyId = existing.companyId ∧ letter.companyName = existing.companyName ∧
        letter.companyAbbreviation = existing.companyAbbreviation ∧
        letter.sequenceNumber = existing.sequenceNumber ∧ letter.webUrl = existing.webUrl ∧
        letter.createdDateTime = existing.createdDateTime) ∧
      (∀ call ∈ (updateLetter ext state upn input).calls, ∀ cid fields,
        call = .updateLetterItem cid fields →
          (input.updates.subject = none → fields.Subject = none) ∧
          (input.updates.recipientCompany = none → fields.RecipientCompany = none) ∧
          (input.updates.preparedBy = none → fields.PreparedBy = none) ∧
          (input.updates.notes = none → fields.Notes = none) ∧
          (input.updates.letterDate = none → fields.LetterDate = none) ∧
          (input.updates.year = none → fields.Year = none)) ∧
      (input.updates.subject = none → input.updates.recipientCompany = none →
        input.updates.preparedBy = none → input.updates.notes = none →
        input.updates.letterDate = none → input.updates.year = none →
        input.attachmentsToAdd = [] → input.attachmentsToRemove = [] →
        (updateLetter ext state upn input).calls = [] ∧
        letter =
          { existing with
            attachments := if existing.attachmentsLoaded then existing.attachments else []
            attachmentsLoaded := true
            hasAttachments :=
              decide ((if existing.attachmentsLoaded then existing.attachments
                else []).length > 0) } ∧
        (existing.attachmentsLoaded = true →
          existing.hasAttachments = decide (existing.attachments.length > 0) →
          letter = existing)) := by
  obtain ⟨id, existing, attachments, hid, hfind, hletter, hatt, -, hcalls⟩ :=
    updateLetter_ok_inv ext state upn input letter hok
  refine ⟨id, existing, hid, hfind, ?_, ?_, ?_, ?_, ?_, ?_, ?_, ?_, ?_⟩
  · intro h
    simp [hletter, updatedLetter, h]
  · intro h
    simp [hletter, updatedLetter, h]
  · intro h
    simp [hletter, updatedLetter, h]
  · intro h
    simp [hletter, updatedLetter, h]
  · intro h
    simp [hletter, updatedLetter, h]
  · intro h
    simp [hletter, updatedLetter, h]
  · rw [hletter]
    exact ⟨rfl, rfl, rfl, rfl, rfl, rfl, rfl, rfl⟩
  · intro call hcall cid fields heq
    rw [hcalls] at hcall
    rw [(updateLetter_calls_inv ext existing id input call hcall).1 cid fields heq]
    refine ⟨?_, ?_, ?_, ?_, ?_, ?_⟩ <;> intro h <;> simp [updateLetterFields, h]
  · intro h1 h2 h3 h4 h5 h6 hadd hrem
    have hfields : updateLetterFields ext.nowIso existing input.updates = {} := by
      simp [updateLetterFields, h1, h2, h3, h4, h5, h6]
    have hkept : attachments
        = if existing.attachmentsLoaded then existing.attachments else [] := by
      rw [hatt hadd, remainingAttachments, hrem]
      simp
    have hl : letter =
        { existing with
          attachments := if existing.attachmentsLoaded then existing.attachments else []
          attachmentsLoaded := true
          hasAttachments :=
            decide ((if existing.attachmentsLoaded then existing.attachments
              else []).length > 0) } := by
      rw [hletter, hkept]
      simp [updatedLetter, h1, h2, h3, h4, h5, h6]
    refine ⟨?_, hl, ?_⟩
    · rw [hcalls, hfields, hadd, hrem]
      simp [deleteLetterFilesCalls]
    · intro hloaded hhas
      rw [hl]
      cases existing
      simp only at hloaded hhas
      simp [hloaded, hhas]

end

/-! ## Lemmas on what `createLetter` persists -/

section
variable [JsEngine]

/-- A successful `createLetter` has sent the record with the assigned values to
the record store. -/
theorem createLetter_ok_persisted (ext : Collaborators) (state : State) (upn : Str)
    (input : CreateLetterInput) (res : CreateLetterResult)
    (hok : (createLetter ext state upn input).result = .ok res) :
    ∃ C company y,
      input.companyId = some C ∧ getCompany state upn (some C) = some company ∧
      derivedYear ext input = some y ∧
      StoreCall.createLetterItem
          (createLetterFields company input res.referenceNumber res.sequenceNumber (some y)
            (normalizeLetterDate ext.nowIso input.letterDate))
        ∈ (createLetter ext state upn input).calls := by
  generalize hout : createLetter ext state upn input = out at hok ⊢
  unfold createLetter at hout
  split at hout
  · subst hout
    cases hok
  split at hout
  · subst hout
    cases hok
  split at hout
  · subst hout
    cases hok
  split at hout
  · subst hout
    cases hok
  next company hcompany =>
  split at hout
  · subst hout
    cases hok
  next sequenceNumber hnext =>
  split at hout
  · subst hout
    cases hok
  obtain ⟨C, y, hC, hy, -, -, -⟩ := getNextSequence_some_inv _ _ _ _ _ hnext
  simp only at hout
  split at hout
  · subst hout
    cases hok
  split at hout
  · split at hout
    · subst hout
      cases hok
    subst hout
    simp only at hok
    injection hok with hok
    subst hok
    rw [hC] at hcompany
    rw [hy]
    exact ⟨C, company, y, hC, hcompany, rfl, by simp⟩
  · subst hout
    simp only at hok
    injection hok with hok
    subst hok
    rw [hC] at hcompany
    rw [hy]
    exact ⟨C, company, y, hC, hcompany, rfl, by simp⟩

end

/-! ## Claims on creation and preview -/

section
variable [JsEngine]

/-- C24, amended: when `createLetter` passes its checks and the store calls
succeed, with `y` the explicit year or else the year of the letter date: the
sequence number persisted and returned is `getNextSequence` of the company and `y`
on the state before the call, the persisted `Year` is `y`, `CompanyItemId` is the
id of the resolved company, and the reference persisted and returned is
`buildReferenceNumber` of the abbreviation, that sequence and `y`.  When the
abbreviation is non-empty and free of slashes, the sequence is positive and
`y ≥ 10`, the reference has the shape `ABBR/SSSS/YY`, and `extractSequenceFromRef`
recovers the assigned sequence number from it whenever that number is a double,
as every number of the program is (`roundToDouble` leaves it as it is, which holds
up to `2^53` by `roundToDouble_of_le`). -/
theorem createLetter_persists (ext : Collaborators) (state : State) (upn : Str)
    (input : CreateLetterInput) (res : CreateLetterResult)
    (hok : (createLetter ext state upn input).result = .ok res) :
    ∃ C company y fields,
      input.companyId = some C ∧ getCompany state upn (some C) = some company ∧
      derivedYear ext input = some y ∧
      getNextSequence state upn (some C) (some y) = some res.sequenceNumber ∧
      res.year = y ∧
      res.referenceNumber
        = buildReferenceNumber (some company.abbreviation) (some res.sequenceNumber) (some y) ∧
      StoreCall.createLetterItem fields ∈ (createLetter ext state upn input).calls ∧
      fields.SequenceNumber = some res.sequenceNumber ∧ fields.Year = some y ∧
      fields.CompanyItemId = some company.id ∧
      fields.ReferenceNumber = some res.referenceNumber ∧
      (company.abbreviation ≠ [] → (∀ c ∈ company.abbreviation, c ≠ '/') →
        0 < res.sequenceNumber → 10 ≤ y →
        MatchesSequencePattern res.referenceNumber
            (padStart 4 '0' (numberToString res.sequenceNumber)) ∧
          (roundToDouble res.sequenceNumber.toNat = res.sequenceNumber.toNat →
            extractSequenceFromRef res.referenceNumber = res.sequenceNumber)) := by
  obtain ⟨C, company, y, created, added, hC, -, -, -, hcompany, hy, -, hnext, -, hry, href, -⟩ :=
    createLetter_ok_inv ext state upn input res hok
  obtain ⟨C2, company2, y2, hC2, hcompany2, hy2, hcall⟩ :=
    createLetter_ok_persisted ext state upn input res hok
  have e1 : C2 = C := by
    rw [hC] at hC2
    injection hC2 with h
    exact h.symm
  subst e1
  have e2 : company2 = company := by
    rw [hcompany] at hcompany2
    injection hcompany2 with h
    exact h.symm
  subst e2
  have e3 : y2 = y := by
    rw [hy] at hy2
    injection hy2 with h
    exact h.symm
  subst e3
  refine ⟨C2, company2, y2, _, hC, hcompany, hy, hnext, hry, href, hcall, rfl, rfl, rfl, rfl, ?_⟩
  intro hA hslash hS hY
  rw [href]
  exact buildReferenceNumber_matches company2.abbreviation res.sequenceNumber y2 hA hslash hS hY

/-- C25: for every company `C` that `getCompany` resolves (cached and inside the
scope) and every year `Y`, `getReferencePreview C Y` is `buildReferenceNumber` of
the abbreviation of the company, `getNextSequence C Y` and `Y`; and when
`createLetter` is given the company `C` and a non-zero year `Y` and succeeds on
the same state, the reference it returns is that preview. -/
theorem preview_agrees (state : State) (upn C : Str) (Y : Int) (company : Company)
    (hcompany : getCompany state upn (some C) = some company) :
    getReferencePreview state upn (some C) (some Y)
        = buildReferenceNumber (some company.abbreviation)
            (getNextSequence state upn (some C) (some Y)) (some Y) ∧
    (∀ (ext : Collaborators) (input : CreateLetterInput) (res : CreateLetterResult),
      input.companyId = some C → input.year = some Y → Y ≠ 0 →
      (createLetter ext state upn input).result = .ok res →
      res.referenceNumber = getReferencePreview state upn (some C) (some Y)) := by
  have hpreview : getReferencePreview state upn (some C) (some Y)
      = buildReferenceNumber (some company.abbreviation)
          (getNextSequence state upn (some C) (some Y)) (some Y) := by
    unfold getReferencePreview
    rw [hcompany]
    simp only
    by_cases hY : Y = 0
    · subst hY
      cases getNextSequence state upn (some C) (some 0) <;>
        simp [truthyNum, buildReferenceNumber]
    · have ht : truthyNum (some Y) = true := by simp [truthyNum, hY]
      simp only [ht, Bool.not_true, Bool.false_eq_true, if_false]
      cases hn : getNextSequence state upn (some C) (some Y) with
      | none => simp [buildReferenceNumber]
      | some n =>
        simp only
        by_cases hn0 : n = 0
        · subst hn0
          simp [buildReferenceNumber]
        · rw [if_neg hn0]
  refine ⟨hpreview, ?_⟩
  intro ext input res hC hYin hY hok
  obtain ⟨C2, company2, y, created, added, hC2, -, -, -, hcompany2, hy, -, hnext, -, -, href, -⟩ :=
    createLetter_ok_inv ext state upn input res hok
  have e1 : C2 = C := by
    rw [hC] at hC2
    injection hC2 with h
    exact h.symm
  subst e1
  have e2 : company2 = company := by
    rw [hcompany] at hcompany2
    injection hcompany2 with h
    exact h.symm
  subst e2
  have e3 : y = Y := by
    have ht : truthyNum (some Y) = true := by simp [truthyNum, hY]
    simp only [derivedYear, hYin, ht, if_true] at hy
    injection hy with h
    exact h.symm
  subst e3
  rw [hpreview, hnext, href]

end

/-! ## Claims on the access-entry list -/

section
variable [JsEngine]

/-- Every failed read of the access list that is not followed by a provisioning
attempt leaves an empty cache marked as loaded, which makes every principal
Admin. -/
theorem loadUserAccess_failed_admin (ext : Collaborators) (state : State) (upn : Str)
    (message : String) (hsite : ext.siteConfigured = true)
    (hfetch : ext.fetchUserAccess = .error message)
    (hmissing : isListMissingError message = false) (hempty : state.userAccess = []) :
    (loadUserAccess ext state).result = .error message ∧
      isAdmin (loadUserAccess ext state).state upn = true ∧
      canManageCompanies (loadUserAccess ext state).state upn = true := by
  have hstate : (loadUserAccess ext state).state
      = loadUserAccessFinally
          (letterReducer (letterReducer state (.setLoading .userAccess true))
            (.setError (some message))) := by
    unfold loadUserAccess
    simp [hsite, hfetch, hmissing]
  have hres : (loadUserAccess ext state).result = .error message := by
    unfold loadUserAccess
    simp [hsite, hfetch, hmissing]
  have hl : (loadUserAccess ext state).state.userAccessLoaded = true := by
    rw [hstate]
    rfl
  have hu : (loadUserAccess ext state).state.userAccess = [] := by
    rw [hstate]
    exact hempty
  have hcur : currentUserAccess (loadUserAccess ext state).state upn = none :=
    currentUserAccess_none _ upn (by
      intro entry hentry
      rw [hu] at hentry
      cases hentry)
  have hb : baseRole (loadUserAccess ext state).state upn = "Admin".toList := by
    simp [baseRole, hl, hcur, hasAssignments, hu]
  have hadmin : isAdmin (loadUserAccess ext state).state upn = true := by
    rw [isAdmin, currentRole_of_admin _ upn hb]
    decide
  exact ⟨hres, hadmin, hadmin⟩

/-- C28, amended: `updateUserAccessEntry` replaces the allowed-company list by
the one of the payload.  A successful call makes one store call, whose
`CompanyIds` field is the comma-joined list of the non-empty ids of the payload,
and caches, under the given id, an entry whose company list is that list.  With
`companyIds` absent both are empty; the list is left as it was when the payload
carries it (a list without empty ids is sent and cached as it is). -/
theorem updateUserAccessEntry_replaces (ext : Collaborators) (state : State) (upn : Str)
    (itemId : Option Str) (input : UserAccessInput) (entry : UserAccessEntry)
    (hok : (updateUserAccessEntry ext state upn itemId input).result = .ok entry) :
    ∃ id fields, itemId = some id ∧
      (updateUserAccessEntry ext state upn itemId input).calls
        = [.updateUserAccessItem id fields] ∧
      fields.CompanyIds = some (joinWith ",".toList (normalizedIds input.companyIds)) ∧
      entry.id = id ∧ entry.companyIds = normalizedIds input.companyIds ∧
      (updateUserAccessEntry ext state upn itemId input).state.userAccess
        = state.userAccess.map (fun e => if e.id = id then entry else e) ∧
      (input.companyIds = none → fields.CompanyIds = some [] ∧ entry.companyIds = []) ∧
      (∀ ids, input.companyIds = some ids → (∀ i ∈ ids, i ≠ []) →
        fields.CompanyIds = some (joinWith ",".toList ids) ∧ entry.companyIds = ids) := by
  have hfilter : ∀ ids : List Str, (∀ i ∈ ids, i ≠ []) → normalizedIds (some ids) = ids := by
    intro ids hids
    simp only [normalizedIds, Option.getD_some]
    exact List.filter_eq_self.2 (fun i hi => by simpa using hids i hi)
  generalize hout : updateUserAccessEntry ext state upn itemId input = out at hok ⊢
  unfold updateUserAccessEntry at hout
  split at hout
  · rw [← hout] at hok
    cases hok
  · rename_i hid
    split at hout
    · rw [← hout] at hok
      cases hok
    · obtain ⟨id, hidv, -⟩ := truthyStr_inv itemId (by simpa using hid)
      subst hidv
      simp only [Option.getD_some] at hout
      split at hout
      · rw [← hout] at hok
        simp [failedWith] at hok
      · rw [← hout] at hok ⊢
        simp only [Except.ok.injEq] at hok
        subst hok
        refine ⟨id, _, rfl, rfl, rfl, rfl, rfl, ?_, ?_, ?_⟩
        · simp [letterReducer]
        · intro hnone
          rw [hnone]
          exact ⟨rfl, rfl⟩
        · intro ids hsome hids
          rw [hsome, hfilter ids hids]
          exact ⟨rfl, rfl⟩

end

/-! ## Evaluations on the example inputs

The example inputs are ASCII strings, on which every engine lower-cases as
`asciiEngine` does; the statements below are evaluated in it. -/

/-- C1, as the claim states it, fails: with the single cached letter
`{c1, 2024, sequence -3}` the maximum sequence number of `(c1, 2024)` is `-3`, and
`getNextSequence` returns `1`, not `-3 + 1`. -/
theorem getNextSequence_max_counterexample :
    outOfScope { letters := [{ companyId := "c1".toList, year := 2024, sequenceNumber := -3 }] }
        [] "c1".toList = false ∧
      getNextSequence
          { letters := [{ companyId := "c1".toList, year := 2024, sequenceNumber := -3 }] }
          [] (some "c1".toList) (some 2024) = some 1 ∧
      getNextSequence
          { letters := [{ companyId := "c1".toList, year := 2024, sequenceNumber := -3 }] }
          [] (some "c1".toList) (some 2024) ≠ some (-3 + 1) := by
  decide

theorem getNextSequence_max_witness :
    getNextSequence
        { letters := [{ companyId := "c1".toList, year := 2024, sequenceNumber := 7 }] }
        [] (some "c1".toList) (some 2024) = some 8 :=
  (getNextSequence_max
    { letters := [{ companyId := "c1".toList, year := 2024, sequenceNumber := 7 }] }
    [] "c1".toList 2024 7 (by decide) (by decide) (by decide)
    ⟨_, List.mem_singleton.2 rfl, rfl, rfl, rfl⟩
    (by
      intro l hl _ _
      rw [List.mem_singleton.1 hl])).2 (by decide)

theorem getNextSequence_starting_witness :
    getNextSequence
        { companies := [{ id := "c1".toList, abbreviation := "EASE".toList, startingNumber := 5 }]
          letters := [{ companyId := "c1".toList, year := 2024, sequenceNumber := 7 }] }
        [] (some "c1".toList) (some 2025) = some 5 :=
  (getNextSequence_starting
    { companies := [{ id := "c1".toList, abbreviation := "EASE".toList, startingNumber := 5 }]
      letters := [{ companyId := "c1".toList, year := 2024, sequenceNumber := 7 }] }
    [] "c1".toList 2025 (by decide) (by decide) (by decide) (by decide)).1
    { id := "c1".toList, abbreviation := "EASE".toList, startingNumber := 5 } (by decide)
    (by decide)

theorem getNextSequence_null_witness :
    allowedCompanySet
        { userAccessLoaded := true
          userAccess :=
            [{ userPrincipalName := "a@x.com".toList, role := "Editor".toList,
               companyIds := ["c1".toList] }] }
        "a@x.com".toList = some ["c1".toList] ∧
      getNextSequence
        { userAccessLoaded := true
          userAccess :=
            [{ userPrincipalName := "a@x.com".toList, role := "Editor".toList,
               companyIds := ["c1".toList] }]
          companies := [{ id := "c2".toList, abbreviation := "ACME".toList }]
          letters := [{ companyId := "c2".toList, year := 2024, sequenceNumber := 7 }] }
        "a@x.com".toList (some "c2".toList) (some 2024) = none :=
  ⟨by decide,
    ((getNextSequence_null
      { userAccessLoaded := true
        userAccess :=
          [{ userPrincipalName := "a@x.com".toList, role := "Editor".toList,
             companyIds := ["c1".toList] }] }
      "a@x.com".toList (some "c2".toList) (some 2024)).2.2 "c2".toList ["c1".toList] rfl
      (by decide) (by decide) [{ id := "c2".toList, abbreviation := "ACME".toList }]
      [{ companyId := "c2".toList, year := 2024, sequenceNumber := 7 }]).1⟩

/-- C4, as the claim states it, fails: `createLetter` caches `mapLetter` of the
item the record store answers with, not the fields it sent.  With a store that
answers with the id alone, a successful `createLetter` for `(c1, 2024)` assigns 8,
the cached letter carries no company id and sequence number 0, `getNextSequence`
for `(c1, 2024)` is 8 after the `ADD_LETTER` step as before it, and a second
`createLetter` assigns 8 again. -/
theorem createLetter_reuse_counterexample :
    getNextSequence scenarioState [] (some "c1".toList) (some 2024) = some 8 ∧
      (createLetter silentStore scenarioState []
          { companyId := some "c1".toList, year := some 2024 }).result
        = .ok { referenceNumber := "EASE/0008/24".toList, sequenceNumber := 8, year := 2024 } ∧
      ((createLetter silentStore scenarioState []
          { companyId := some "c1".toList, year := some 2024 }).state.letters.map
        (fun l => (l.companyId, l.year, l.sequenceNumber)))
        = [([], 2024, 0), ("c1".toList, 2024, 7)] ∧
      getNextSequence
          (createLetter silentStore scenarioState []
            { companyId := some "c1".toList, year := some 2024 }).state
          [] (some "c1".toList) (some 2024) = some 8 ∧
      (createLetter silentStore
          (createLetter silentStore scenarioState []
            { companyId := some "c1".toList, year := some 2024 }).state
          [] { companyId := some "c1".toList, year := some 2024 }).result
        = .ok { referenceNumber := "EASE/0008/24".toList, sequenceNumber := 8, year := 2024 } :=
  ⟨by decide, rfl, by decide, by decide, rfl⟩

theorem createLetter_sequence_fresh_witness :
    (createLetter echoStore scenarioState []
        { companyId := some "c1".toList, year := some 2024 }).result
        = .ok { referenceNumber := "EASE/0008/24".toList, sequenceNumber := 8, year := 2024 } ∧
      (∀ fields item, echoStore.createListItem fields = .ok item → item.fields = fields) ∧
      ∃ C, some "c1".toList = some C ∧
        getNextSequence scenarioState [] (some C) (some 2024) = some 8 ∧
        (∀ l ∈ scenarioState.letters, l.companyId = C → l.year = 2024 → l.sequenceNumber < 8) ∧
        (((relevantLetters scenarioState C 2024).map Letter.sequenceNumber).Nodup →
          ((relevantLetters
            (createLetter echoStore scenarioState []
              { companyId := some "c1".toList, year := some 2024 }).state C 2024).map
            Letter.sequenceNumber).Nodup) ∧
        (∃ n, getNextSequence
            (createLetter echoStore scenarioState []
              { companyId := some "c1".toList, year := some 2024 }).state [] (some C)
            (some 2024) = some n ∧ 8 < n) :=
  have hecho : ∀ fields item, echoStore.createListItem fields = .ok item → item.fields = fields :=
    fun _ _ h => by
      injection h with h
      rw [← h]
  ⟨rfl, hecho,
    match createLetter_sequence_fresh echoStore scenarioState []
      { companyId := some "c1".toList, year := some 2024 }
      { referenceNumber := "EASE/0008/24".toList, sequenceNumber := 8, year := 2024 } rfl with
    | ⟨C, h1, h2, h3, h4⟩ => ⟨C, h1, h2, h3, h4 hecho⟩⟩

/-- C10, as the claim states it, fails: with a loaded access list that names only
`b@x.com`, the unlisted principal `a@x.com` is exposed the whole company and
letter caches, `getCompany` returns company `c1` and `getNextSequence` returns 8. -/
theorem unlisted_principal_counterexample :
    unlistedState.userAccessLoaded = true ∧ unlistedState.userAccess ≠ [] ∧
      currentUserAccess unlistedState "a@x.com".toList = none ∧
      allowedCompanySet unlistedState "a@x.com".toList = none ∧
      scopedCompanies unlistedState "a@x.com".toList ≠ [] ∧
      scopedLetters unlistedState "a@x.com".toList ≠ [] ∧
      getCompany unlistedState "a@x.com".toList (some "c1".toList) ≠ none ∧
      getNextSequence unlistedState "a@x.com".toList (some "c1".toList) (some 2024) = some 8 := by
  decide

theorem unlisted_principal_scope_witness :
    scopedCompanies unlistedState "a@x.com".toList = unlistedState.companies ∧
      canEditLetters unlistedState "a@x.com".toList = false :=
  have h := unlisted_principal_scope unlistedState "a@x.com".toList (by decide) (by decide)
    (by decide)
  ⟨h.2.2.2.2.2.1, h.2.2.1⟩

theorem role_without_entry_witness :
    baseRole unlistedState "a@x.com".toList = "Viewer".toList ∧
      canEditLetters unlistedState "a@x.com".toList = false ∧
      canManageCompanies unlistedState "a@x.com".toList = false :=
  (role_without_entry unlistedState "a@x.com".toList (by decide)).2.2 (by decide) (by decide)

theorem role_of_matching_entry_witness :
    currentUserPrincipalName (some { username := some "a@x.com".toList }) = "a@x.com".toList ∧
      entryPrincipalName
          { id := "2".toList, userPrincipalName := "A@X.com".toList, role := "Editor".toList,
            companyIds := ["c1".toList] }
        = "A@X.com".toList ∧
      baseRole mixedCaseState
          (currentUserPrincipalName (some { username := some "a@x.com".toList }))
        = "Editor".toList :=
  ⟨by decide, by decide,
    (role_of_matching_entry mixedCaseState { username := some "a@x.com".toList }
      { id := "2".toList, userPrincipalName := "A@X.com".toList, role := "Editor".toList,
        companyIds := ["c1".toList] }
      (by decide) (by decide) (by decide) (by decide) (by decide)).2⟩

/-- C13, as the claim states it, fails: of the two entries that name `a@x.com`
the Viewer entry restricted to `c1` comes first and the Admin entry last; the
resolved role is Viewer and the scope is `{c1}`, not Admin with an unrestricted
scope. -/
theorem last_match_counterexample :
    baseRole duplicateEntryState "a@x.com".toList = "Viewer".toList ∧
      isAdmin duplicateEntryState "a@x.com".toList = false ∧
      allowedCompanySet duplicateEntryState "a@x.com".toList = some ["c1".toList] := by
  decide

theorem first_match_wins_witness :
    baseRole duplicateEntryState "a@x.com".toList = "Viewer".toList :=
  (first_match_wins duplicateEntryState "a@x.com".toList []
    [{ id := "2".toList, userPrincipalName := "a@x.com".toList, role := "Admin".toList }]
    { id := "1".toList, userPrincipalName := "a@x.com".toList, role := "Viewer".toList,
      companyIds := ["c1".toList] }
    (by decide) (by decide) (by decide) (by decide) (by decide)).2.1

/-- C14, as the claim states it, fails: the role string `admin` is not the
string `Admin`, yet it gives `isAdmin`, `canEditLetters` and `canManageCompanies`. -/
theorem capability_case_counterexample :
    baseRole lowerCaseAdminState "a@x.com".toList = "admin".toList ∧
      "admin".toList ≠ "Admin".toList ∧
      isAdmin lowerCaseAdminState "a@x.com".toList = true ∧
      canEditLetters lowerCaseAdminState "a@x.com".toList = true ∧
      canManageCompanies lowerCaseAdminState "a@x.com".toList = true := by
  decide

theorem capabilities_of_role_witness :
    (isAdmin editorState "a@x.com".toList = true ↔
        toLowerCase "Editor".toList = "admin".toList) ∧
      canEditLetters editorState "a@x.com".toList = true :=
  have h := capabilities_of_role editorState "a@x.com".toList "Editor".toList (by decide)
  ⟨h.1, h.2.1.2 (Or.inr (by decide))⟩

theorem scope_of_matched_entry_witness :
    ∃ A, allowedCompanySet editorState "a@x.com".toList = some A ∧
      ∀ id, id ∈ A ↔ id ≠ [] ∧ ∃ raw ∈ ["c1".toList], trim raw = id :=
  (scope_of_matched_entry editorState "a@x.com".toList
    { id := "1".toList, userPrincipalName := "A@X.com".toList, role := "Editor".toList,
      companyIds := ["c1".toList] }
    (by decide) (by decide)).2.1 (by decide) ⟨"c1".toList, by decide, by decide⟩

theorem scope_filtering_witness :
    scopedCompanies editorState "a@x.com".toList
        = [{ id := "c1".toList, abbreviation := "EASE".toList }] ∧
      scopedLetters editorState "a@x.com".toList
        = [{ id := "l1".toList, companyId := "c1".toList, year := 2024, sequenceNumber := 7 }] :=
  have h := (scope_filtering editorState "a@x.com".toList).1 ["c1".toList] (by decide)
  ⟨h.1.trans (by decide), h.2.1.trans (by decide)⟩

/-- C17, as the claim states it, fails: for the Viewer `a@x.com`, `deleteCompany`
without a company id returns without an error, and `createLetter` without a
company id fails with the validation message, which is not a permission-denied
message. -/
theorem viewer_denied_counterexample :
    baseRole unlistedState "a@x.com".toList = "Viewer".toList ∧
      (deleteCompany echoStore unlistedState "a@x.com".toList none).result = .ok () ∧
      (createLetter echoStore unlistedState "a@x.com".toList {}).result
        = .error "Please choose a company." ∧
      "Please choose a company." ∉ permissionMessages :=
  ⟨by decide, rfl, rfl, by decide⟩

theorem viewer_mutations_denied_witness :
    createLetter echoStore unlistedState "a@x.com".toList
        { companyId := some "c1".toList, year := some 2024 }
      = ⟨unlistedState, [], .error "You do not have permission to create letters."⟩ :=
  (viewer_mutations_denied echoStore unlistedState "a@x.com".toList (by decide)).2.1
    { companyId := some "c1".toList, year := some 2024 }

theorem fail_fast_witness :
    ("Letter not found." ∈ localMessages ∧
        (updateLetter echoStore scenarioState [] { letterId := some "zz".toList }).calls = [] ∧
        (updateLetter echoStore scenarioState [] { letterId := some "zz".toList }).state
          = scenarioState) ∨
      ((updateLetter echoStore scenarioState [] { letterId := some "zz".toList }).calls ≠ [] ∧
        StoreFailed echoStore "Letter not found.") :=
  (fail_fast echoStore scenarioState []).2.2.2.2.1 { letterId := some "zz".toList }
    "Letter not found." rfl

theorem createLetter_outOfScope_witness :
    createLetter echoStore editorState "a@x.com".toList
        { companyId := some "c2".toList, year := some 2024 }
      = ⟨editorState, [], .error "You do not have access to this company."⟩ :=
  (createLetter_outOfScope echoStore editorState "a@x.com".toList
    { companyId := some "c2".toList, year := some 2024 } ["c1".toList] "c2".toList
    (by decide) (by decide) rfl (by decide) (by decide)).2.1

theorem updateLetter_scope_witness :
    ∃ m, m ∈ permissionMessages ∧
      updateLetter echoStore editorState "a@x.com".toList
          { letterId := some "l2".toList
            updates := { subject := some "x".toList, companyId := some "c1".toList }
            attachmentsToAdd := []
            attachmentsToRemove := [] }
        = ⟨editorState, [], .error m⟩ :=
  (updateLetter_scope echoStore editorState "a@x.com".toList ["c1".toList] "l2".toList
    { id := "l2".toList, companyId := "c2".toList, year := 2024, sequenceNumber := 3 }
    (by decide) (by decide) (by decide)).1 (by decide)
    { subject := some "x".toList, companyId := some "c1".toList } [] []

theorem updateLetter_identity_frame_witness :
    ∃ id existing,
      some "l1".toList = some id ∧
      editorState.letters.find? (fun l => l.id == id) = some existing ∧
      existing.sequenceNumber = 7 :=
  match updateLetter_identity_frame echoStore editorState "a@x.com".toList
      { letterId := some "l1".toList
        updates := { subject := some "x".toList, sequenceNumber := some 99,
                     companyId := some "c2".toList } }
      { id := "l1".toList, companyId := "c1".toList, year := 2024, sequenceNumber := 7,
        subject := "x".toList, attachmentsLoaded := true }
      rfl with
  | ⟨id, existing, h1, h2, _, h4, _⟩ => ⟨id, existing, h1, h2, h4.symm⟩

/-- C22, as the claim states it, fails: with `year: 1999` in the payload, the
letter `l1` of year 2024 is returned and cached with year 1999, and `Year = 1999`
is sent to the record store. -/
theorem updateLetter_year_counterexample :
    (updateLetter echoStore editorState "a@x.com".toList
        { letterId := some "l1".toList, updates := { year := some 1999 } }).result
        = .ok { id := "l1".toList, companyId := "c1".toList, year := 1999, sequenceNumber := 7,
                attachmentsLoaded := true } ∧
      (updateLetter echoStore editorState "a@x.com".toList
        { letterId := some "l1".toList, updates := { year := some 1999 } }).calls
        = [.updateLetterItem "l1".toList { Year := some 1999 }] ∧
      (updateLetter echoStore editorState "a@x.com".toList
        { letterId := some "l1".toList, updates := { year := some 1999 } }).state.letters
        = [{ id := "l1".toList, companyId := "c1".toList, year := 1999, sequenceNumber := 7,
             attachmentsLoaded := true },
           { id := "l2".toList, companyId := "c2".toList, year := 2024, sequenceNumber := 3 }] :=
  ⟨rfl, rfl, rfl⟩

theorem updateLetter_year_witness :
    ∃ id existing,
      some "l1".toList = some id ∧
      editorState.letters.find? (fun l => l.id == id) = some existing ∧
      (2024 : Int) = (none : Option Int).getD existing.year :=
  match updateLetter_year echoStore editorState "a@x.com".toList
      { letterId := some "l1".toList, updates := { subject := some "x".toList } }
      { id := "l1".toList, companyId := "c1".toList, year := 2024, sequenceNumber := 7,
        subject := "x".toList, attachmentsLoaded := true }
      rfl with
  | ⟨id, existing, h1, h2, h3, _⟩ => ⟨id, existing, h1, h2, h3⟩

/-- C23, as the claim states it, fails: the cached letter `l1` has not had its
attachments loaded; `updateLetter` with an empty payload and nothing to add or
remove makes no call, but the letter it returns and caches differs from the
cached one, its attachments being marked as loaded. -/
theorem updateLetter_empty_counterexample :
    editorState.letters.find? (fun l => l.id == "l1".toList)
        = some { id := "l1".toList, companyId := "c1".toList, year := 2024,
                 sequenceNumber := 7 } ∧
      (updateLetter echoStore editorState "a@x.com".toList
        { letterId := some "l1".toList }).calls = [] ∧
      (updateLetter echoStore editorState "a@x.com".toList
        { letterId := some "l1".toList }).result
        = .ok { id := "l1".toList, companyId := "c1".toList, year := 2024, sequenceNumber := 7,
                attachmentsLoaded := true } ∧
      ({ id := "l1".toList, companyId := "c1".toList, year := 2024, sequenceNumber := 7,
         attachmentsLoaded := true } : Letter)
        ≠ { id := "l1".toList, companyId := "c1".toList, year := 2024, sequenceNumber := 7 } :=
  ⟨by decide, rfl, rfl, by decide⟩

theorem updateLetter_partial_witness :
    ∃ id existing,
      some "l1".toList = some id ∧
      editorState.letters.find? (fun l => l.id == id) = some existing ∧
      ((none : Option Str) = none → ([] : Str) = existing.notes) :=
  match updateLetter_partial echoStore editorState "a@x.com".toList
      { letterId := some "l1".toList, updates := { subject := some "x".toList } }
      { id := "l1".toList, companyId := "c1".toList, year := 2024, sequenceNumber := 7,
        subject := "x".toList, attachmentsLoaded := true }
      rfl with
  | ⟨id, existing, h1, h2, _, _, _, h6, _⟩ => ⟨id, existing, h1, h2, h6⟩

/-- C24, as the claim states it, fails: for the company with abbreviation `A/B`,
`createLetter` succeeds, assigns sequence 1 and returns the reference
`A/B/0001/24`, from which `extractSequenceFromRef` recovers 0, not 1. -/
theorem createLetter_canonical_counterexample :
    (createLetter echoStore slashCompanyState []
        { companyId := some "c1".toList, year := some 2024 }).result
        = .ok { referenceNumber := "A/B/0001/24".toList, sequenceNumber := 1, year := 2024 } ∧
      extractSequenceFromRef "A/B/0001/24".toList = 0 :=
  ⟨rfl, by decide⟩

theorem createLetter_persists_witness :
    (∃ (C : Str) (company : Company) (y : Int) (fields : LetterFields),
      some "c1".toList = some C ∧ getCompany scenarioState [] (some C) = some company ∧
      derivedYear echoStore { companyId := some "c1".toList, year := some 2024 } = some y ∧
      fields.SequenceNumber = some 8 ∧ fields.ReferenceNumber = some "EASE/0008/24".toList) ∧
      roundToDouble 8 = 8 ∧ extractSequenceFromRef "EASE/0008/24".toList = 8 := by
  obtain ⟨C, company, y, fields, h1, h2, h3, -, -, -, -, h8, -, -, h11, hcanon⟩ :=
    createLetter_persists echoStore scenarioState []
      { companyId := some "c1".toList, year := some 2024 }
      { referenceNumber := "EASE/0008/24".toList, sequenceNumber := 8, year := 2024 } rfl
  refine ⟨⟨C, company, y, fields, h1, h2, h3, h8, h11⟩, by decide, ?_⟩
  have hC : C = "c1".toList := (Option.some.inj h1).symm
  subst hC
  have hcompany : company
      = { id := "c1".toList, abbreviation := "EASE".toList, startingNumber := 1 } :=
    Option.some.inj (h2.symm.trans (by decide))
  have hy : y = 2024 := Option.some.inj (h3.symm.trans (by decide))
  subst hcompany hy
  exact (hcanon (by decide) (by decide) (by decide) (by decide)).2 (by decide)

theorem preview_agrees_witness :
    getReferencePreview previewState [] (some "c1".toList) (some 2024) = "EASE/0001/24".toList :=
  (preview_agrees previewState [] "c1".toList 2024
    { id := "c1".toList, abbreviation := "EASE".toList, startingNumber := 1 }
    (by decide)).1.trans (by decide)

/-- C27, evaluated at the failing input: the cache holds no access entries, the
read of the access list is refused; `loadUserAccess` ends with the error, the
cache is still empty but marked as loaded, and the principal `a@x.com` has
`isAdmin` and `canManageCompanies`. -/
theorem failed_load_grants_admin :
    initialState.userAccess = [] ∧
      (loadUserAccess failingAccessStore initialState).result
        = .error "Failed to load list items: 403 Forbidden" ∧
      (loadUserAccess failingAccessStore initialState).state.userAccess = [] ∧
      (loadUserAccess failingAccessStore initialState).state.userAccessLoaded = true ∧
      isAdmin (loadUserAccess failingAccessStore initialState).state "a@x.com".toList = true ∧
      canManageCompanies (loadUserAccess failingAccessStore initialState).state
        "a@x.com".toList = true :=
  ⟨rfl, rfl, rfl, rfl, by decide, by decide⟩

/-- C28, as the claim states it, fails: the admin changes the role of entry `2`
(`a@x.com`, restricted to `c1`) with a payload that has no `companyIds`; the
`CompanyIds` field sent to the record store is the empty string, the cached entry
has an empty company list, and the scope of `a@x.com` goes from `{c1}` to
unrestricted. -/
theorem role_change_widens_scope :
    allowedCompanySet restrictedUserState "a@x.com".toList = some ["c1".toList] ∧
      (updateUserAccessEntry echoStore restrictedUserState "admin@x.com".toList
        (some "2".toList)
        { userPrincipalName := some "a@x.com".toList, role := some "Viewer".toList }).calls
        = [.updateUserAccessItem "2".toList
            { Title := some "a@x.com".toList, UserPrincipalName := some "a@x.com".toList,
              Role := some "Viewer".toList, CompanyIds := some [], CompanyNames := some [] }] ∧
      (updateUserAccessEntry echoStore restrictedUserState "admin@x.com".toList
        (some "2".toList)
        { userPrincipalName := some "a@x.com".toList, role := some "Viewer".toList }).result
        = .ok { id := "2".toList, title := "a@x.com".toList,
                userPrincipalName := "a@x.com".toList, role := "Viewer".toList,
                companyIds := [] } ∧
      allowedCompanySet
        (updateUserAccessEntry echoStore restrictedUserState "admin@x.com".toList
          (some "2".toList)
          { userPrincipalName := some "a@x.com".toList, role := some "Viewer".toList }).state
        "a@x.com".toList = none :=
  ⟨by decide, rfl, rfl, by decide⟩

theorem updateUserAccessEntry_replaces_witness :
    (updateUserAccessEntry echoStore restrictedUserState "admin@x.com".toList
        (some "2".toList)
        { userPrincipalName := some "a@x.com".toList, role := some "Viewer".toList,
          companyIds := some ["c1".toList] }).result
        = .ok { id := "2".toList, title := "a@x.com".toList,
                userPrincipalName := "a@x.com".toList, role := "Viewer".toList,
                companyIds := ["c1".toList] } ∧
      allowedCompanySet
        (updateUserAccessEntry echoStore restrictedUserState "admin@x.com".toList
          (some "2".toList)
          { userPrincipalName := some "a@x.com".toList, role := some "Viewer".toList,
            companyIds := some ["c1".toList] }).state
        "a@x.com".toList = some ["c1".toList] ∧
      ∃ id fields, some "2".toList = some id ∧
        (updateUserAccessEntry echoStore restrictedUserState "admin@x.com".toList
          (some "2".toList)
          { userPrincipalName := some "a@x.com".toList, role := some "Viewer".toList,
            companyIds := some ["c1".toList] }).calls
          = [.updateUserAccessItem id fields] ∧
        fields.CompanyIds = some (joinWith ",".toList (normalizedIds (some ["c1".toList]))) ∧
        "2".toList = id ∧ ["c1".toList] = normalizedIds (some ["c1".toList]) ∧
        (updateUserAccessEntry echoStore restrictedUserState "admin@x.com".toList
          (some "2".toList)
          { userPrincipalName := some "a@x.com".toList, role := some "Viewer".toList,
            companyIds := some ["c1".toList] }).state.userAccess
          = restrictedUserState.userAccess.map (fun e =>
              if e.id = id then
                { id := "2".toList, title := "a@x.com".toList,
                  userPrincipalName := "a@x.com".toList, role := "Viewer".toList,
                  companyIds := ["c1".toList] }
              else e) ∧
        (some ["c1".toList] = none →
          fields.CompanyIds = some [] ∧ ["c1".toList] = ([] : List Str)) ∧
        (∀ ids, some ["c1".toList] = some ids → (∀ i ∈ ids, i ≠ []) →
          fields.CompanyIds = some (joinWith ",".toList ids) ∧ ["c1".toList] = ids) :=
  ⟨rfl, by decide,
    updateUserAccessEntry_replaces echoStore restrictedUserState "admin@x.com".toList
      (some "2".toList)
      { userPrincipalName := some "a@x.com".toList, role := some "Viewer".toList,
        companyIds := some ["c1".toList] }
      { id := "2".toList, title := "a@x.com".toList,
        userPrincipalName := "a@x.com".toList, role := "Viewer".toList,
        companyIds := ["c1".toList] } rfl⟩

/-- C29, evaluated at the failing input: the files `a.pdf` and `b.pdf` of one
upload for the reference `EASE/0001/24` have distinct names, and both are written
to the target path `EASE/EASE-0001-24.pdf`. -/
theorem stored_names_collide :
    "a.pdf".toList ≠ "b.pdf".toList ∧
      buildStoredFileName (some "EASE/0001/24".toList) "a.pdf".toList
        = buildStoredFileName (some "EASE/0001/24".toList) "b.pdf".toList ∧
      uploadTargetPaths [] { abbreviation := "EASE".toList } "EASE/0001/24".toList
          [{ name := "a.pdf".toList }, { name := "b.pdf".toList }]
        = ["EASE/EASE-0001-24.pdf".toList, "EASE/EASE-0001-24.pdf".toList] ∧
      ¬ (uploadTargetPaths [] { abbreviation := "EASE".toList } "EASE/0001/24".toList
          [{ name := "a.pdf".toList }, { name := "b.pdf".toList }]).Nodup := by
  decide

/-- C30, evaluated at the failing input: after `updateCompany` has set the
starting number of `c1` to `-5`, `getNextSequence` for a year without letters
returns `-5`, and `createLetter` assigns the sequence number `-5` with the
reference `EASE/00-5/25`; `mapCompany` keeps a negative `StartingNumber` as well. -/
theorem negative_starting_number :
    (updateCompany echoStore scenarioState [] (some "c1".toList)
        { startingNumber := some (-5) }).result
        = .ok { id := "c1".toList, abbreviation := "EASE".toList, startingNumber := -5 } ∧
      getNextSequence
        (updateCompany echoStore scenarioState [] (some "c1".toList)
          { startingNumber := some (-5) }).state
        [] (some "c1".toList) (some 2025) = some (-5) ∧
      (createLetter echoStore
        (updateCompany echoStore scenarioState [] (some "c1".toList)
          { startingNumber := some (-5) }).state
        [] { companyId := some "c1".toList, year := some 2025 }).result
        = .ok { referenceNumber := "EASE/00-5/25".toList, sequenceNumber := -5, year := 2025 } ∧
      (mapCompany { id := "c1".toList, fields := { StartingNumber := some (-5) } }).startingNumber
        = -5 :=
  ⟨rfl, by decide, rfl, by decide⟩

end LetterNumbering
